import Mathlib

/-!
# UpdateManagerPlugin: batching and reminder state machine

A shallow embedding of `src/UpdateManagerPlugin.js`.

* JavaScript `Map`s are insertion-ordered association lists with pairwise distinct keys.
* The JavaScript runtime's pending timeouts are an explicit list; `setTimeout` allocates a fresh
  handle, `clearTimeout` removes the handle from the pending list, and a firing removes the
  timer and runs its callback.
* The methods are given twice.  First each `async` method is one state transformer from its start
  to its end (`sendBatchUpdateNotification`, `sendReminderNotification`, `fireTimer`, `run`):
  this is the method when the promise of its `channel.send` settles before any other callback
  runs.  Then the methods are split at the `await` (`Session`, `startBatchNotification`,
  `startReminderNotification`, `settleSend`, `asyncStep`, `runAsync`): a call to `channel.send`
  stays in flight until its promise settles, and events, timer firings and `unmount` can run in
  between.
* `new Date()` reads the `now` argument that the callback is given.
* A thrown exception is an explicit `Completion.threw`; the only primitive that can throw is
  `channel.send`.
-/

namespace UpdateManagerPlugin

/-! ## JavaScript `Map` -/

/-- A JavaScript `Map` with string keys: entries in insertion order, keys pairwise distinct. -/
structure JSMap (α : Type) where
  entries : List (String × α)
  nodup : (entries.map Prod.fst).Nodup

namespace JSMap

variable {α : Type}

/-- Result of `new Map()`. -/
def empty : JSMap α := ⟨[], List.nodup_nil⟩

/-- Entry update used by `Map.prototype.set`: an existing key keeps its position and gets the new
value, a new key is appended at the end. -/
def setEntries : List (String × α) → String → α → List (String × α)
  | [], k, v => [(k, v)]
  | (k', v') :: rest, k, v =>
    if k' = k then (k, v) :: rest else (k', v') :: setEntries rest k v

/-- Method `Map.prototype.set`. -/
def set (m : JSMap α) (k : String) (v : α) : JSMap α :=
  ⟨setEntries m.entries k v, by
    have key : ∀ l : List (String × α), (l.map Prod.fst).Nodup →
        ((setEntries l k v).map Prod.fst).Nodup ∧
          ∀ a, a ∈ (setEntries l k v).map Prod.fst → a = k ∨ a ∈ l.map Prod.fst := by
      intro l
      induction l with
      | nil => intro _; simp [setEntries]
      | cons x rest ih =>
        obtain ⟨k', v'⟩ := x
        intro h
        have hn := List.nodup_cons.mp h
        by_cases hk : k' = k
        · subst hk
          refine ⟨by simpa [setEntries] using h, ?_⟩
          intro a ha
          right
          simpa [setEntries] using ha
        · obtain ⟨ih1, ih2⟩ := ih hn.2
          refine ⟨?_, ?_⟩
          · simp only [setEntries, hk, if_false, List.map_cons]
            refine List.nodup_cons.mpr ⟨?_, ih1⟩
            intro hmem
            rcases ih2 k' hmem with e | e
            · exact hk e
            · exact hn.1 e
          · intro a ha
            simp only [setEntries, hk, if_false, List.map_cons, List.mem_cons] at ha
            rcases ha with e | e
            · right; simp [e]
            · rcases ih2 a e with e' | e'
              · left; exact e'
              · right; simp [e']
    exact (key m.entries m.nodup).1⟩

/-- Method `Map.prototype.get`; `none` is `undefined`. -/
def get (m : JSMap α) (k : String) : Option α :=
  (m.entries.find? (fun e => e.1 = k)).map Prod.snd

/-- Method `Map.prototype.has`. -/
def has (m : JSMap α) (k : String) : Bool :=
  (m.get k).isSome

/-- Method `Map.prototype.values`, in insertion order. -/
def values (m : JSMap α) : List α :=
  m.entries.map Prod.snd

/-- Keys in insertion order. -/
def keys (m : JSMap α) : List String :=
  m.entries.map Prod.fst

/-- Method `Map.prototype.clear`. -/
def clear (_m : JSMap α) : JSMap α := empty

/-- Applies `f` to every stored value in place; keys and order are untouched.  This is how a
mutation of the objects held by the map shows in the map. -/
def mapValues (m : JSMap α) (f : α → α) : JSMap α :=
  ⟨m.entries.map (fun e => (e.1, f e.2)), by
    have : (m.entries.map (fun e => (e.1, f e.2))).map Prod.fst = m.entries.map Prod.fst := by
      simp [List.map_map, Function.comp_def]
    rw [this]; exact m.nodup⟩

end JSMap

/-! ## Interval parsers -/

/-- Value of a member expression `timeMap[key]` on an object literal with numeric members, and of
the parsers that return such a value. -/
inductive JSValue where
  /-- A number held by an own property of the literal. -/
  | number (n : Nat)
  /-- A member found on `Object.prototype` through the prototype chain (a function, or the
  prototype object itself for `__proto__`). -/
  | inherited (key : String)
  /-- Value `undefined`: no property of that name. -/
  | undefined
  deriving DecidableEq, Repr

/-- Property names every object literal inherits from `Object.prototype`. -/
def objectPrototypeKeys : List String :=
  ["constructor", "hasOwnProperty", "isPrototypeOf", "propertyIsEnumerable", "toLocaleString",
   "toString", "valueOf", "__proto__", "__defineGetter__", "__defineSetter__",
   "__lookupGetter__", "__lookupSetter__"]

/-- Member lookup `obj[key]` on an object literal whose own properties are `own`. -/
def lookupMember (own : List (String × Nat)) (key : String) : JSValue :=
  match own.lookup key with
  | some n => .number n
  | none => if key ∈ objectPrototypeKeys then .inherited key else .undefined

/-- JavaScript truthiness of a looked-up member. -/
def JSValue.truthy : JSValue → Bool
  | .number n => n != 0
  | .inherited _ => true
  | .undefined => false

/-- Operator `a || b`. -/
def JSValue.orElse (a b : JSValue) : JSValue :=
  if a.truthy then a else b

/-- Literal `timeMap` of `parseTimeInterval`. -/
def checkIntervalTable : List (String × Nat) :=
  [("5m", 5 * 60 * 1000), ("30m", 30 * 60 * 1000), ("1h", 60 * 60 * 1000),
   ("1d", 24 * 60 * 60 * 1000)]

/-- Literal `timeMap` of `parseReminderInterval`. -/
def reminderIntervalTable : List (String × Nat) :=
  [("1h", 60 * 60 * 1000), ("6h", 6 * 60 * 60 * 1000), ("12h", 12 * 60 * 60 * 1000),
   ("1d", 24 * 60 * 60 * 1000)]

/-- Method `parseTimeInterval`: `timeMap[interval] || timeMap['30m']`. -/
def parseTimeInterval (interval : String) : JSValue :=
  (lookupMember checkIntervalTable interval).orElse (lookupMember checkIntervalTable "30m")

/-- Method `parseReminderInterval`: `timeMap[interval] || timeMap['6h']`. -/
def parseReminderInterval (interval : String) : JSValue :=
  (lookupMember reminderIntervalTable interval).orElse (lookupMember reminderIntervalTable "6h")

/-! ## Messages -/

/-- Value of an embed field: a string, or the locale rendering of a date, which depends on the
host's locale and is kept symbolic. -/
inductive FieldValue where
  | text (s : String)
  /-- String `new Date(t).toLocaleString()`. -/
  | localeTime (t : Nat)
  deriving DecidableEq, Repr

/-- One entry of `embed.fields`. -/
structure Field where
  name : String
  value : FieldValue
  inline : Bool
  deriving DecidableEq, Repr

/-- Embed colour: a number, a string (as a configuration file may give it), or the number
`parseInt(s, 16)` that `sendDiscordMessage` turns a string into, kept symbolic. -/
inductive Color where
  | num (n : Nat)
  | str (s : String)
  | parsedHex (s : String)
  deriving DecidableEq, Repr

/-- Object `embed.footer`: a text, or the imported constant `COPYRIGHT_MESSAGE`. -/
inductive Footer where
  | text (s : String)
  | copyright
  deriving DecidableEq, Repr

/-- Object `embed` built by the notification methods. -/
structure Embed where
  title : String
  description : String
  color : Color
  fields : List Field
  footer : Option Footer
  timestamp : Nat
  deriving DecidableEq, Repr

/-- Argument of `sendDiscordMessage`: an object with an `embed` and an optional `content`. -/
structure Message where
  embed : Embed
  content : Option String
  deriving DecidableEq, Repr

/-- Argument of `channel.send`: `\x7b ...message, embeds: [message.embed] \x7d`. -/
structure OutMessage where
  embed : Embed
  content : Option String
  embeds : List Embed
  deriving DecidableEq, Repr

/-- Glyph bytes in front of the update titles, as they stand in the source file. -/
def glyphUpdate : String := "üîÑ"

/-- Glyph bytes between the two versions, as they stand in the source file. -/
def glyphArrow : String := "‚Üí"

/-- Glyph bytes of the `Created` mark. -/
def glyphCreated : String := "‚úÖ"

/-- Glyph bytes of the `Failed` mark. -/
def glyphFailed : String := "‚ùå"

/-- Glyph bytes of the warning sign. -/
def glyphWarning : String := "‚ö†Ô∏è"

/-- Glyph bytes of the clock sign. -/
def glyphClock : String := "‚è∞"

/-! ## Plugin state -/

/-- Option `reminderSettings`. -/
structure ReminderSettings where
  enabled : Bool
  interval : String
  maxReminders : Int
  deriving DecidableEq, Repr

/-- The options read by the modelled methods. -/
structure Options where
  adminRoleID : String
  enableUpdateNotifications : Bool
  enableRestartReminders : Bool
  updateColor : Color
  restartColor : Color
  batchDelay : Nat
  updateCheckInterval : String
  reminderSettings : ReminderSettings
  deriving DecidableEq, Repr

/-- Defaults of `optionsSpecification`. -/
def defaultOptions : Options :=
  { adminRoleID := ""
    enableUpdateNotifications := true
    enableRestartReminders := true
    updateColor := .num 0x00ff00
    restartColor := .num 0xffa500
    batchDelay := 5000
    updateCheckInterval := "30m"
    reminderSettings := { enabled := false, interval := "6h", maxReminders := 3 } }

/-- Object `updateEvent` of `onPluginUpdated`. -/
structure UpdateEvent where
  pluginName : String
  oldVersion : String
  newVersion : String
  backupPath : Option String
  timestamp : Nat
  notified : Bool
  deriving DecidableEq, Repr

/-- The Discord channel, an external sink.  `send history m` is `none` when `channel.send(m)`
resolves and `some error` when it throws `error`; `history` is the list of earlier calls, so the
sink may fail at some calls and succeed at others. -/
structure Channel where
  name : String
  send : List OutMessage → OutMessage → Option String

/-- Callback of a pending timeout. -/
inductive TimerAction where
  /-- Callback `() => this.sendBatchUpdateNotification()`. -/
  | batch
  /-- Callback `() => this.sendReminderNotification(pluginName)`. -/
  | reminder (pluginName : String)
  deriving DecidableEq, Repr

/-- A pending timeout of the runtime: its handle, the delay argument of `setTimeout` and the
callback. -/
structure Timer where
  id : Nat
  delay : JSValue
  action : TimerAction
  deriving DecidableEq, Repr

/-- The plugin instance together with the part of the runtime it acts on: the pending timeouts,
the next free timer handle, the calls made to `channel.send` and the `verbose` log. -/
structure Plugin where
  options : Options
  updateEvents : JSMap UpdateEvent
  batchTimer : Option Nat
  batchDelay : Nat
  reminderTimers : JSMap Nat
  reminderCounts : JSMap Nat
  channel : Option Channel
  pending : List Timer
  nextTimerId : Nat
  sendCalls : List OutMessage
  log : List (Nat × String)

/-- The constructor: empty maps, no batch timer, `batchDelay = options.batchDelay || 5000`, no
channel. -/
def construct (options : Options) : Plugin :=
  { options := options
    updateEvents := JSMap.empty
    batchTimer := none
    batchDelay := if options.batchDelay = 0 then 5000 else options.batchDelay
    reminderTimers := JSMap.empty
    reminderCounts := JSMap.empty
    channel := none
    pending := []
    nextTimerId := 0
    sendCalls := []
    log := [] }

/-- The instance after `mount`, where `initializeDiscord` left `channel` (a fetched channel, or
`null` when Discord is not configured or the fetch failed). -/
def mounted (options : Options) (channel : Option Channel) : Plugin :=
  { construct options with channel := channel }

/-- How a call completes: it returns, or it throws `error`; the state reached is kept in both
cases. -/
inductive Completion where
  | returned (s : Plugin)
  | threw (error : String) (s : Plugin)

/-- State in which the call completed. -/
def Completion.state : Completion → Plugin
  | .returned s => s
  | .threw _ s => s

/-- Whether the call returned normally. -/
def Completion.isReturned : Completion → Bool
  | .returned _ => true
  | .threw _ _ => false

/-- Sequencing `await c; k`: an exception of `c` skips `k`. -/
def Completion.andThen (c : Completion) (k : Plugin → Completion) : Completion :=
  match c with
  | .returned s => k s
  | .threw error s => .threw error s

/-- Method `verbose(level, message)` of the base plugin: one log line. -/
def Plugin.verbose (s : Plugin) (level : Nat) (message : String) : Plugin :=
  { s with log := s.log ++ [(level, message)] }

/-- Runtime `setTimeout(callback, delay)`: a fresh handle is appended to the pending timeouts and
returned. -/
def setTimeout (s : Plugin) (action : TimerAction) (delay : JSValue) : Plugin × Nat :=
  ({ s with
      pending := s.pending ++ [{ id := s.nextTimerId, delay := delay, action := action }]
      nextTimerId := s.nextTimerId + 1 },
   s.nextTimerId)

/-- Runtime `clearTimeout(handle)`: the handle is no longer pending; a handle that already fired
or was cleared is ignored. -/
def clearTimeout (s : Plugin) (id : Nat) : Plugin :=
  { s with pending := s.pending.filter (fun t => t.id != id) }

/-- Call `channel.send(m)`: the call is recorded and then resolves or throws as the sink
decides. -/
def channelSend (s : Plugin) (ch : Channel) (m : OutMessage) : Completion :=
  match ch.send s.sendCalls m with
  | none => .returned { s with sendCalls := s.sendCalls ++ [m] }
  | some error => .threw error { s with sendCalls := s.sendCalls ++ [m] }

/-- What `sendDiscordMessage` passes to `channel.send`: the footer defaults to the copyright
text, a string colour is parsed as hexadecimal, and the embed is repeated under `embeds`. -/
def toOutMessage (message : Message) : OutMessage :=
  let embed : Embed :=
    { message.embed with
      footer := some (message.embed.footer.getD Footer.copyright)
      color := match message.embed.color with
        | .str c => .parsedHex c
        | c => c }
  { embed := embed, content := message.content, embeds := [embed] }

/-- Method `sendDiscordMessage`. -/
def sendDiscordMessage (s : Plugin) (message : Message) : Completion :=
  match s.channel with
  | none => .returned (s.verbose 2 "Could not send Discord Message. Channel not initialized.")
  | some ch =>
    match channelSend s ch (toOutMessage message) with
    | .returned s1 => .returned s1
    | .threw error s1 => .returned (s1.verbose 1 ("Failed to send Discord message: " ++ error))

/-- Method `getRolePing`. -/
def getRolePing (s : Plugin) : String :=
  if s.options.adminRoleID ≠ "" ∧ s.options.adminRoleID ≠ "default" then
    "<@&" ++ s.options.adminRoleID ++ ">"
  else ""

/-- The tail of every notification method: `content` is set when `rolePing` is not empty. -/
def withRolePing (s : Plugin) (embed : Embed) (text : String) : Message :=
  let rolePing := getRolePing s
  { embed := embed
    content := if rolePing ≠ "" then some (rolePing ++ text) else none }

/-- Template `oldVersion -> newVersion` of the version fields. -/
def versionPair (e : UpdateEvent) : String :=
  e.oldVersion ++ " " ++ glyphArrow ++ " " ++ e.newVersion

/-- Truthiness of `updateEvent.backupPath`: `null` and the empty string are falsy. -/
def backupCreated (e : UpdateEvent) : Bool :=
  match e.backupPath with
  | none => false
  | some path => path != ""

/-- Embed of `sendSingleUpdateNotification`. -/
def singleUpdateEmbed (s : Plugin) (now : Nat) (updateEvent : UpdateEvent) : Embed :=
  { title := glyphUpdate ++ " Plugin Update Completed"
    description := updateEvent.pluginName ++
      " has been successfully updated and requires a SquadJS restart to apply changes."
    color := s.options.updateColor
    fields :=
      [ { name := "Plugin", value := .text updateEvent.pluginName, inline := true },
        { name := "Version", value := .text (versionPair updateEvent), inline := true },
        { name := "Status", value := .text "Update Complete", inline := true },
        { name := "Backup",
          value := .text (if backupCreated updateEvent then glyphCreated ++ " Created"
                          else glyphFailed ++ " Failed"),
          inline := true },
        { name := "Action Required", value := .text (glyphWarning ++ " Restart SquadJS"),
          inline := true },
        { name := "Priority", value := .text "Medium", inline := true },
        { name := "Timestamp", value := .localeTime updateEvent.timestamp, inline := false } ]
    footer := some (.text "SquadJS UpdateManager")
    timestamp := now }

/-- Method `sendSingleUpdateNotification`. -/
def sendSingleUpdateNotification (s : Plugin) (now : Nat) (updateEvent : UpdateEvent) :
    Completion :=
  if s.channel.isNone then .returned s
  else
    sendDiscordMessage s
      (withRolePing s (singleUpdateEmbed s now updateEvent)
        (" " ++ glyphUpdate ++ " Plugin update completed - restart required!"))

/-- The per-plugin fields of the batch embed: `updateEvents.map(...)`. -/
def pluginFields (updateEvents : List UpdateEvent) : List Field :=
  updateEvents.map (fun event =>
    { name := event.pluginName, value := .text (versionPair event), inline := true })

/-- Embed of `sendMultipleUpdatesNotification`. -/
def multipleUpdatesEmbed (s : Plugin) (now : Nat) (updateEvents : List UpdateEvent) : Embed :=
  { title := glyphUpdate ++ " Batch Plugin Updates Completed"
    description := toString updateEvents.length ++
      " plugins have been updated and require a SquadJS restart to apply changes."
    color := s.options.updateColor
    fields := pluginFields updateEvents ++
      [ { name := "Total Updates", value := .text (toString updateEvents.length),
          inline := true },
        { name := "Action Required", value := .text (glyphWarning ++ " Restart SquadJS"),
          inline := true },
        { name := "Priority", value := .text "Medium", inline := true },
        { name := "Timestamp", value := .localeTime now, inline := false } ]
    footer := some (.text "SquadJS UpdateManager - Batch Update")
    timestamp := now }

/-- Method `sendMultipleUpdatesNotification`. -/
def sendMultipleUpdatesNotification (s : Plugin) (now : Nat) (updateEvents : List UpdateEvent) :
    Completion :=
  if s.channel.isNone then .returned s
  else
    sendDiscordMessage s
      (withRolePing s (multipleUpdatesEmbed s now updateEvents)
        (" " ++ glyphUpdate ++ " " ++ toString updateEvents.length ++
          " plugin updates completed - restart required!"))

/-- Embed of `sendRestartNotification`. -/
def restartEmbed (s : Plugin) (now : Nat) (pluginName : String) : Embed :=
  { title := glyphWarning ++ " Restart Required"
    description := pluginName ++
      " has been updated and requires a SquadJS restart to apply changes."
    color := s.options.restartColor
    fields :=
      [ { name := "Plugin", value := .text pluginName, inline := true },
        { name := "Action Required", value := .text "Restart SquadJS", inline := true },
        { name := "Priority", value := .text "Medium", inline := true },
        { name := "Timestamp", value := .localeTime now, inline := false } ]
    footer := some (.text "SquadJS UpdateManager")
    timestamp := now }

/-- Method `sendRestartNotification`. -/
def sendRestartNotification (s : Plugin) (now : Nat) (pluginName : String) : Completion :=
  if s.channel.isNone then .returned s
  else
    sendDiscordMessage s
      (withRolePing s (restartEmbed s now pluginName)
        (" " ++ glyphWarning ++ " SquadJS restart required for " ++ pluginName ++ "!"))

/-! ## Reminder scheduler -/

/-- Method `scheduleNextReminder`. -/
def scheduleNextReminder (s : Plugin) (pluginName : String) (delay : JSValue) : Plugin :=
  let (s1, timer) := setTimeout s (.reminder pluginName) delay
  { s1 with reminderTimers := s1.reminderTimers.set pluginName timer }

/-- Method `setupReminderSystem`. -/
def setupReminderSystem (s : Plugin) (pluginName : String) : Plugin :=
  let s1 :=
    match s.reminderTimers.get pluginName with
    | some timer => clearTimeout s timer
    | none => s
  let s2 := { s1 with reminderCounts := s1.reminderCounts.set pluginName 0 }
  let reminderInterval := parseReminderInterval s2.options.reminderSettings.interval
  scheduleNextReminder s2 pluginName reminderInterval

/-- Embed of `sendReminderNotification`; `count` is `currentCount + 1`. -/
def reminderEmbed (s : Plugin) (now : Nat) (pluginName : String) (count : Nat) : Embed :=
  { title := glyphClock ++ " Restart Reminder"
    description := pluginName ++ " still requires a SquadJS restart to apply updates."
    color := .num 0xffa500
    fields :=
      [ { name := "Plugin", value := .text pluginName, inline := true },
        { name := "Action Required", value := .text "Restart SquadJS", inline := true },
        { name := "Reminder",
          value := .text (toString count ++ "/" ++
            toString s.options.reminderSettings.maxReminders),
          inline := true },
        { name := "Priority", value := .text "Medium", inline := true },
        { name := "Timestamp", value := .localeTime now, inline := false } ]
    footer := some (.text "SquadJS UpdateManager - Restart Reminder")
    timestamp := now }

/-- Method `sendReminderNotification`. -/
def sendReminderNotification (s : Plugin) (now : Nat) (pluginName : String) : Completion :=
  if s.channel.isNone then .returned s
  else
    let currentCount := (s.reminderCounts.get pluginName).getD 0
    let maxReminders := s.options.reminderSettings.maxReminders
    if (currentCount : Int) ≥ maxReminders then
      .returned (s.verbose 1 ("Max reminders reached for " ++ pluginName))
    else
      let s1 := { s with reminderCounts := s.reminderCounts.set pluginName (currentCount + 1) }
      let message := withRolePing s1 (reminderEmbed s1 now pluginName (currentCount + 1))
        (" " ++ glyphClock ++ " Reminder: " ++ pluginName ++ " still needs restart!")
      (sendDiscordMessage s1 message).andThen (fun s2 =>
        if ((currentCount + 1 : Nat) : Int) < maxReminders then
          .returned (scheduleNextReminder s2 pluginName
            (parseReminderInterval s2.options.reminderSettings.interval))
        else .returned s2)

/-! ## Batch scheduler and event intake -/

/-- The loop `pendingUpdates.forEach(event => event.notified = true)`.  The array holds the very
objects stored in the map, so the flag is set on the stored events that are in the array. -/
def markNotified (s : Plugin) (pendingUpdates : List UpdateEvent) : Plugin :=
  { s with
    updateEvents := s.updateEvents.mapValues (fun event =>
      if event ∈ pendingUpdates then { event with notified := true } else event) }

/-- Method `sendBatchUpdateNotification`. -/
def sendBatchUpdateNotification (s : Plugin) (now : Nat) : Completion :=
  if s.channel.isNone then .returned s
  else
    let pendingUpdates := s.updateEvents.values.filter (fun event => !event.notified)
    match pendingUpdates with
    | [] => .returned s
    | updateEvent :: _ =>
      let sent :=
        if pendingUpdates.length = 1 then sendSingleUpdateNotification s now updateEvent
        else sendMultipleUpdatesNotification s now pendingUpdates
      sent.andThen (fun s1 => .returned (markNotified s1 pendingUpdates))

/-- Method `onPluginUpdated`. -/
def onPluginUpdated (s : Plugin) (now : Nat) (pluginName oldVersion newVersion : String)
    (backupPath : Option String) : Plugin :=
  if !s.options.enableUpdateNotifications then s
  else
    let updateEvent : UpdateEvent :=
      { pluginName := pluginName
        oldVersion := oldVersion
        newVersion := newVersion
        backupPath := backupPath
        timestamp := now
        notified := false }
    let s1 := { s with updateEvents := s.updateEvents.set pluginName updateEvent }
    let s2 :=
      match s1.batchTimer with
      | some timer => clearTimeout s1 timer
      | none => s1
    let (s3, timer) := setTimeout s2 .batch (.number s2.batchDelay)
    let s4 := { s3 with batchTimer := some timer }
    if s4.options.reminderSettings.enabled then setupReminderSystem s4 pluginName else s4

/-- Method `onRestartRequired`.  The promise of `sendRestartNotification` is not awaited; the
handler returns in the state the notification left. -/
def onRestartRequired (s : Plugin) (now : Nat) (pluginName : String) : Plugin :=
  if !s.options.enableRestartReminders then s
  else
    match s.updateEvents.get pluginName with
    | some updateEvent =>
      if updateEvent.notified then s
      else (sendRestartNotification s now pluginName).state
    | none => (sendRestartNotification s now pluginName).state

/-- Method `unmount`, on the plugin's own state and timers (the listener removal on the server
and `UpdateManager.stop()` act on external collaborators). -/
def unmount (s : Plugin) : Plugin :=
  let s1 :=
    match s.batchTimer with
    | some timer => { clearTimeout s timer with batchTimer := none }
    | none => s
  let s2 := s1.reminderTimers.values.foldl clearTimeout s1
  { s2 with reminderTimers := s2.reminderTimers.clear, reminderCounts := s2.reminderCounts.clear }

/-! ## The runtime: timer firings and traces -/

/-- The runtime fires the pending timeout `id`: it leaves the pending list and its callback runs,
here to the end of the async method, that is with a send that settles before any other callback
runs (`asyncStep` stops at the `await` instead).  The callbacks do not await the promise of the
method, so a rejection is not seen by anyone. -/
def fireTimer (s : Plugin) (now : Nat) (id : Nat) : Plugin :=
  match s.pending.find? (fun t => t.id = id) with
  | none => s
  | some timer =>
    let s1 := { s with pending := s.pending.filter (fun t => t.id != id) }
    match timer.action with
    | .batch => (sendBatchUpdateNotification s1 now).state
    | .reminder pluginName => (sendReminderNotification s1 now pluginName).state

/-- One callback of the event loop. -/
inductive Step where
  /-- Event `PLUGIN_UPDATED`. -/
  | pluginUpdated (now : Nat) (pluginName oldVersion newVersion : String)
      (backupPath : Option String)
  /-- Event `RESTART_REQUIRED`. -/
  | restartRequired (now : Nat) (pluginName : String)
  /-- A pending timeout fires. -/
  | timerFired (now : Nat) (id : Nat)
  /-- Call of `unmount`. -/
  | unmount
  deriving DecidableEq, Repr

/-- Effect of one callback. -/
def step (s : Plugin) : Step → Plugin
  | .pluginUpdated now pluginName oldVersion newVersion backupPath =>
    onPluginUpdated s now pluginName oldVersion newVersion backupPath
  | .restartRequired now pluginName => onRestartRequired s now pluginName
  | .timerFired now id => fireTimer s now id
  | .unmount => unmount s

/-- Effect of a sequence of callbacks, each run to the end of its async method before the next
(no send is in flight when a callback starts; `runAsync` lifts this restriction). -/
def run (s : Plugin) (steps : List Step) : Plugin :=
  steps.foldl step s

/-! ## Well-formed states -/

/-- The bookkeeping of timer handles that every state of a `run` has, that is when every send
has settled before the next callback runs (with a send in flight the program can leave it, see
`reminderRace`): handles are allocated in increasing order, every pending timeout is the one its owner remembers (the batch timer in
`batchTimer`, the reminder of a plugin in `reminderTimers`), and every stored event is filed
under its own plugin name. -/
structure WF (s : Plugin) : Prop where
  fresh : ∀ t ∈ s.pending, t.id < s.nextTimerId
  ids_nodup : (s.pending.map Timer.id).Nodup
  batch_handle : ∀ h, s.batchTimer = some h → h < s.nextTimerId
  reminder_handle : ∀ p h, s.reminderTimers.get p = some h → h < s.nextTimerId
  batch_tracked : ∀ t ∈ s.pending, t.action = .batch → s.batchTimer = some t.id
  reminder_tracked : ∀ t ∈ s.pending, ∀ p, t.action = .reminder p →
    s.reminderTimers.get p = some t.id
  batch_owner : ∀ t ∈ s.pending, s.batchTimer = some t.id → t.action = .batch
  reminder_owner : ∀ t ∈ s.pending, ∀ p, s.reminderTimers.get p = some t.id →
    t.action = .reminder p
  store_keyed : ∀ k e, s.updateEvents.get k = some e → e.pluginName = k

/-- The message `sendRestartNotification` hands to `channel.send`. -/
def restartOutMessage (s : Plugin) (now : Nat) (pluginName : String) : OutMessage :=
  toOutMessage (withRolePing s (restartEmbed s now pluginName)
    (" " ++ glyphWarning ++ " SquadJS restart required for " ++ pluginName ++ "!"))

/-- A sink that accepts every message. -/
def acceptingChannel : Channel := { name := "updates", send := fun _ _ => none }

/-- A sink that rejects every message. -/
def failingChannel : Channel := { name := "updates", send := fun _ _ => some "Missing Access" }

/-- The message `sendSingleUpdateNotification` hands to `channel.send`. -/
def singleUpdateOutMessage (s : Plugin) (now : Nat) (updateEvent : UpdateEvent) : OutMessage :=
  toOutMessage (withRolePing s (singleUpdateEmbed s now updateEvent)
    (" " ++ glyphUpdate ++ " Plugin update completed - restart required!"))

/-- The message `sendMultipleUpdatesNotification` hands to `channel.send`. -/
def multipleUpdatesOutMessage (s : Plugin) (now : Nat) (updateEvents : List UpdateEvent) :
    OutMessage :=
  toOutMessage (withRolePing s (multipleUpdatesEmbed s now updateEvents)
    (" " ++ glyphUpdate ++ " " ++ toString updateEvents.length ++
      " plugin updates completed - restart required!"))

/-- The array `pendingUpdates` of `sendBatchUpdateNotification`. -/
def unnotifiedUpdates (s : Plugin) : List UpdateEvent :=
  s.updateEvents.values.filter (fun event => !event.notified)

/-- The pending timeouts after `if (handle) clearTimeout(handle)`. -/
def pendingWithout (pending : List Timer) : Option Nat → List Timer
  | some handle => pending.filter (fun t => t.id != handle)
  | none => pending

/-- The event object built by `onPluginUpdated`. -/
def newUpdateEvent (now : Nat) (pluginName oldVersion newVersion : String)
    (backupPath : Option String) : UpdateEvent :=
  { pluginName := pluginName
    oldVersion := oldVersion
    newVersion := newVersion
    backupPath := backupPath
    timestamp := now
    notified := false }

/-- The state `onPluginUpdated` reaches before it turns to the reminders: the event is stored and
the batch timer is re-armed. -/
def afterBatchArm (s : Plugin) (now : Nat) (pluginName oldVersion newVersion : String)
    (backupPath : Option String) : Plugin :=
  { s with
    updateEvents := s.updateEvents.set pluginName
      (newUpdateEvent now pluginName oldVersion newVersion backupPath)
    batchTimer := some s.nextTimerId
    nextTimerId := s.nextTimerId + 1
    pending := pendingWithout s.pending s.batchTimer ++
      [{ id := s.nextTimerId, delay := .number s.batchDelay, action := .batch }] }

/-- The message `sendReminderNotification` hands to `channel.send`; `count` is
`currentCount + 1`. -/
def reminderOutMessage (s : Plugin) (now : Nat) (pluginName : String) (count : Nat) :
    OutMessage :=
  toOutMessage (withRolePing s (reminderEmbed s now pluginName count)
    (" " ++ glyphClock ++ " Reminder: " ++ pluginName ++ " still needs restart!"))

/-- Value `this.reminderCounts.get(pluginName) || 0`. -/
def currentCount (s : Plugin) (pluginName : String) : Nat :=
  (s.reminderCounts.get pluginName).getD 0

/-- A `PLUGIN_UPDATED` event: the time it arrives and its payload. -/
structure PluginUpdate where
  now : Nat
  pluginName : String
  oldVersion : String
  newVersion : String
  backupPath : Option String
  deriving DecidableEq, Repr

/-- The callback the event triggers. -/
def PluginUpdate.toStep (u : PluginUpdate) : Step :=
  .pluginUpdated u.now u.pluginName u.oldVersion u.newVersion u.backupPath

/-- The event object `onPluginUpdated` stores for the event. -/
def PluginUpdate.event (u : PluginUpdate) : UpdateEvent :=
  newUpdateEvent u.now u.pluginName u.oldVersion u.newVersion u.backupPath

/-- The pending timeouts whose callback is the batch notification. -/
def pendingBatchTimers (s : Plugin) : List Timer :=
  s.pending.filter (fun t => t.action = .batch)

/-- The pending timeouts whose callback is the reminder of `pluginName`. -/
def pendingReminderTimers (s : Plugin) (pluginName : String) : List Timer :=
  s.pending.filter (fun t => t.action = .reminder pluginName)

/-- Options with the restart reminders switched on: every six hours, three times. -/
def reminderOptions : Options :=
  { defaultOptions with
    reminderSettings := { enabled := true, interval := "6h", maxReminders := 3 } }

/-- The runtime fires the timeout remembered for `pluginName` in `reminderTimers`, at time
`now`; a handle that is no longer pending does nothing. -/
def fireReminderTimer (s : Plugin) (now : Nat) (pluginName : String) : Plugin :=
  match s.reminderTimers.get pluginName with
  | some handle => fireTimer s now handle
  | none => s

/-- The reminder timer of `pluginName` fires, or is tried, at each of the given times, with no
other callback in between. -/
def runReminders (s : Plugin) (pluginName : String) (times : List Nat) : Plugin :=
  times.foldl (fun s now => fireReminderTimer s now pluginName) s

/-- The state of a reminder cycle of `p` with cap `n` after `j` reminders: the count is `j`, and
a reminder timer of `p` is pending exactly as long as `j` is below the cap. -/
structure ReminderCycle (n : Nat) (p : String) (j : Nat) (s : Plugin) : Prop where
  wf : WF s
  channel : ∃ ch, s.channel = some ch
  max : s.options.reminderSettings.maxReminders = (n : Int)
  count : currentCount s p = j
  le : j ≤ n
  armed : j < n → ∃ timer ∈ s.pending, timer.action = .reminder p
  idle : n ≤ j → ∀ t ∈ s.pending, t.action ≠ .reminder p

/-- Whether a message handed to the sink is a restart reminder for `pluginName`: the reminder
title, and `pluginName` in the leading `Plugin` field. -/
def isReminderFor (pluginName : String) (m : OutMessage) : Bool :=
  m.embed.title == glyphClock ++ " Restart Reminder" &&
    m.embed.fields.head? == some { name := "Plugin", value := .text pluginName, inline := true }

/-- The restart reminders for `pluginName` among the calls made to the sink. -/
def reminderCallsFor (s : Plugin) (pluginName : String) : List OutMessage :=
  s.sendCalls.filter (isReminderFor pluginName)

/-- Whether a callback is a `PLUGIN_UPDATED` event for `pluginName`. -/
def Step.isUpdateOf (pluginName : String) : Step → Bool
  | .pluginUpdated _ name _ _ _ => name == pluginName
  | _ => false

/-- Every stored reminder count lies in `0..maxReminders` (counts are natural numbers, so only
the upper bound is to be said). -/
def CountsBounded (s : Plugin) : Prop :=
  ∀ p c, s.reminderCounts.get p = some c → (c : Int) ≤ s.options.reminderSettings.maxReminders

/-- What a reminder firing for `pluginName` produces: the messages it hands to the sink, the
reminder count it leaves for the plugin, and the timers it arms. -/
def reminderOutcome (s : Plugin) (now : Nat) (pluginName : String) :
    List OutMessage × Nat × List Timer :=
  ((sendReminderNotification s now pluginName).state.sendCalls.drop s.sendCalls.length,
   currentCount (sendReminderNotification s now pluginName).state pluginName,
   (sendReminderNotification s now pluginName).state.pending.drop s.pending.length)

/-! ## Split warnings -/

/-- A JavaScript string as its sequence of UTF-16 code units; its `length` is the number of
units. -/
abbrev JSString := List Nat

/-- Code unit of the line feed. -/
def lineFeed : Nat := 10

/-- Code unit of the space. -/
def space : Nat := 32

/-- Method `String.prototype.split(separator)` for a separator of one code unit: the pieces
between the separators, empty pieces included; the empty string gives one empty piece. -/
def jsSplit (separator : Nat) : JSString → List JSString
  | [] => [[]]
  | c :: cs =>
    if c = separator then [] :: jsSplit separator cs
    else
      match jsSplit separator cs with
      | [] => [[c]]
      | piece :: pieces => (c :: piece) :: pieces

/-- The code units `String.prototype.trim` removes: white space (tab, vertical tab, form feed,
space, no-break space, the space separators, the byte order mark) and line terminators. -/
def isTrimmed (c : Nat) : Bool :=
  c == 9 || c == 10 || c == 11 || c == 12 || c == 13 || c == 32 || c == 160 || c == 5760 ||
    (8192 ≤ c && c ≤ 8202) || c == 8232 || c == 8233 || c == 8239 || c == 8287 || c == 12288 ||
    c == 65279

/-- Method `String.prototype.trim`: the trimmed code units are removed at the end and at the
start. -/
def jsTrim (s : JSString) : JSString :=
  (s.rdropWhile isTrimmed).dropWhile isTrimmed

/-- One pass of `for (const word of words)` in `sendSplitWarning`, on the pair of the texts
warned so far and `tempLine`. -/
def wordStep (maxLength : Nat) (st : List JSString × JSString) (word : JSString) :
    List JSString × JSString :=
  if (st.2 ++ word).length > maxLength then
    (if st.2 ≠ [] then st.1 ++ [jsTrim st.2] else st.1, word ++ [space])
  else (st.1, st.2 ++ (word ++ [space]))

/-- One pass of `for (const line of lines)` in `sendSplitWarning`, on the pair of the texts
warned so far and `currentMessage`. -/
def lineStep (maxLength : Nat) (st : List JSString × JSString) (line : JSString) :
    List JSString × JSString :=
  if (st.2 ++ line).length > maxLength then
    let flushed : List JSString × JSString :=
      if st.2 ≠ [] then (st.1 ++ [jsTrim st.2], []) else st
    if line.length > maxLength then
      let afterWords := (jsSplit space line).foldl (wordStep maxLength) (flushed.1, [])
      if afterWords.2 ≠ [] then afterWords else (afterWords.1, flushed.2)
    else (flushed.1, line ++ [lineFeed])
  else (st.1, st.2 ++ (line ++ [lineFeed]))

/-- The texts `sendSplitWarning` hands to `rcon.warn`, in order, when every call resolves. -/
def splitWarningTexts (message : JSString) (maxLength : Nat) : List JSString :=
  if message.length ≤ maxLength then [message]
  else
    let afterLines := (jsSplit lineFeed message).foldl (lineStep maxLength) ([], [])
    if jsTrim afterLines.2 ≠ [] then afterLines.1 ++ [jsTrim afterLines.2] else afterLines.1

/-- The server's `rcon.warn` for the player, an external call: `warn earlier text` is `none`
when the call resolves and `some error` when it throws; `earlier` are the calls made before. -/
structure Rcon where
  warn : List JSString → JSString → Option String

/-- The calls made to `rcon.warn` when `texts` are to be warned in turn after the calls `made`:
the method uses no result of a call, and a call that throws is the last one, since the `catch`
block only logs. -/
def warnAll (rcon : Rcon) : List JSString → List JSString → List JSString
  | made, [] => made
  | made, text :: rest =>
    match rcon.warn made text with
    | none => warnAll rcon (made ++ [text]) rest
    | some _ => made ++ [text]

/-- Default of the parameter `maxLength` of `sendSplitWarning`. -/
def defaultMaxLength : Nat := 200

/-- Method `sendSplitWarning(player, message, maxLength)`: the texts passed to `rcon.warn`, in
order. -/
def sendSplitWarning (rcon : Rcon) (message : JSString) (maxLength : Nat) : List JSString :=
  warnAll rcon [] (splitWarningTexts message maxLength)

/-- A value of `currentMessage` or `tempLine` whose trimmed text fits in `maxLength`: it is
empty, or it has at most `maxLength + 1` code units and ends in one that `trim` removes. -/
def FitsTrimmed (maxLength : Nat) (text : JSString) : Prop :=
  text = [] ∨ (text.length ≤ maxLength + 1 ∧ ∃ init c, text = init ++ [c] ∧ isTrimmed c = true)

/-- An `rcon.warn` whose every call resolves. -/
def resolvingRcon : Rcon := { warn := fun _ _ => none }

/-! ## Awaited sends: the callbacks step by step

An `async` method runs up to its `await` of `channel.send` in one go; the rest of it runs when the
promise settles, and other callbacks (events, timer firings, `unmount`) can run in between.  The
definitions above give each method from start to end, which is the case of a send that settles
before any other callback runs; the definitions below split the methods at the `await`. -/

/-- Applies `f` to every stored value, given its key, in place; keys and order are untouched. -/
def JSMap.mapWithKey {α : Type} (m : JSMap α) (f : String → α → α) : JSMap α :=
  ⟨m.entries.map (fun e => (e.1, f e.1 e.2)), by
    have : (m.entries.map (fun e => (e.1, f e.1 e.2))).map Prod.fst = m.entries.map Prod.fst := by
      simp [List.map_map, Function.comp_def]
    rw [this]; exact m.nodup⟩

/-- What a notification method still does after the promise of its `channel.send` has settled and
`sendDiscordMessage` has returned. -/
inductive Continuation where
  /-- Rest of `sendBatchUpdateNotification`: the loop
  `pendingUpdates.forEach(event => event.notified = true)`.  The array holds event objects;
  `captured` are the plugin names whose stored event is still one of these objects (a later
  `onPluginUpdated` for a name stores a new object under it). -/
  | markNotified (captured : List String)
  /-- Rest of `sendReminderNotification`: the re-arming `if (currentCount + 1 < maxReminders)`,
  on the locals of the firing; `count` is `currentCount + 1`. -/
  | scheduleNext (pluginName : String) (count : Nat) (maxReminders : Int)
  /-- Rest of `sendRestartNotification`: nothing. -/
  | nothing
  deriving DecidableEq, Repr

/-- A call to `channel.send` whose promise has not settled: the position of the call among the
calls made, how the promise will settle (`none` resolves, `some error` rejects), and what the
awaiting method does then. -/
structure PendingSend where
  call : Nat
  outcome : Option String
  continuation : Continuation
  deriving DecidableEq, Repr

/-- The plugin together with its awaited sends. -/
structure Session where
  plugin : Plugin
  inFlight : List PendingSend

/-- The plugin names under which an un-notified event is stored: the keys of the objects in the
array `pendingUpdates`. -/
def unnotifiedKeys (s : Plugin) : List String :=
  (s.updateEvents.entries.filter (fun x => !x.2.notified)).map Prod.fst

/-- The call `await this.channel.send(message)` of `sendDiscordMessage`, with a channel: the call
is made and recorded at once, and the methods up the call chain wait for its promise. -/
def issueSend (a : Session) (ch : Channel) (m : OutMessage) (continuation : Continuation) :
    Session :=
  { plugin := { a.plugin with sendCalls := a.plugin.sendCalls ++ [m] }
    inFlight := a.inFlight ++
      [{ call := a.plugin.sendCalls.length
         outcome := ch.send a.plugin.sendCalls m
         continuation := continuation }] }

/-- Method `sendBatchUpdateNotification` up to its `await`. -/
def startBatchNotification (a : Session) (now : Nat) : Session :=
  match a.plugin.channel with
  | none => a
  | some ch =>
    let pendingUpdates := a.plugin.updateEvents.values.filter (fun event => !event.notified)
    match pendingUpdates with
    | [] => a
    | updateEvent :: _ =>
      issueSend a ch
        (if pendingUpdates.length = 1 then singleUpdateOutMessage a.plugin now updateEvent
         else multipleUpdatesOutMessage a.plugin now pendingUpdates)
        (.markNotified (unnotifiedKeys a.plugin))

/-- Method `sendReminderNotification` up to its `await`. -/
def startReminderNotification (a : Session) (now : Nat) (pluginName : String) : Session :=
  match a.plugin.channel with
  | none => a
  | some ch =>
    if (currentCount a.plugin pluginName : Int) ≥
        a.plugin.options.reminderSettings.maxReminders then
      { a with plugin := a.plugin.verbose 1 ("Max reminders reached for " ++ pluginName) }
    else
      issueSend
        { a with
          plugin := { a.plugin with
            reminderCounts :=
              a.plugin.reminderCounts.set pluginName (currentCount a.plugin pluginName + 1) } }
        ch (reminderOutMessage a.plugin now pluginName (currentCount a.plugin pluginName + 1))
        (.scheduleNext pluginName (currentCount a.plugin pluginName + 1)
          a.plugin.options.reminderSettings.maxReminders)

/-- Method `sendRestartNotification` up to its `await`. -/
def startRestartNotification (a : Session) (now : Nat) (pluginName : String) : Session :=
  match a.plugin.channel with
  | none => a
  | some ch => issueSend a ch (restartOutMessage a.plugin now pluginName) .nothing

/-- The loop `pendingUpdates.forEach(event => event.notified = true)` run after the `await`: the
flag is set on the stored events that are still objects of the array. -/
def markStored (s : Plugin) (captured : List String) : Plugin :=
  { s with
    updateEvents := s.updateEvents.mapWithKey (fun name event =>
      if name ∈ captured then { event with notified := true } else event) }

/-- The array `pendingUpdates` of an awaiting batch firing after `onPluginUpdated(pluginName)`
has stored a new event object: the object it holds for that name is no longer the stored one. -/
def Continuation.forget (pluginName : String) : Continuation → Continuation
  | .markNotified captured => .markNotified (captured.filter (fun name => name ≠ pluginName))
  | .scheduleNext name count maxReminders => .scheduleNext name count maxReminders
  | .nothing => .nothing

/-- The rest of a notification method, run in the state the plugin has by then. -/
def runContinuation (s : Plugin) : Continuation → Plugin
  | .markNotified captured => markStored s captured
  | .scheduleNext pluginName count maxReminders =>
    if (count : Int) < maxReminders then
      scheduleNextReminder s pluginName
        (parseReminderInterval s.options.reminderSettings.interval)
    else s
  | .nothing => s

/-- The promise of call number `call` settles: `sendDiscordMessage` resumes, logs in its `catch`
block when the promise was rejected, and returns; then the awaiting method runs to its end. -/
def settleSend (a : Session) (call : Nat) : Session :=
  match a.inFlight.find? (fun x => x.call = call) with
  | none => a
  | some send =>
    { plugin := runContinuation
        (match send.outcome with
         | none => a.plugin
         | some error => a.plugin.verbose 1 ("Failed to send Discord message: " ++ error))
        send.continuation
      inFlight := a.inFlight.filter (fun x => x.call != call) }

/-- One callback of the event loop, a settled promise being one of them. -/
inductive AsyncStep where
  /-- Event `PLUGIN_UPDATED`. -/
  | pluginUpdated (now : Nat) (pluginName oldVersion newVersion : String)
      (backupPath : Option String)
  /-- Event `RESTART_REQUIRED`. -/
  | restartRequired (now : Nat) (pluginName : String)
  /-- A pending timeout fires; its callback runs up to the `await` of its send. -/
  | timerFired (now : Nat) (id : Nat)
  /-- The promise of a call to `channel.send` settles. -/
  | sendSettled (call : Nat)
  /-- Call of `unmount`. -/
  | unmount
  deriving DecidableEq, Repr

/-- Effect of one callback on the plugin and its awaited sends. -/
def asyncStep (a : Session) : AsyncStep → Session
  | .pluginUpdated now pluginName oldVersion newVersion backupPath =>
    { plugin := onPluginUpdated a.plugin now pluginName oldVersion newVersion backupPath
      inFlight :=
        if a.plugin.options.enableUpdateNotifications then
          a.inFlight.map (fun x => { x with continuation := x.continuation.forget pluginName })
        else a.inFlight }
  | .restartRequired now pluginName =>
    if !a.plugin.options.enableRestartReminders then a
    else
      match a.plugin.updateEvents.get pluginName with
      | some updateEvent =>
        if updateEvent.notified then a else startRestartNotification a now pluginName
      | none => startRestartNotification a now pluginName
  | .timerFired now id =>
    match a.plugin.pending.find? (fun t => t.id = id) with
    | none => a
    | some timer =>
      match timer.action with
      | .batch =>
        startBatchNotification
          { a with plugin := { a.plugin with
              pending := a.plugin.pending.filter (fun t => t.id != id) } } now
      | .reminder pluginName =>
        startReminderNotification
          { a with plugin := { a.plugin with
              pending := a.plugin.pending.filter (fun t => t.id != id) } } now pluginName
  | .sendSettled call => settleSend a call
  | .unmount => { a with plugin := unmount a.plugin }

/-- Effect of a sequence of callbacks. -/
def runAsync (a : Session) (steps : List AsyncStep) : Session :=
  steps.foldl asyncStep a

/-- The mounted plugin with no send awaited. -/
def mountedSession (options : Options) (channel : Option Channel) : Session :=
  { plugin := mounted options channel, inFlight := [] }

/-- Handles are allocated in increasing order: every pending timeout and every handle remembered in
`reminderTimers` is below the next handle to be allocated. -/
def FreshHandles (s : Plugin) : Prop :=
  (∀ t ∈ s.pending, t.id < s.nextTimerId) ∧
  ∀ p h, s.reminderTimers.get p = some h → h < s.nextTimerId

def PluginUpdate.toAsyncStep (u : PluginUpdate) : AsyncStep :=
  .pluginUpdated u.now u.pluginName u.oldVersion u.newVersion u.backupPath

/-- The runtime fires the timeout remembered in `batchTimer`, at time `now`; its callback runs up
to the `await` of its send. -/
def fireBatchTimer (a : Session) (now : Nat) : Session :=
  match a.plugin.batchTimer with
  | some handle => asyncStep a (.timerFired now handle)
  | none => a

/-- The promise of the latest call to `channel.send` settles, when it has not settled yet. -/
def settleLatest (a : Session) : Session :=
  settleSend a (a.plugin.sendCalls.length - 1)

/-- An update event, the time at which the batch timer it arms fires, and whether the send of the
firing before it settles only after this event has arrived (but before its batch timer fires)
rather than before the event. -/
structure SpacedUpdate where
  update : PluginUpdate
  fireNow : Nat
  settledLate : Bool
  deriving DecidableEq, Repr

/-- One event of a spaced sequence and the firing of the batch timer it arms; the send of the
firing before has settled by the time the batch timer fires. -/
def spacedRound (a : Session) (x : SpacedUpdate) : Session :=
  fireBatchTimer
    (if x.settledLate then settleLatest (asyncStep a x.update.toAsyncStep)
     else asyncStep (settleLatest a) x.update.toAsyncStep)
    x.fireNow

/-- Events spaced more than the batch delay apart, each send settled before the next batch timer
fires: after each event its batch timer fires before the next event arrives. -/
def runSpaced (a : Session) (updates : List SpacedUpdate) : Session :=
  updates.foldl spacedRound a

/-- What a spaced sequence keeps true after each round: handles are fresh, and either no send is
in flight and no stored event is un-notified, or the latest send is the only one in flight and
awaits with the names of all un-notified stored events captured. -/
def SpacedInv (a : Session) : Prop :=
  FreshHandles a.plugin ∧
  ((a.inFlight = [] ∧ unnotifiedUpdates a.plugin = []) ∨
   ∃ outcome captured,
     a.inFlight = [⟨a.plugin.sendCalls.length - 1, outcome, .markNotified captured⟩] ∧
     ∀ k e, a.plugin.updateEvents.get k = some e → e.notified = false → k ∈ captured)

/-- An update event for a plugin arrives while the send of a reminder firing for that plugin is
awaited: the first update is notified, six hours later its reminder timer fires and awaits its
send, the plugin is updated again, and then the send resolves. -/
def reminderRace : List AsyncStep :=
  [.pluginUpdated 1 "SquadLeader" "v1.0.0" "v1.1.0" none,
   .timerFired 5001 0,
   .sendSettled 0,
   .timerFired 21600001 1,
   .pluginUpdated 21600002 "SquadLeader" "v1.1.0" "v1.2.0" none,
   .sendSettled 1]

/-- Two updates more than the batch delay apart, with the send of the first firing still awaited
when the second batch timer fires. -/
def slowSendTrace : List AsyncStep :=
  [.pluginUpdated 1 "SquadLeader" "v1.0.0" "v1.1.0" none,
   .timerFired 5001 0,
   .pluginUpdated 6000 "Seeder" "v2.0.0" "v2.0.1" none,
   .timerFired 11000 1]

/-! ## Properties of `JSMap` -/

namespace JSMap

variable {α : Type}

theorem setEntries_keys_of_mem (l : List (String × α)) (k : String) (v : α)
    (h : k ∈ l.map Prod.fst) : (setEntries l k v).map Prod.fst = l.map Prod.fst := by
  induction l with
  | nil => simp at h
  | cons x rest ih =>
    obtain ⟨k', v'⟩ := x
    by_cases hk : k' = k
    · simp [setEntries, hk]
    · have h' : k ∈ rest.map Prod.fst := by
        simp only [List.map_cons, List.mem_cons] at h
        rcases h with h | h
        · exact absurd h.symm hk
        · exact h
      simp [setEntries, hk, ih h']

theorem setEntries_keys_of_not_mem (l : List (String × α)) (k : String) (v : α)
    (h : k ∉ l.map Prod.fst) : (setEntries l k v).map Prod.fst = l.map Prod.fst ++ [k] := by
  induction l with
  | nil => simp [setEntries]
  | cons x rest ih =>
    obtain ⟨k', v'⟩ := x
    simp only [List.map_cons, List.mem_cons, not_or] at h
    have hk : ¬ k' = k := fun e => h.1 e.symm
    simp [setEntries, hk, ih h.2]

theorem find_setEntries_self (l : List (String × α)) (k : String) (v : α) :
    (setEntries l k v).find? (fun e => e.1 = k) = some (k, v) := by
  induction l with
  | nil => simp [setEntries]
  | cons x rest ih =>
    obtain ⟨k', v'⟩ := x
    by_cases hk : k' = k
    · simp [setEntries, hk]
    · simp [setEntries, hk, List.find?_cons, ih]

theorem find_setEntries_of_ne (l : List (String × α)) (k k' : String) (v : α) (h : k' ≠ k) :
    (setEntries l k v).find? (fun e => e.1 = k') = l.find? (fun e => e.1 = k') := by
  induction l with
  | nil =>
    have : ¬ k = k' := fun e => h e.symm
    simp [setEntries, this]
  | cons x rest ih =>
    obtain ⟨k₀, v₀⟩ := x
    by_cases hk : k₀ = k
    · subst hk
      have : ¬ k₀ = k' := fun e => h e.symm
      simp [setEntries, List.find?_cons, this]
    · by_cases hk' : k₀ = k'
      · subst hk'
        simp [setEntries, hk, List.find?_cons]
      · simp [setEntries, hk, List.find?_cons, hk', ih]

@[simp] theorem get_set_self (m : JSMap α) (k : String) (v : α) : (m.set k v).get k = some v := by
  simp [get, set, find_setEntries_self]

theorem get_set_of_ne (m : JSMap α) (k k' : String) (v : α) (h : k' ≠ k) :
    (m.set k v).get k' = m.get k' := by
  simp [get, set, find_setEntries_of_ne _ _ _ _ h]

@[simp] theorem get_empty (k : String) : (empty : JSMap α).get k = none := rfl

@[simp] theorem values_empty : (empty : JSMap α).values = [] := rfl

@[simp] theorem keys_empty : (empty : JSMap α).keys = [] := rfl

theorem keys_set_of_mem (m : JSMap α) (k : String) (v : α) (h : k ∈ m.keys) :
    (m.set k v).keys = m.keys :=
  setEntries_keys_of_mem m.entries k v h

theorem keys_set_of_not_mem (m : JSMap α) (k : String) (v : α) (h : k ∉ m.keys) :
    (m.set k v).keys = m.keys ++ [k] :=
  setEntries_keys_of_not_mem m.entries k v h

theorem keys_nodup (m : JSMap α) : m.keys.Nodup := m.nodup

theorem find_of_mem_entries (l : List (String × α)) (h : (l.map Prod.fst).Nodup)
    (k : String) (v : α) (hm : (k, v) ∈ l) : l.find? (fun e => e.1 = k) = some (k, v) := by
  induction l with
  | nil => simp at hm
  | cons x rest ih =>
    obtain ⟨k', v'⟩ := x
    have hn := List.nodup_cons.mp h
    simp only [List.mem_cons] at hm
    rcases hm with e | e
    · simp [← e, List.find?_cons]
    · have hk : ¬ k' = k := by
        intro hk
        apply hn.1
        rw [hk]
        exact List.mem_map.mpr ⟨(k, v), e, rfl⟩
      simp [List.find?_cons, hk, ih hn.2 e]

theorem mem_entries_of_find (l : List (String × α)) (k : String) (x : String × α)
    (h : l.find? (fun e => e.1 = k) = some x) : x ∈ l ∧ x.1 = k := by
  have h1 := List.mem_of_find?_eq_some h
  have h2 := List.find?_some h
  exact ⟨h1, by simpa using h2⟩

/-- An entry is in the map exactly when `get` returns its value. -/
theorem mem_entries_iff (m : JSMap α) (k : String) (v : α) :
    (k, v) ∈ m.entries ↔ m.get k = some v := by
  constructor
  · intro h
    simp [get, find_of_mem_entries m.entries m.nodup k v h]
  · intro h
    simp only [get, Option.map_eq_some'] at h
    obtain ⟨x, hx, hv⟩ := h
    obtain ⟨h1, h2⟩ := mem_entries_of_find m.entries k x hx
    obtain ⟨k', v'⟩ := x
    simp only at h2 hv
    subst h2; subst hv
    exact h1

theorem mem_values_iff (m : JSMap α) (v : α) : v ∈ m.values ↔ ∃ k, m.get k = some v := by
  simp only [values, List.mem_map, Prod.exists]
  constructor
  · rintro ⟨k, v', h, rfl⟩
    exact ⟨k, (mem_entries_iff m k v').1 h⟩
  · rintro ⟨k, h⟩
    exact ⟨k, v, (mem_entries_iff m k v).2 h, rfl⟩

theorem mem_keys_iff (m : JSMap α) (k : String) : k ∈ m.keys ↔ ∃ v, m.get k = some v := by
  simp only [keys, List.mem_map, Prod.exists]
  constructor
  · rintro ⟨k', v, h, rfl⟩
    exact ⟨v, (mem_entries_iff m k' v).1 h⟩
  · rintro ⟨v, h⟩
    exact ⟨k, v, (mem_entries_iff m k v).2 h, rfl⟩

@[simp] theorem get_mapValues (m : JSMap α) (f : α → α) (k : String) :
    (m.mapValues f).get k = (m.get k).map f := by
  simp only [get, mapValues]
  induction m.entries with
  | nil => simp
  | cons x rest ih =>
    obtain ⟨k', v'⟩ := x
    by_cases hk : k' = k
    · simp [List.find?_cons, hk]
    · simpa [List.find?_cons, hk] using ih

@[simp] theorem values_mapValues (m : JSMap α) (f : α → α) :
    (m.mapValues f).values = m.values.map f := by
  simp [values, mapValues, List.map_map, Function.comp_def]

@[simp] theorem keys_mapValues (m : JSMap α) (f : α → α) : (m.mapValues f).keys = m.keys := by
  simp [keys, mapValues, List.map_map, Function.comp_def]

end JSMap

/-! ## Properties of the interval parsers -/

theorem parseTimeInterval_fallback (interval : String)
    (hown : interval ∉ checkIntervalTable.map Prod.fst)
    (hproto : interval ∉ objectPrototypeKeys) :
    parseTimeInterval interval = .number 1800000 := by
  simp only [checkIntervalTable, List.map_cons, List.map_nil, List.mem_cons, List.mem_singleton,
    List.not_mem_nil, or_false, not_or] at hown
  obtain ⟨h1, h2, h3, h4⟩ := hown
  have e1 : (interval == "5m") = false := beq_eq_false_iff_ne.mpr h1
  have e2 : (interval == "30m") = false := beq_eq_false_iff_ne.mpr h2
  have e3 : (interval == "1h") = false := beq_eq_false_iff_ne.mpr h3
  have e4 : (interval == "1d") = false := beq_eq_false_iff_ne.mpr h4
  simp [parseTimeInterval, lookupMember, checkIntervalTable, List.lookup, JSValue.orElse,
    JSValue.truthy, hproto, e1, e2, e3, e4]

theorem parseReminderInterval_fallback (interval : String)
    (hown : interval ∉ reminderIntervalTable.map Prod.fst)
    (hproto : interval ∉ objectPrototypeKeys) :
    parseReminderInterval interval = .number 21600000 := by
  simp only [reminderIntervalTable, List.map_cons, List.map_nil, List.mem_cons,
    List.mem_singleton, List.not_mem_nil, or_false, not_or] at hown
  obtain ⟨h1, h2, h3, h4⟩ := hown
  have e1 : (interval == "1h") = false := beq_eq_false_iff_ne.mpr h1
  have e2 : (interval == "6h") = false := beq_eq_false_iff_ne.mpr h2
  have e3 : (interval == "12h") = false := beq_eq_false_iff_ne.mpr h3
  have e4 : (interval == "1d") = false := beq_eq_false_iff_ne.mpr h4
  simp [parseReminderInterval, lookupMember, reminderIntervalTable, List.lookup, JSValue.orElse,
    JSValue.truthy, hproto, e1, e2, e3, e4]

/-- C7: the fallback is missed for a token that names a member of `Object.prototype`:
`"constructor"` is a key of neither table, yet `parseTimeInterval` and `parseReminderInterval`
return the inherited member instead of the `"30m"` and `"6h"` durations. -/
theorem parse_interval_inherited_member :
    "constructor" ∉ checkIntervalTable.map Prod.fst ∧
    "constructor" ∉ reminderIntervalTable.map Prod.fst ∧
    parseTimeInterval "constructor" = .inherited "constructor" ∧
    parseTimeInterval "constructor" ≠ .number 1800000 ∧
    parseReminderInterval "constructor" = .inherited "constructor" ∧
    parseReminderInterval "constructor" ≠ .number 21600000 := by
  decide

/-- C8, as stated, fails: `"6h"` is a token the spec lists, and `parseTimeInterval` maps it to
the `"30m"` fallback of 1,800,000 ms, not to its own 21,600,000 ms. -/
theorem parseTimeInterval_six_hours_falls_back :
    parseTimeInterval "6h" = .number 1800000 ∧ parseTimeInterval "6h" ≠ .number 21600000 := by
  decide

/-- C8, amended: each parser maps the four tokens of its own table to their nominal durations,
and maps the listed tokens of the other table to its fallback duration. -/
theorem parse_interval_documented_tokens :
    parseTimeInterval "5m" = .number 300000 ∧
    parseTimeInterval "30m" = .number 1800000 ∧
    parseTimeInterval "1h" = .number 3600000 ∧
    parseTimeInterval "1d" = .number 86400000 ∧
    parseReminderInterval "1h" = .number 3600000 ∧
    parseReminderInterval "6h" = .number 21600000 ∧
    parseReminderInterval "12h" = .number 43200000 ∧
    parseReminderInterval "1d" = .number 86400000 ∧
    parseTimeInterval "6h" = .number 1800000 ∧
    parseTimeInterval "12h" = .number 1800000 ∧
    parseReminderInterval "5m" = .number 21600000 ∧
    parseReminderInterval "30m" = .number 21600000 := by
  decide

/-! ## Delivery -/

/-- With a channel, `sendDiscordMessage` makes one call to `channel.send` and returns; only the
log tells a failed call from a successful one. -/
theorem sendDiscordMessage_of_channel (s : Plugin) (message : Message) (ch : Channel)
    (hch : s.channel = some ch) :
    ∃ lg, sendDiscordMessage s message =
      .returned { s with sendCalls := s.sendCalls ++ [toOutMessage message], log := lg } := by
  unfold sendDiscordMessage
  split
  · next h => rw [hch] at h; cases h
  · next ch' h =>
    unfold channelSend
    cases ch'.send s.sendCalls (toOutMessage message) with
    | none => exact ⟨s.log, rfl⟩
    | some error => exact ⟨_, rfl⟩

theorem sendDiscordMessage_isReturned (s : Plugin) (message : Message) :
    (sendDiscordMessage s message).isReturned = true := by
  cases hch : s.channel with
  | none => simp [sendDiscordMessage, hch, Completion.isReturned]
  | some ch =>
    obtain ⟨lg, h⟩ := sendDiscordMessage_of_channel s message ch hch
    simp [h, Completion.isReturned]

theorem sendDiscordMessage_calls_le (s : Plugin) (message : Message) :
    (sendDiscordMessage s message).state.sendCalls.length ≤ s.sendCalls.length + 1 := by
  cases hch : s.channel with
  | none => simp [sendDiscordMessage, hch, Completion.state, Plugin.verbose]
  | some ch =>
    obtain ⟨lg, h⟩ := sendDiscordMessage_of_channel s message ch hch
    simp [h, Completion.state]

theorem sendRestartNotification_of_channel (s : Plugin) (now : Nat) (pluginName : String)
    (ch : Channel) (hch : s.channel = some ch) :
    ∃ lg, sendRestartNotification s now pluginName =
      .returned { s with
        sendCalls := s.sendCalls ++ [restartOutMessage s now pluginName], log := lg } := by
  have hne : ¬ s.channel.isNone = true := by simp [hch]
  unfold sendRestartNotification
  rw [if_neg hne]
  exact sendDiscordMessage_of_channel s _ ch hch

/-! ## Restart-required intake -/

/-- C4, as stated, fails: with no channel (Discord not configured) and no update event stored for
the plugin, `onRestartRequired` produces no message. -/
theorem onRestartRequired_without_channel_is_silent :
    (mounted defaultOptions none).updateEvents.get "SquadLeader" = none ∧
    (onRestartRequired (mounted defaultOptions none) 0 "SquadLeader").sendCalls = [] := by
  decide

/-- C4, amended: `onRestartRequired(e)` leaves the state untouched, so produces no message, when
the stored event for `e` has `notified = true`; with restart reminders enabled and a channel
present it makes exactly one call to the sink, with the restart-required message naming `e`,
when no event is stored for `e` or the stored one has `notified = false`; and with restart
reminders disabled or no channel it produces no message. -/
theorem onRestartRequired_messages (s : Plugin) (now : Nat) (e : String) :
    ((∃ ev, s.updateEvents.get e = some ev ∧ ev.notified = true) →
      onRestartRequired s now e = s) ∧
    (∀ ch, s.channel = some ch → s.options.enableRestartReminders = true →
      (∀ ev, s.updateEvents.get e = some ev → ev.notified = false) →
      (onRestartRequired s now e).sendCalls = s.sendCalls ++ [restartOutMessage s now e] ∧
      (restartOutMessage s now e).embed.title = glyphWarning ++ " Restart Required" ∧
      (restartOutMessage s now e).embed.fields.head? =
        some { name := "Plugin", value := .text e, inline := true }) ∧
    ((s.channel = none ∨ s.options.enableRestartReminders = false) →
      (onRestartRequired s now e).sendCalls = s.sendCalls) := by
  refine ⟨?_, ?_, ?_⟩
  · rintro ⟨ev, hget, hnot⟩
    unfold onRestartRequired
    split
    · rfl
    · simp [hget, hnot]
  · intro ch hch hen hev
    refine ⟨?_, rfl, rfl⟩
    obtain ⟨lg, hsend⟩ := sendRestartNotification_of_channel s now e ch hch
    unfold onRestartRequired
    simp only [hen, Bool.not_true, Bool.false_eq_true, if_false]
    cases hget : s.updateEvents.get e with
    | none => simp [hsend, Completion.state]
    | some ev => simp [hev ev hget, hsend, Completion.state]
  · intro h
    unfold onRestartRequired
    rcases h with h | h
    · have hsend : sendRestartNotification s now e = .returned s := by
        simp [sendRestartNotification, h]
      split
      · rfl
      · cases hget : s.updateEvents.get e with
        | none => simp [hsend, Completion.state]
        | some ev =>
          by_cases hn : ev.notified = true
          · simp [hn]
          · simp [hn, hsend, Completion.state]
    · simp [h]

theorem onRestartRequired_messages_witness :
    onRestartRequired
        { mounted defaultOptions (some acceptingChannel) with
          updateEvents := (JSMap.empty).set "SquadLeader"
            { pluginName := "SquadLeader", oldVersion := "v1.0.0", newVersion := "v1.1.0",
              backupPath := none, timestamp := 5, notified := true } }
        9 "SquadLeader" =
      { mounted defaultOptions (some acceptingChannel) with
          updateEvents := (JSMap.empty).set "SquadLeader"
            { pluginName := "SquadLeader", oldVersion := "v1.0.0", newVersion := "v1.1.0",
              backupPath := none, timestamp := 5, notified := true } } ∧
    (onRestartRequired (mounted defaultOptions (some acceptingChannel)) 9 "SquadLeader").sendCalls
      = [restartOutMessage (mounted defaultOptions (some acceptingChannel)) 9 "SquadLeader"] ∧
    (onRestartRequired (mounted defaultOptions none) 9 "SquadLeader").sendCalls = [] :=
  ⟨(onRestartRequired_messages _ 9 "SquadLeader").1 ⟨_, JSMap.get_set_self _ _ _, rfl⟩,
   ((onRestartRequired_messages (mounted defaultOptions (some acceptingChannel)) 9
      "SquadLeader").2.1 acceptingChannel rfl rfl (by intro ev h; cases h)).1,
   (onRestartRequired_messages (mounted defaultOptions none) 9 "SquadLeader").2.2 (Or.inl rfl)⟩

/-! ## Batch firing -/

theorem sendSingleUpdateNotification_of_channel (s : Plugin) (now : Nat) (ev : UpdateEvent)
    (ch : Channel) (hch : s.channel = some ch) :
    ∃ lg, sendSingleUpdateNotification s now ev =
      .returned { s with
        sendCalls := s.sendCalls ++ [singleUpdateOutMessage s now ev], log := lg } := by
  have hne : ¬ s.channel.isNone = true := by simp [hch]
  unfold sendSingleUpdateNotification
  rw [if_neg hne]
  exact sendDiscordMessage_of_channel s _ ch hch

theorem sendMultipleUpdatesNotification_of_channel (s : Plugin) (now : Nat)
    (evs : List UpdateEvent) (ch : Channel) (hch : s.channel = some ch) :
    ∃ lg, sendMultipleUpdatesNotification s now evs =
      .returned { s with
        sendCalls := s.sendCalls ++ [multipleUpdatesOutMessage s now evs], log := lg } := by
  have hne : ¬ s.channel.isNone = true := by simp [hch]
  unfold sendMultipleUpdatesNotification
  rw [if_neg hne]
  exact sendDiscordMessage_of_channel s _ ch hch

/-- A firing with a channel and at least one un-notified event: one call to the sink, with the
single-update message when exactly one event is un-notified and the multi-update message
otherwise, and then the flags are set. -/
theorem sendBatchUpdateNotification_of_pending (s : Plugin) (now : Nat) (ch : Channel)
    (hch : s.channel = some ch) (ev : UpdateEvent) (rest : List UpdateEvent)
    (hp : unnotifiedUpdates s = ev :: rest) :
    ∃ lg, sendBatchUpdateNotification s now =
      .returned (markNotified
        { s with
          sendCalls := s.sendCalls ++
            [if rest = [] then singleUpdateOutMessage s now ev
             else multipleUpdatesOutMessage s now (ev :: rest)],
          log := lg }
        (ev :: rest)) := by
  have hne : ¬ s.channel.isNone = true := by simp [hch]
  unfold sendBatchUpdateNotification
  rw [if_neg hne]
  unfold unnotifiedUpdates at hp
  simp only [hp]
  cases rest with
  | nil =>
    obtain ⟨lg, h⟩ := sendSingleUpdateNotification_of_channel s now ev ch hch
    refine ⟨lg, ?_⟩
    simp [h, Completion.andThen]
  | cons ev2 rest2 =>
    obtain ⟨lg, h⟩ := sendMultipleUpdatesNotification_of_channel s now (ev :: ev2 :: rest2) ch hch
    refine ⟨lg, ?_⟩
    simp [h, Completion.andThen]

theorem sendBatchUpdateNotification_of_none_pending (s : Plugin) (now : Nat)
    (hp : unnotifiedUpdates s = []) : sendBatchUpdateNotification s now = .returned s := by
  unfold sendBatchUpdateNotification
  unfold unnotifiedUpdates at hp
  split
  · rfl
  · simp only [hp]

theorem mem_unnotifiedUpdates (s : Plugin) (e : UpdateEvent) :
    e ∈ unnotifiedUpdates s ↔ (∃ k, s.updateEvents.get k = some e) ∧ e.notified = false := by
  simp [unnotifiedUpdates, JSMap.mem_values_iff]

/-! ## Event intake -/

theorem setupReminderSystem_eq (s : Plugin) (p : String) :
    setupReminderSystem s p =
      { s with
        reminderCounts := s.reminderCounts.set p 0
        reminderTimers := s.reminderTimers.set p s.nextTimerId
        nextTimerId := s.nextTimerId + 1
        pending := pendingWithout s.pending (s.reminderTimers.get p) ++
          [{ id := s.nextTimerId
             delay := parseReminderInterval s.options.reminderSettings.interval
             action := .reminder p }] } := by
  unfold setupReminderSystem scheduleNextReminder setTimeout clearTimeout pendingWithout
  cases s.reminderTimers.get p <;> rfl

theorem onPluginUpdated_eq (s : Plugin) (now : Nat) (p old new : String)
    (backup : Option String) (hen : s.options.enableUpdateNotifications = true) :
    onPluginUpdated s now p old new backup =
      if s.options.reminderSettings.enabled then
        setupReminderSystem (afterBatchArm s now p old new backup) p
      else afterBatchArm s now p old new backup := by
  unfold onPluginUpdated afterBatchArm setTimeout clearTimeout pendingWithout newUpdateEvent
  simp only [hen, Bool.not_true, Bool.false_eq_true, if_false]
  cases s.batchTimer <;> rfl

theorem onPluginUpdated_disabled (s : Plugin) (now : Nat) (p old new : String)
    (backup : Option String) (hen : s.options.enableUpdateNotifications = false) :
    onPluginUpdated s now p old new backup = s := by
  simp [onPluginUpdated, hen]

theorem onPluginUpdated_updateEvents (s : Plugin) (now : Nat) (p old new : String)
    (backup : Option String) (hen : s.options.enableUpdateNotifications = true) :
    (onPluginUpdated s now p old new backup).updateEvents =
      s.updateEvents.set p (newUpdateEvent now p old new backup) := by
  rw [onPluginUpdated_eq s now p old new backup hen]
  split
  · rw [setupReminderSystem_eq]; rfl
  · rfl

@[simp] theorem onPluginUpdated_sendCalls (s : Plugin) (now : Nat) (p old new : String)
    (backup : Option String) :
    (onPluginUpdated s now p old new backup).sendCalls = s.sendCalls := by
  cases hen : s.options.enableUpdateNotifications with
  | false => rw [onPluginUpdated_disabled s now p old new backup hen]
  | true =>
    rw [onPluginUpdated_eq s now p old new backup hen]
    split
    · rw [setupReminderSystem_eq]; rfl
    · rfl

@[simp] theorem onPluginUpdated_channel (s : Plugin) (now : Nat) (p old new : String)
    (backup : Option String) :
    (onPluginUpdated s now p old new backup).channel = s.channel := by
  cases hen : s.options.enableUpdateNotifications with
  | false => rw [onPluginUpdated_disabled s now p old new backup hen]
  | true =>
    rw [onPluginUpdated_eq s now p old new backup hen]
    split
    · rw [setupReminderSystem_eq]; rfl
    · rfl

@[simp] theorem onPluginUpdated_options (s : Plugin) (now : Nat) (p old new : String)
    (backup : Option String) :
    (onPluginUpdated s now p old new backup).options = s.options := by
  cases hen : s.options.enableUpdateNotifications with
  | false => rw [onPluginUpdated_disabled s now p old new backup hen]
  | true =>
    rw [onPluginUpdated_eq s now p old new backup hen]
    split
    · rw [setupReminderSystem_eq]; rfl
    · rfl

@[simp] theorem onPluginUpdated_batchDelay (s : Plugin) (now : Nat) (p old new : String)
    (backup : Option String) :
    (onPluginUpdated s now p old new backup).batchDelay = s.batchDelay := by
  cases hen : s.options.enableUpdateNotifications with
  | false => rw [onPluginUpdated_disabled s now p old new backup hen]
  | true =>
    rw [onPluginUpdated_eq s now p old new backup hen]
    split
    · rw [setupReminderSystem_eq]; rfl
    · rfl

theorem JSMap.filter_entries_key (l : List (String × UpdateEvent))
    (hnd : (l.map Prod.fst).Nodup) (p : String) (v : UpdateEvent) (hm : (p, v) ∈ l) :
    l.filter (fun x => x.1 = p) = [(p, v)] := by
  induction l with
  | nil => simp at hm
  | cons x rest ih =>
    obtain ⟨k', v'⟩ := x
    have hn := List.nodup_cons.mp hnd
    by_cases hk : k' = p
    · subst hk
      have hrest : ∀ y ∈ rest, ¬ y.1 = k' := by
        intro y hy e
        exact hn.1 (List.mem_map.mpr ⟨y, hy, e⟩)
      have hv : v' = v := by
        simp only [List.mem_cons, Prod.mk.injEq, true_and] at hm
        rcases hm with e | e
        · exact e.symm
        · exact absurd rfl (hrest _ e)
      have hf : rest.filter (fun x => decide (x.1 = k')) = [] := by
        rw [List.filter_eq_nil_iff]
        intro y hy
        simpa using hrest y hy
      simp [List.filter_cons, hf, hv]
    · have hm' : (p, v) ∈ rest := by
        simp only [List.mem_cons, Prod.mk.injEq] at hm
        rcases hm with e | e
        · exact absurd e.1.symm hk
        · exact e
      simp [List.filter_cons, hk, ih hn.2 hm']

/-- The stored events whose `pluginName` is `p`, in a store filed by plugin name that holds `v`
under `p`, are `v` alone. -/
theorem values_filter_pluginName (m : JSMap UpdateEvent) (p : String) (v : UpdateEvent)
    (hget : m.get p = some v) (hkeyed : ∀ k e, m.get k = some e → e.pluginName = k) :
    m.values.filter (fun e => e.pluginName = p) = [v] := by
  have h1 : m.values.filter (fun e => e.pluginName = p) =
      (m.entries.filter (fun x => x.1 = p)).map Prod.snd := by
    unfold JSMap.values
    rw [List.filter_map]
    congr 1
    apply List.filter_congr
    intro x hx
    obtain ⟨k, e⟩ := x
    have := hkeyed k e ((JSMap.mem_entries_iff m k e).1 hx)
    simp [this]
  rw [h1, JSMap.filter_entries_key m.entries m.nodup p v ((JSMap.mem_entries_iff m p v).2 hget)]
  rfl

/-- C3: with update notifications enabled, `onPluginUpdated(p, old2, new2, backup2)` leaves
exactly one stored event under `p`, with the new version pair and `notified = false`, whatever was
stored for `p` before, and leaves the events of all other plugin names as they were; and in a
store filed by plugin name, with a channel, the next batch firing sends one message that shows
`p` once, with the latest version pair: either the single-update message for the new event, or
the multi-update message whose only per-plugin field named `p` carries `old2` and `new2`. -/
theorem onPluginUpdated_replaces_event (s : Plugin) (now : Nat) (p old2 new2 : String)
    (backup2 : Option String) (hen : s.options.enableUpdateNotifications = true) :
    (onPluginUpdated s now p old2 new2 backup2).updateEvents.keys.count p = 1 ∧
    (onPluginUpdated s now p old2 new2 backup2).updateEvents.get p =
      some { pluginName := p, oldVersion := old2, newVersion := new2, backupPath := backup2,
             timestamp := now, notified := false } ∧
    (∀ q, q ≠ p → (onPluginUpdated s now p old2 new2 backup2).updateEvents.get q =
      s.updateEvents.get q) ∧
    (∀ ch now', s.channel = some ch →
      (∀ k e, s.updateEvents.get k = some e → e.pluginName = k) →
      (unnotifiedUpdates (onPluginUpdated s now p old2 new2 backup2)).filter
          (fun e => e.pluginName = p) = [newUpdateEvent now p old2 new2 backup2] ∧
      (pluginFields (unnotifiedUpdates (onPluginUpdated s now p old2 new2 backup2))).filter
          (fun f => f.name = p) =
        [{ name := p, value := .text (old2 ++ " " ++ glyphArrow ++ " " ++ new2),
           inline := true }] ∧
      ∃ m, (sendBatchUpdateNotification (onPluginUpdated s now p old2 new2 backup2)
              now').state.sendCalls = s.sendCalls ++ [m] ∧
        ((unnotifiedUpdates (onPluginUpdated s now p old2 new2 backup2) =
            [newUpdateEvent now p old2 new2 backup2] ∧
          m = singleUpdateOutMessage (onPluginUpdated s now p old2 new2 backup2) now'
            (newUpdateEvent now p old2 new2 backup2)) ∨
         (2 ≤ (unnotifiedUpdates (onPluginUpdated s now p old2 new2 backup2)).length ∧
          m = multipleUpdatesOutMessage (onPluginUpdated s now p old2 new2 backup2) now'
            (unnotifiedUpdates (onPluginUpdated s now p old2 new2 backup2))))) := by
  have hstore := onPluginUpdated_updateEvents s now p old2 new2 backup2 hen
  have hgetp : (onPluginUpdated s now p old2 new2 backup2).updateEvents.get p =
      some (newUpdateEvent now p old2 new2 backup2) := by
    rw [hstore]; exact JSMap.get_set_self _ _ _
  have hgetq : ∀ q, q ≠ p → (onPluginUpdated s now p old2 new2 backup2).updateEvents.get q =
      s.updateEvents.get q := by
    intro q hq
    rw [hstore]; exact JSMap.get_set_of_ne _ _ _ _ hq
  refine ⟨?_, hgetp, hgetq, ?_⟩
  · apply List.count_eq_one_of_mem (JSMap.keys_nodup _)
    exact (JSMap.mem_keys_iff _ _).2 ⟨_, hgetp⟩
  · intro ch now' hch hkeyed
    have hkeyed' : ∀ k e, (onPluginUpdated s now p old2 new2 backup2).updateEvents.get k = some e →
        e.pluginName = k := by
      intro k e hk
      by_cases hkp : k = p
      · subst hkp
        rw [hgetp] at hk
        cases hk
        rfl
      · rw [hgetq k hkp] at hk
        exact hkeyed k e hk
    have hfilter : (unnotifiedUpdates (onPluginUpdated s now p old2 new2 backup2)).filter
        (fun e => e.pluginName = p) = [newUpdateEvent now p old2 new2 backup2] := by
      unfold unnotifiedUpdates
      rw [List.filter_comm, values_filter_pluginName _ p _ hgetp hkeyed']
      rfl
    have hfields : (pluginFields (unnotifiedUpdates
        (onPluginUpdated s now p old2 new2 backup2))).filter (fun f => f.name = p) =
        [{ name := p, value := .text (old2 ++ " " ++ glyphArrow ++ " " ++ new2),
           inline := true }] := by
      unfold pluginFields
      rw [List.filter_map]
      have : (fun f : Field => decide (f.name = p)) ∘ (fun event : UpdateEvent =>
          ({ name := event.pluginName, value := .text (versionPair event), inline := true } :
            Field)) = fun e => decide (e.pluginName = p) := rfl
      rw [this, hfilter]
      rfl
    refine ⟨hfilter, hfields, ?_⟩
    have hmem : newUpdateEvent now p old2 new2 backup2 ∈
        unnotifiedUpdates (onPluginUpdated s now p old2 new2 backup2) :=
      (mem_unnotifiedUpdates _ _).2 ⟨⟨p, hgetp⟩, rfl⟩
    have hch' : (onPluginUpdated s now p old2 new2 backup2).channel = some ch := by
      rw [onPluginUpdated_channel]; exact hch
    cases hp : unnotifiedUpdates (onPluginUpdated s now p old2 new2 backup2) with
    | nil => rw [hp] at hmem; cases hmem
    | cons ev rest =>
      obtain ⟨lg, h⟩ := sendBatchUpdateNotification_of_pending _ now' ch hch' ev rest hp
      rw [h]
      cases rest with
      | nil =>
        have hev : ev = newUpdateEvent now p old2 new2 backup2 := by
          rw [hp] at hmem
          exact (List.mem_singleton.mp hmem).symm
        subst hev
        exact ⟨_, by simp [Completion.state, markNotified], Or.inl ⟨rfl, rfl⟩⟩
      | cons ev2 rest2 =>
        exact ⟨_, by simp [Completion.state, markNotified], Or.inr ⟨by simp, rfl⟩⟩

/-! ## Well-formedness is kept by every callback -/

theorem wf_mounted (options : Options) (channel : Option Channel) :
    WF (mounted options channel) where
  fresh := by intro t ht; cases ht
  ids_nodup := List.nodup_nil
  batch_handle := by intro h hh; cases hh
  reminder_handle := by intro p h hh; cases hh
  batch_tracked := by intro t ht; cases ht
  reminder_tracked := by intro t ht; cases ht
  batch_owner := by intro t ht; cases ht
  reminder_owner := by intro t ht; cases ht
  store_keyed := by intro k e hh; cases hh

/-- Well-formedness only looks at the timers, the handles and the store. -/
theorem WF.congr {s s' : Plugin} (h : WF s) (hp : s'.pending = s.pending)
    (hn : s'.nextTimerId = s.nextTimerId) (hb : s'.batchTimer = s.batchTimer)
    (hr : s'.reminderTimers = s.reminderTimers)
    (hu : ∀ k e, s'.updateEvents.get k = some e → e.pluginName = k) : WF s' where
  fresh := by rw [hp, hn]; exact h.fresh
  ids_nodup := by rw [hp]; exact h.ids_nodup
  batch_handle := by rw [hb, hn]; exact h.batch_handle
  reminder_handle := by rw [hr, hn]; exact h.reminder_handle
  batch_tracked := by rw [hp, hb]; exact h.batch_tracked
  reminder_tracked := by rw [hp, hr]; exact h.reminder_tracked
  batch_owner := by rw [hp, hb]; exact h.batch_owner
  reminder_owner := by rw [hp, hr]; exact h.reminder_owner
  store_keyed := hu

theorem pendingWithout_sublist (pending : List Timer) (h : Option Nat) :
    (pendingWithout pending h).Sublist pending := by
  cases h with
  | none => exact List.Sublist.refl _
  | some handle => exact List.filter_sublist _

theorem mem_pendingWithout (pending : List Timer) (h : Option Nat) (t : Timer) :
    t ∈ pendingWithout pending h ↔ t ∈ pending ∧ h ≠ some t.id := by
  cases h with
  | none => simp [pendingWithout]
  | some handle =>
    simp only [pendingWithout, List.mem_filter, bne_iff_ne, ne_eq, Option.some.injEq]
    constructor
    · rintro ⟨h1, h2⟩; exact ⟨h1, fun e => h2 e.symm⟩
    · rintro ⟨h1, h2⟩; exact ⟨h1, fun e => h2 e.symm⟩

/-- Some pending timeouts are dropped without touching the handles. -/
theorem WF.of_sublist {s s' : Plugin} (h : WF s) (hp : s'.pending.Sublist s.pending)
    (hn : s'.nextTimerId = s.nextTimerId) (hb : s'.batchTimer = s.batchTimer)
    (hr : s'.reminderTimers = s.reminderTimers)
    (hu : ∀ k e, s'.updateEvents.get k = some e → e.pluginName = k) : WF s' where
  fresh := by intro t ht; rw [hn]; exact h.fresh t (hp.subset ht)
  ids_nodup := h.ids_nodup.sublist (hp.map Timer.id)
  batch_handle := by rw [hb, hn]; exact h.batch_handle
  reminder_handle := by rw [hr, hn]; exact h.reminder_handle
  batch_tracked := by intro t ht; rw [hb]; exact h.batch_tracked t (hp.subset ht)
  reminder_tracked := by intro t ht; rw [hr]; exact h.reminder_tracked t (hp.subset ht)
  batch_owner := by intro t ht; rw [hb]; exact h.batch_owner t (hp.subset ht)
  reminder_owner := by intro t ht; rw [hr]; exact h.reminder_owner t (hp.subset ht)
  store_keyed := hu

/-- A fresh reminder timer for `p` is armed and filed under `p`, when no reminder timer for `p`
is left pending. -/
theorem WF.arm_reminder {s s' : Plugin} (h : WF s) (p : String) (d : JSValue) (P : List Timer)
    (hP : P.Sublist s.pending) (hnone : ∀ t ∈ P, t.action ≠ .reminder p)
    (hp : s'.pending = P ++ [{ id := s.nextTimerId, delay := d, action := .reminder p }])
    (hn : s'.nextTimerId = s.nextTimerId + 1) (hb : s'.batchTimer = s.batchTimer)
    (hr : s'.reminderTimers = s.reminderTimers.set p s.nextTimerId)
    (hu : ∀ k e, s'.updateEvents.get k = some e → e.pluginName = k) : WF s' := by
  have hold : ∀ t ∈ P, t ∈ s.pending := fun t ht => hP.subset ht
  have hmem : ∀ t, t ∈ s'.pending ↔
      t ∈ P ∨ t = { id := s.nextTimerId, delay := d, action := .reminder p } := by
    intro t; rw [hp]; simp
  have hget : ∀ q, q ≠ p → s'.reminderTimers.get q = s.reminderTimers.get q := by
    intro q hq; rw [hr]; exact JSMap.get_set_of_ne _ _ _ _ hq
  have hgetp : s'.reminderTimers.get p = some s.nextTimerId := by
    rw [hr]; exact JSMap.get_set_self _ _ _
  refine ⟨?_, ?_, ?_, ?_, ?_, ?_, ?_, ?_, hu⟩
  · intro t ht
    rw [hn]
    rcases (hmem t).1 ht with ht | ht
    · exact Nat.lt_succ_of_lt (h.fresh t (hold t ht))
    · subst ht; exact Nat.lt_succ_self _
  · rw [hp, List.map_append, List.nodup_append]
    refine ⟨h.ids_nodup.sublist (hP.map Timer.id), List.nodup_singleton _, ?_⟩
    intro a ha hb'
    simp only [List.map_cons, List.map_nil, List.mem_singleton] at hb'
    obtain ⟨t, ht, rfl⟩ := List.mem_map.mp ha
    exact absurd hb' (Nat.ne_of_lt (h.fresh t (hold t ht)))
  · intro x hx
    rw [hb] at hx; rw [hn]
    exact Nat.lt_succ_of_lt (h.batch_handle x hx)
  · intro q x hx
    rw [hn]
    by_cases hq : q = p
    · subst hq
      rw [hgetp] at hx
      cases hx
      exact Nat.lt_succ_self _
    · rw [hget q hq] at hx
      exact Nat.lt_succ_of_lt (h.reminder_handle q x hx)
  · intro t ht hact
    rw [hb]
    rcases (hmem t).1 ht with ht | ht
    · exact h.batch_tracked t (hold t ht) hact
    · subst ht; cases hact
  · intro t ht q hact
    rcases (hmem t).1 ht with ht | ht
    · have hq : q ≠ p := by
        intro e; subst e; exact hnone t ht hact
      rw [hget q hq]
      exact h.reminder_tracked t (hold t ht) q hact
    · subst ht
      cases hact
      exact hgetp
  · intro t ht hbt
    rw [hb] at hbt
    rcases (hmem t).1 ht with ht | ht
    · exact h.batch_owner t (hold t ht) hbt
    · subst ht
      exact absurd (h.batch_handle _ hbt) (Nat.lt_irrefl _)
  · intro t ht q hq
    rcases (hmem t).1 ht with ht | ht
    · by_cases hqp : q = p
      · subst hqp
        rw [hgetp] at hq
        have e := Option.some.inj hq
        have hlt := h.fresh t (hold t ht)
        omega
      · rw [hget q hqp] at hq
        exact h.reminder_owner t (hold t ht) q hq
    · subst ht
      by_cases hqp : q = p
      · rw [hqp]
      · rw [hget q hqp] at hq
        exact absurd (h.reminder_handle q _ hq) (Nat.lt_irrefl _)

/-- A fresh batch timer is armed and remembered, when no batch timer is left pending. -/
theorem WF.arm_batch {s s' : Plugin} (h : WF s) (d : JSValue) (P : List Timer)
    (hP : P.Sublist s.pending) (hnone : ∀ t ∈ P, t.action ≠ .batch)
    (hp : s'.pending = P ++ [{ id := s.nextTimerId, delay := d, action := .batch }])
    (hn : s'.nextTimerId = s.nextTimerId + 1) (hb : s'.batchTimer = some s.nextTimerId)
    (hr : s'.reminderTimers = s.reminderTimers)
    (hu : ∀ k e, s'.updateEvents.get k = some e → e.pluginName = k) : WF s' := by
  have hold : ∀ t ∈ P, t ∈ s.pending := fun t ht => hP.subset ht
  have hmem : ∀ t, t ∈ s'.pending ↔
      t ∈ P ∨ t = { id := s.nextTimerId, delay := d, action := .batch } := by
    intro t; rw [hp]; simp
  refine ⟨?_, ?_, ?_, ?_, ?_, ?_, ?_, ?_, hu⟩
  · intro t ht
    rw [hn]
    rcases (hmem t).1 ht with ht | ht
    · exact Nat.lt_succ_of_lt (h.fresh t (hold t ht))
    · subst ht; exact Nat.lt_succ_self _
  · rw [hp, List.map_append, List.nodup_append]
    refine ⟨h.ids_nodup.sublist (hP.map Timer.id), List.nodup_singleton _, ?_⟩
    intro a ha hb'
    simp only [List.map_cons, List.map_nil, List.mem_singleton] at hb'
    obtain ⟨t, ht, rfl⟩ := List.mem_map.mp ha
    exact absurd hb' (Nat.ne_of_lt (h.fresh t (hold t ht)))
  · intro x hx
    rw [hb] at hx; rw [hn]
    cases hx
    exact Nat.lt_succ_self _
  · intro q x hx
    rw [hr] at hx; rw [hn]
    exact Nat.lt_succ_of_lt (h.reminder_handle q x hx)
  · intro t ht hact
    rcases (hmem t).1 ht with ht | ht
    · exact absurd hact (hnone t ht)
    · subst ht; exact hb
  · intro t ht q hact
    rw [hr]
    rcases (hmem t).1 ht with ht | ht
    · exact h.reminder_tracked t (hold t ht) q hact
    · subst ht; cases hact
  · intro t ht hbt
    rw [hb] at hbt
    rcases (hmem t).1 ht with ht | ht
    · have e := Option.some.inj hbt
      have hlt := h.fresh t (hold t ht)
      omega
    · subst ht; rfl
  · intro t ht q hq
    rw [hr] at hq
    rcases (hmem t).1 ht with ht | ht
    · exact h.reminder_owner t (hold t ht) q hq
    · subst ht
      exact absurd (h.reminder_handle q _ hq) (Nat.lt_irrefl _)

theorem scheduleNextReminder_eq (s : Plugin) (p : String) (d : JSValue) :
    scheduleNextReminder s p d =
      { s with
        pending := s.pending ++ [{ id := s.nextTimerId, delay := d, action := .reminder p }]
        nextTimerId := s.nextTimerId + 1
        reminderTimers := s.reminderTimers.set p s.nextTimerId } := rfl

theorem sendReminderNotification_of_no_channel (s : Plugin) (now : Nat) (p : String)
    (hch : s.channel = none) : sendReminderNotification s now p = .returned s := by
  simp [sendReminderNotification, hch]

theorem sendReminderNotification_of_max (s : Plugin) (now : Nat) (p : String) (ch : Channel)
    (hch : s.channel = some ch)
    (hmax : s.options.reminderSettings.maxReminders ≤ (currentCount s p : Int)) :
    sendReminderNotification s now p =
      .returned (s.verbose 1 ("Max reminders reached for " ++ p)) := by
  have hne : ¬ s.channel.isNone = true := by simp [hch]
  unfold sendReminderNotification
  rw [if_neg hne]
  unfold currentCount at hmax
  simp only [ge_iff_le, hmax, if_true]

/-- A reminder firing below the cap: the count goes up by one, one call to the sink is made with
the reminder message for the new count, and a next timer is armed exactly when the new count is
still below the cap. -/
theorem sendReminderNotification_of_below (s : Plugin) (now : Nat) (p : String) (ch : Channel)
    (hch : s.channel = some ch)
    (hlt : (currentCount s p : Int) < s.options.reminderSettings.maxReminders) :
    ∃ lg, sendReminderNotification s now p =
      .returned
        (if ((currentCount s p + 1 : Nat) : Int) < s.options.reminderSettings.maxReminders then
          scheduleNextReminder
            { s with
              reminderCounts := s.reminderCounts.set p (currentCount s p + 1)
              sendCalls := s.sendCalls ++ [reminderOutMessage s now p (currentCount s p + 1)]
              log := lg }
            p (parseReminderInterval s.options.reminderSettings.interval)
        else
          { s with
            reminderCounts := s.reminderCounts.set p (currentCount s p + 1)
            sendCalls := s.sendCalls ++ [reminderOutMessage s now p (currentCount s p + 1)]
            log := lg }) := by
  have hne : ¬ s.channel.isNone = true := by simp [hch]
  unfold sendReminderNotification
  rw [if_neg hne]
  unfold currentCount at hlt
  have hge : ¬ ((((s.reminderCounts.get p).getD 0 : Nat) : Int) ≥
      s.options.reminderSettings.maxReminders) := not_le.mpr hlt
  simp only [hge, if_false]
  obtain ⟨lg, h⟩ := sendDiscordMessage_of_channel
    { s with reminderCounts := s.reminderCounts.set p ((s.reminderCounts.get p).getD 0 + 1) }
    (withRolePing s (reminderEmbed s now p ((s.reminderCounts.get p).getD 0 + 1))
      (" " ++ glyphClock ++ " Reminder: " ++ p ++ " still needs restart!")) ch hch
  refine ⟨lg, ?_⟩
  have h' : sendDiscordMessage
      { s with reminderCounts := s.reminderCounts.set p ((s.reminderCounts.get p).getD 0 + 1) }
      (withRolePing
        { s with reminderCounts := s.reminderCounts.set p ((s.reminderCounts.get p).getD 0 + 1) }
        (reminderEmbed
          { s with
            reminderCounts := s.reminderCounts.set p ((s.reminderCounts.get p).getD 0 + 1) }
          now p ((s.reminderCounts.get p).getD 0 + 1))
        (" " ++ glyphClock ++ " Reminder: " ++ p ++ " still needs restart!")) = _ := h
  rw [h']
  unfold Completion.andThen currentCount reminderOutMessage
  dsimp only
  split <;> rfl

theorem newUpdateEvent_keyed (m : JSMap UpdateEvent) (now : Nat) (p old new : String)
    (backup : Option String) (hm : ∀ k e, m.get k = some e → e.pluginName = k) :
    ∀ k e, (m.set p (newUpdateEvent now p old new backup)).get k = some e →
      e.pluginName = k := by
  intro k e hk
  by_cases hkp : k = p
  · subst hkp
    rw [JSMap.get_set_self] at hk
    cases hk
    rfl
  · rw [JSMap.get_set_of_ne _ _ _ _ hkp] at hk
    exact hm k e hk

theorem wf_afterBatchArm (s : Plugin) (now : Nat) (p old new : String)
    (backup : Option String) (h : WF s) : WF (afterBatchArm s now p old new backup) := by
  refine h.arm_batch (.number s.batchDelay) (pendingWithout s.pending s.batchTimer)
    (pendingWithout_sublist _ _) ?_ rfl rfl rfl rfl
    (newUpdateEvent_keyed _ now p old new backup h.store_keyed)
  intro t ht hact
  obtain ⟨h1, h2⟩ := (mem_pendingWithout _ _ _).1 ht
  exact h2 (h.batch_tracked t h1 hact)

theorem wf_setupReminderSystem (s : Plugin) (p : String) (h : WF s) :
    WF (setupReminderSystem s p) := by
  rw [setupReminderSystem_eq]
  refine h.arm_reminder p (parseReminderInterval s.options.reminderSettings.interval)
    (pendingWithout s.pending (s.reminderTimers.get p))
    (pendingWithout_sublist _ _) ?_ rfl rfl rfl rfl h.store_keyed
  intro t ht hact
  obtain ⟨h1, h2⟩ := (mem_pendingWithout _ _ _).1 ht
  exact h2 (h.reminder_tracked t h1 p hact)

theorem wf_onPluginUpdated (s : Plugin) (now : Nat) (p old new : String)
    (backup : Option String) (h : WF s) : WF (onPluginUpdated s now p old new backup) := by
  cases hen : s.options.enableUpdateNotifications with
  | false => rw [onPluginUpdated_disabled s now p old new backup hen]; exact h
  | true =>
    rw [onPluginUpdated_eq s now p old new backup hen]
    split
    · exact wf_setupReminderSystem _ p (wf_afterBatchArm s now p old new backup h)
    · exact wf_afterBatchArm s now p old new backup h

/-- Sending changes nothing but the record of sink calls and the log. -/
theorem sendDiscordMessage_frame (s : Plugin) (message : Message) :
    ∃ calls lg, sendDiscordMessage s message = .returned { s with sendCalls := calls, log := lg } := by
  rcases Option.eq_none_or_eq_some s.channel with hch | ⟨ch, hch⟩
  · refine ⟨s.sendCalls, s.log ++ [(2, "Could not send Discord Message. Channel not initialized.")],
      ?_⟩
    simp [sendDiscordMessage, hch, Plugin.verbose]
  · obtain ⟨lg, h⟩ := sendDiscordMessage_of_channel s message ch hch
    exact ⟨_, lg, h⟩

theorem sendRestartNotification_frame (s : Plugin) (now : Nat) (p : String) :
    ∃ calls lg, sendRestartNotification s now p =
      .returned { s with sendCalls := calls, log := lg } := by
  unfold sendRestartNotification
  split
  · exact ⟨s.sendCalls, s.log, rfl⟩
  · exact sendDiscordMessage_frame s _

theorem onRestartRequired_frame (s : Plugin) (now : Nat) (p : String) :
    ∃ calls lg, onRestartRequired s now p = { s with sendCalls := calls, log := lg } := by
  obtain ⟨calls, lg, h⟩ := sendRestartNotification_frame s now p
  unfold onRestartRequired
  split
  · exact ⟨s.sendCalls, s.log, rfl⟩
  · split
    · split
      · exact ⟨s.sendCalls, s.log, rfl⟩
      · exact ⟨calls, lg, by rw [h]; rfl⟩
    · exact ⟨calls, lg, by rw [h]; rfl⟩

theorem wf_onRestartRequired (s : Plugin) (now : Nat) (p : String) (h : WF s) :
    WF (onRestartRequired s now p) := by
  obtain ⟨calls, lg, e⟩ := onRestartRequired_frame s now p
  rw [e]
  exact h.congr rfl rfl rfl rfl h.store_keyed

theorem markNotified_keyed (m : JSMap UpdateEvent) (pendingUpdates : List UpdateEvent)
    (hm : ∀ k e, m.get k = some e → e.pluginName = k) :
    ∀ k e, (m.mapValues (fun event =>
      if event ∈ pendingUpdates then { event with notified := true } else event)).get k =
        some e → e.pluginName = k := by
  intro k e hk
  rw [JSMap.get_mapValues] at hk
  cases hg : m.get k with
  | none => rw [hg] at hk; cases hk
  | some e' =>
    rw [hg] at hk
    simp only [Option.map_some', Option.some.injEq] at hk
    rw [← hk]
    have := hm k e' hg
    split <;> exact this

/-- A batch firing changes the record of sink calls, the log and the `notified` flags only. -/
theorem sendBatchUpdateNotification_frame (s : Plugin) (now : Nat) :
    ∃ calls lg evs, sendBatchUpdateNotification s now =
      .returned (markNotified { s with sendCalls := calls, log := lg } evs) ∨
      sendBatchUpdateNotification s now = .returned s := by
  rcases Option.eq_none_or_eq_some s.channel with hch | ⟨ch, hch⟩
  · exact ⟨[], [], [], Or.inr (by simp [sendBatchUpdateNotification, hch])⟩
  · cases hp : unnotifiedUpdates s with
    | nil => exact ⟨[], [], [], Or.inr (sendBatchUpdateNotification_of_none_pending s now hp)⟩
    | cons ev rest =>
      obtain ⟨lg, h⟩ := sendBatchUpdateNotification_of_pending s now ch hch ev rest hp
      exact ⟨_, lg, ev :: rest, Or.inl h⟩

theorem wf_sendBatchUpdateNotification (s : Plugin) (now : Nat) (h : WF s) :
    WF (sendBatchUpdateNotification s now).state := by
  obtain ⟨calls, lg, evs, e | e⟩ := sendBatchUpdateNotification_frame s now
  · rw [e]
    exact h.congr rfl rfl rfl rfl (markNotified_keyed _ evs h.store_keyed)
  · rw [e]; exact h

theorem wf_sendReminderNotification (s : Plugin) (now : Nat) (p : String) (h : WF s)
    (hnone : ∀ t ∈ s.pending, t.action ≠ .reminder p) :
    WF (sendReminderNotification s now p).state := by
  cases hch : s.channel with
  | none => rw [sendReminderNotification_of_no_channel s now p hch]; exact h
  | some ch =>
    by_cases hlt : (currentCount s p : Int) < s.options.reminderSettings.maxReminders
    · obtain ⟨lg, e⟩ := sendReminderNotification_of_below s now p ch hch hlt
      rw [e]
      simp only [Completion.state]
      split
      · rw [scheduleNextReminder_eq]
        exact h.arm_reminder p _ s.pending (List.Sublist.refl _) hnone rfl rfl rfl rfl
          h.store_keyed
      · exact h.congr rfl rfl rfl rfl h.store_keyed
    · rw [sendReminderNotification_of_max s now p ch hch (not_lt.mp hlt)]
      exact h.congr rfl rfl rfl rfl h.store_keyed

theorem wf_fireTimer (s : Plugin) (now : Nat) (id : Nat) (h : WF s) :
    WF (fireTimer s now id) := by
  unfold fireTimer
  cases hf : s.pending.find? (fun t => t.id = id) with
  | none => exact h
  | some timer =>
    have hmem : timer ∈ s.pending := List.mem_of_find?_eq_some hf
    have hid : timer.id = id := by simpa using List.find?_some hf
    have h1 : WF { s with pending := s.pending.filter (fun t => t.id != id) } :=
      h.of_sublist (List.filter_sublist _) rfl rfl rfl h.store_keyed
    dsimp only
    cases hact : timer.action with
    | batch => exact wf_sendBatchUpdateNotification _ now h1
    | reminder p =>
      refine wf_sendReminderNotification _ now p h1 ?_
      intro t ht hta
      simp only [List.mem_filter, bne_iff_ne, ne_eq] at ht
      have e1 := h.reminder_tracked t ht.1 p hta
      have e2 := h.reminder_tracked timer hmem p hact
      rw [e1] at e2
      exact ht.2 ((Option.some.inj e2).trans hid)

theorem foldl_clearTimeout_eq (handles : List Nat) (s : Plugin) :
    handles.foldl clearTimeout s =
      { s with pending := s.pending.filter (fun t => decide (t.id ∉ handles)) } := by
  induction handles generalizing s with
  | nil => simp
  | cons x rest ih =>
    rw [List.foldl_cons, ih]
    simp only [clearTimeout, List.filter_filter]
    congr 1
    apply List.filter_congr
    intro t _
    simp only [List.mem_cons, not_or, bne_iff_ne, ne_eq, Bool.decide_and, Bool.and_comm,
      decide_not]
    cases decide (t.id ∈ rest) <;> cases hx : decide (t.id = x) <;> simp_all

theorem unmount_eq (s : Plugin) :
    unmount s =
      { s with
        batchTimer := none
        pending := (pendingWithout s.pending s.batchTimer).filter
          (fun t => decide (t.id ∉ s.reminderTimers.values))
        reminderTimers := JSMap.empty
        reminderCounts := JSMap.empty } := by
  unfold unmount
  simp only [foldl_clearTimeout_eq, JSMap.clear]
  rcases Option.eq_none_or_eq_some s.batchTimer with hb | ⟨x, hb⟩
  · simp [hb, pendingWithout]
  · simp [hb, pendingWithout, clearTimeout]

theorem unmount_pending_of_wf (s : Plugin) (h : WF s) : (unmount s).pending = [] := by
  rw [unmount_eq]
  simp only
  rw [List.filter_eq_nil_iff]
  intro t ht
  obtain ⟨h1, h2⟩ := (mem_pendingWithout _ _ _).1 ht
  cases hact : t.action with
  | batch => exact absurd (h.batch_tracked t h1 hact) h2
  | reminder p =>
    have := h.reminder_tracked t h1 p hact
    have hv : t.id ∈ s.reminderTimers.values := (JSMap.mem_values_iff _ _).2 ⟨p, this⟩
    simp [hv]

theorem wf_unmount (s : Plugin) (h : WF s) : WF (unmount s) := by
  have hp := unmount_pending_of_wf s h
  have he := unmount_eq s
  refine ⟨?_, ?_, ?_, ?_, ?_, ?_, ?_, ?_, ?_⟩
  · rw [hp]; intro t ht; cases ht
  · rw [hp]; exact List.nodup_nil
  · rw [he]; intro x hx; cases hx
  · rw [he]; intro q x hx; cases hx
  · rw [hp]; intro t ht; cases ht
  · rw [hp]; intro t ht; cases ht
  · rw [hp]; intro t ht; cases ht
  · rw [hp]; intro t ht; cases ht
  · rw [he]; exact h.store_keyed

theorem wf_step (s : Plugin) (st : Step) (h : WF s) : WF (step s st) := by
  cases st with
  | pluginUpdated now p old new backup => exact wf_onPluginUpdated s now p old new backup h
  | restartRequired now p => exact wf_onRestartRequired s now p h
  | timerFired now id => exact wf_fireTimer s now id h
  | unmount => exact wf_unmount s h

/-- Every state of a run from a well-formed state is well-formed. -/
theorem wf_run (s : Plugin) (steps : List Step) (h : WF s) : WF (run s steps) := by
  induction steps generalizing s with
  | nil => exact h
  | cons st rest ih => exact ih (step s st) (wf_step s st h)

theorem onPluginUpdated_replaces_event_witness :
    (onPluginUpdated
      (run (mounted defaultOptions (some acceptingChannel))
        [.pluginUpdated 1 "SquadLeader" "v1.0.0" "v1.1.0" none, .timerFired 2 0])
      3 "SquadLeader" "v1.1.0" "v1.2.0" (some "/backups/a")).updateEvents.get "SquadLeader" =
      some { pluginName := "SquadLeader", oldVersion := "v1.1.0", newVersion := "v1.2.0",
             backupPath := some "/backups/a", timestamp := 3, notified := false } ∧
    (pluginFields (unnotifiedUpdates (onPluginUpdated
      (run (mounted defaultOptions (some acceptingChannel))
        [.pluginUpdated 1 "SquadLeader" "v1.0.0" "v1.1.0" none, .timerFired 2 0])
      3 "SquadLeader" "v1.1.0" "v1.2.0" (some "/backups/a")))).filter
        (fun f => f.name = "SquadLeader") =
      [{ name := "SquadLeader", value := .text ("v1.1.0" ++ " " ++ glyphArrow ++ " " ++ "v1.2.0"),
         inline := true }] :=
  have h := onPluginUpdated_replaces_event
    (run (mounted defaultOptions (some acceptingChannel))
      [.pluginUpdated 1 "SquadLeader" "v1.0.0" "v1.1.0" none, .timerFired 2 0])
    3 "SquadLeader" "v1.1.0" "v1.2.0" (some "/backups/a") (by decide)
  ⟨h.2.1, (h.2.2.2 acceptingChannel 4 rfl (wf_run _ _ (wf_mounted _ _)).store_keyed).2.1⟩

/-! ## Teardown -/

/-- C10, as stated, fails: after one `PLUGIN_UPDATED` event and `unmount`, the `updateEvents` map
still holds the event; `unmount` never clears it. -/
theorem unmount_keeps_updateEvents :
    (unmount (onPluginUpdated (mounted defaultOptions (some acceptingChannel)) 1 "SquadLeader"
      "v1.0.0" "v1.1.0" none)).updateEvents.keys = ["SquadLeader"] := by
  decide

/-- C10, amended: for every state, after `unmount` the batch timer is `null`, no timeout whose
handle was in `batchTimer` or in `reminderTimers` is pending, `reminderTimers` and
`reminderCounts` are empty, and `updateEvents` is left as it was. -/
theorem unmount_cancels_timers (s : Plugin) :
    (unmount s).batchTimer = none ∧
    (∀ t ∈ (unmount s).pending, s.batchTimer ≠ some t.id ∧ t.id ∉ s.reminderTimers.values) ∧
    (unmount s).reminderTimers.entries = [] ∧
    (unmount s).reminderCounts.entries = [] ∧
    (unmount s).updateEvents = s.updateEvents := by
  refine ⟨?_, ?_, ?_, ?_, ?_⟩
  · rw [unmount_eq]
  · rw [unmount_eq]
    intro t ht
    simp only [List.mem_filter, decide_eq_true_eq] at ht
    exact ⟨((mem_pendingWithout _ _ _).1 ht.1).2, ht.2⟩
  · rw [unmount_eq]; rfl
  · rw [unmount_eq]; rfl
  · rw [unmount_eq]

theorem unmount_cancels_timers_witness :
    (run (mounted reminderOptions (some acceptingChannel))
      [.pluginUpdated 1 "SquadLeader" "v1.0.0" "v1.1.0" none,
       .pluginUpdated 2 "Seeder" "v2.0.0" "v2.0.1" none]).pending.map Timer.id = [1, 2, 3] ∧
    (unmount (run (mounted reminderOptions (some acceptingChannel))
      [.pluginUpdated 1 "SquadLeader" "v1.0.0" "v1.1.0" none,
       .pluginUpdated 2 "Seeder" "v2.0.0" "v2.0.1" none])).batchTimer = none ∧
    (∀ t ∈ (unmount (run (mounted reminderOptions (some acceptingChannel))
      [.pluginUpdated 1 "SquadLeader" "v1.0.0" "v1.1.0" none,
       .pluginUpdated 2 "Seeder" "v2.0.0" "v2.0.1" none])).pending,
      (run (mounted reminderOptions (some acceptingChannel))
        [.pluginUpdated 1 "SquadLeader" "v1.0.0" "v1.1.0" none,
         .pluginUpdated 2 "Seeder" "v2.0.0" "v2.0.1" none]).batchTimer ≠ some t.id ∧
      t.id ∉ (run (mounted reminderOptions (some acceptingChannel))
        [.pluginUpdated 1 "SquadLeader" "v1.0.0" "v1.1.0" none,
         .pluginUpdated 2 "Seeder" "v2.0.0" "v2.0.1" none]).reminderTimers.values) ∧
    (unmount (run (mounted reminderOptions (some acceptingChannel))
      [.pluginUpdated 1 "SquadLeader" "v1.0.0" "v1.1.0" none,
       .pluginUpdated 2 "Seeder" "v2.0.0" "v2.0.1" none])).reminderTimers.entries = [] ∧
    (unmount (run (mounted reminderOptions (some acceptingChannel))
      [.pluginUpdated 1 "SquadLeader" "v1.0.0" "v1.1.0" none,
       .pluginUpdated 2 "Seeder" "v2.0.0" "v2.0.1" none])).reminderCounts.entries = [] :=
  have h := unmount_cancels_timers
    (run (mounted reminderOptions (some acceptingChannel))
      [.pluginUpdated 1 "SquadLeader" "v1.0.0" "v1.1.0" none,
       .pluginUpdated 2 "Seeder" "v2.0.0" "v2.0.1" none])
  ⟨by decide, h.1, h.2.1, h.2.2.1, h.2.2.2.1⟩

/-! ## The batch window -/

theorem filter_batch_pendingWithout (s : Plugin) (h : WF s) :
    (pendingWithout s.pending s.batchTimer).filter (fun t => t.action = .batch) = [] := by
  rw [List.filter_eq_nil_iff]
  intro t ht
  obtain ⟨h1, h2⟩ := (mem_pendingWithout _ _ _).1 ht
  intro hact
  exact h2 (h.batch_tracked t h1 (by simpa using hact))

theorem pendingBatchTimers_afterBatchArm (s : Plugin) (now : Nat) (p old new : String)
    (backup : Option String) (h : WF s) :
    pendingBatchTimers (afterBatchArm s now p old new backup) =
      [{ id := s.nextTimerId, delay := .number s.batchDelay, action := .batch }] := by
  unfold pendingBatchTimers afterBatchArm
  simp only [List.filter_append, filter_batch_pendingWithout s h]
  rfl

theorem filter_pendingWithout_of_ne (pending : List Timer) (handle : Option Nat)
    (f : Timer → Bool) (hne : ∀ t ∈ pending, f t = true → handle ≠ some t.id) :
    (pendingWithout pending handle).filter f = pending.filter f := by
  cases handle with
  | none => rfl
  | some x =>
    simp only [pendingWithout, List.filter_filter]
    apply List.filter_congr
    intro t ht
    cases hf : f t with
    | false => simp
    | true =>
      have := hne t ht hf
      simp only [ne_eq, Option.some.injEq] at this
      have hx : ¬ t.id = x := fun e => this e.symm
      simp [hx]

theorem pendingBatchTimers_setupReminderSystem (s : Plugin) (p : String) (h : WF s) :
    pendingBatchTimers (setupReminderSystem s p) = pendingBatchTimers s := by
  rw [setupReminderSystem_eq]
  unfold pendingBatchTimers
  simp only [List.filter_append]
  rw [filter_pendingWithout_of_ne]
  · simp
  · intro t ht hact hget
    have := h.reminder_owner t ht p hget
    rw [this] at hact
    simp at hact

/-- After `onPluginUpdated` exactly one batch timer is pending: the one just armed, with the
batch delay, remembered in `batchTimer`. -/
theorem pendingBatchTimers_onPluginUpdated (s : Plugin) (now : Nat) (p old new : String)
    (backup : Option String) (hen : s.options.enableUpdateNotifications = true) (h : WF s) :
    pendingBatchTimers (onPluginUpdated s now p old new backup) =
      [{ id := s.nextTimerId, delay := .number s.batchDelay, action := .batch }] ∧
    (onPluginUpdated s now p old new backup).batchTimer = some s.nextTimerId := by
  rw [onPluginUpdated_eq s now p old new backup hen]
  split
  · rw [pendingBatchTimers_setupReminderSystem _ p (wf_afterBatchArm s now p old new backup h)]
    rw [setupReminderSystem_eq]
    exact ⟨pendingBatchTimers_afterBatchArm s now p old new backup h, rfl⟩
  · exact ⟨pendingBatchTimers_afterBatchArm s now p old new backup h, rfl⟩

theorem unnotified_setEntries (l : List (String × UpdateEvent)) (p : String) (ev : UpdateEvent)
    (hev : ev.notified = false) (hold : ∀ x ∈ l, x.1 = p → x.2.notified = true) :
    (((JSMap.setEntries l p ev).map Prod.snd).filter (fun e => !e.notified)).Perm
      (ev :: (l.map Prod.snd).filter (fun e => !e.notified)) := by
  induction l with
  | nil => simp [JSMap.setEntries, hev]
  | cons x rest ih =>
    obtain ⟨k', v'⟩ := x
    have ih' := ih (fun y hy => hold y (List.mem_cons_of_mem _ hy))
    by_cases hk : k' = p
    · have hv : v'.notified = true := hold (k', v') (List.mem_cons_self _ _) hk
      simp [JSMap.setEntries, hk, hev, hv]
    · by_cases hv : v'.notified = true
      · simpa [JSMap.setEntries, hk, hv, List.filter_cons] using ih'
      · have hv' : v'.notified = false := by simpa using hv
        simp only [JSMap.setEntries, hk, if_false, List.map_cons, List.filter_cons, hv',
          Bool.not_false, if_true]
        exact (List.Perm.cons v' ih').trans (List.Perm.swap ev v' _)

/-- Storing an event for a plugin that has no un-notified event adds it to the un-notified
events. -/
theorem unnotifiedUpdates_onPluginUpdated (s : Plugin) (now : Nat) (p old new : String)
    (backup : Option String) (hen : s.options.enableUpdateNotifications = true)
    (hold : ∀ e, s.updateEvents.get p = some e → e.notified = true) :
    (unnotifiedUpdates (onPluginUpdated s now p old new backup)).Perm
      (newUpdateEvent now p old new backup :: unnotifiedUpdates s) := by
  unfold unnotifiedUpdates
  rw [onPluginUpdated_updateEvents s now p old new backup hen]
  refine unnotified_setEntries s.updateEvents.entries p _ rfl ?_
  rintro ⟨k, e⟩ hx hk
  simp only at hk
  subst hk
  exact hold e ((JSMap.mem_entries_iff _ _ _).1 hx)

theorem run_cons (s : Plugin) (st : Step) (rest : List Step) :
    run s (st :: rest) = run (step s st) rest := rfl

theorem run_append (s : Plugin) (l₁ l₂ : List Step) :
    run s (l₁ ++ l₂) = run (run s l₁) l₂ := by
  simp [run, List.foldl_append]

theorem run_updates_frame (updates : List PluginUpdate) (s : Plugin) :
    (run s (updates.map PluginUpdate.toStep)).sendCalls = s.sendCalls ∧
    (run s (updates.map PluginUpdate.toStep)).channel = s.channel ∧
    (run s (updates.map PluginUpdate.toStep)).options = s.options ∧
    (run s (updates.map PluginUpdate.toStep)).batchDelay = s.batchDelay := by
  induction updates generalizing s with
  | nil => exact ⟨rfl, rfl, rfl, rfl⟩
  | cons u rest ih =>
    rw [List.map_cons, run_cons]
    obtain ⟨h1, h2, h3, h4⟩ := ih (step s u.toStep)
    rw [h1, h2, h3, h4]
    simp [step, PluginUpdate.toStep]

/-- The un-notified events after a sequence of updates for pairwise distinct plugins, none of
which had an un-notified event: the earlier un-notified events and one event per update. -/
theorem run_updates_unnotified (updates : List PluginUpdate) (s : Plugin)
    (hen : s.options.enableUpdateNotifications = true)
    (hnd : (updates.map PluginUpdate.pluginName).Nodup)
    (hold : ∀ u ∈ updates, ∀ e, s.updateEvents.get u.pluginName = some e → e.notified = true) :
    (unnotifiedUpdates (run s (updates.map PluginUpdate.toStep))).Perm
      (unnotifiedUpdates s ++ updates.map PluginUpdate.event) := by
  induction updates generalizing s with
  | nil => simp [run]
  | cons u rest ih =>
    rw [List.map_cons, run_cons]
    have hn : u.pluginName ∉ rest.map PluginUpdate.pluginName ∧
        (rest.map PluginUpdate.pluginName).Nodup := by
      rw [List.map_cons] at hnd
      exact List.nodup_cons.mp hnd
    have hstep : step s u.toStep =
        onPluginUpdated s u.now u.pluginName u.oldVersion u.newVersion u.backupPath := rfl
    have hen' : (step s u.toStep).options.enableUpdateNotifications = true := by
      rw [hstep, onPluginUpdated_options]; exact hen
    have hold' : ∀ u' ∈ rest, ∀ e,
        (step s u.toStep).updateEvents.get u'.pluginName = some e → e.notified = true := by
      intro u' hu' e he
      have hne : u'.pluginName ≠ u.pluginName := by
        intro e'
        exact hn.1 (e' ▸ List.mem_map.mpr ⟨u', hu', rfl⟩)
      rw [hstep, onPluginUpdated_updateEvents s _ _ _ _ _ hen,
        JSMap.get_set_of_ne _ _ _ _ hne] at he
      exact hold u' (List.mem_cons_of_mem _ hu') e he
    have h1 := ih (step s u.toStep) hen' hn.2 hold'
    have h2 := unnotifiedUpdates_onPluginUpdated s u.now u.pluginName u.oldVersion u.newVersion
      u.backupPath hen (hold u (List.mem_cons_self _ _))
    rw [← hstep] at h2
    refine h1.trans ?_
    rw [List.map_cons]
    exact (List.Perm.append_right _ h2).trans (by
      simpa [PluginUpdate.event] using (List.perm_middle).symm)

theorem find_timer_of_mem (l : List Timer) (hnd : (l.map Timer.id).Nodup) (timer : Timer)
    (hm : timer ∈ l) : l.find? (fun t => t.id = timer.id) = some timer := by
  induction l with
  | nil => cases hm
  | cons x rest ih =>
    have hn := List.nodup_cons.mp (by rw [List.map_cons] at hnd; exact hnd)
    rcases List.mem_cons.mp hm with e | e
    · subst e; simp [List.find?_cons]
    · have hne : ¬ x.id = timer.id := by
        intro e'
        exact hn.1 (e' ▸ List.mem_map.mpr ⟨timer, e, rfl⟩)
      simp [List.find?_cons, hne, ih hn.2 e]

theorem fireTimer_batch (s : Plugin) (now : Nat) (timer : Timer) (h : WF s)
    (hm : timer ∈ s.pending) (hact : timer.action = .batch) :
    fireTimer s now timer.id =
      (sendBatchUpdateNotification
        { s with pending := s.pending.filter (fun t => t.id != timer.id) } now).state := by
  unfold fireTimer
  rw [find_timer_of_mem s.pending h.ids_nodup timer hm]
  simp only [hact]

theorem fireTimer_reminder (s : Plugin) (now : Nat) (timer : Timer) (p : String) (h : WF s)
    (hm : timer ∈ s.pending) (hact : timer.action = .reminder p) :
    fireTimer s now timer.id =
      (sendReminderNotification
        { s with pending := s.pending.filter (fun t => t.id != timer.id) } now p).state := by
  unfold fireTimer
  rw [find_timer_of_mem s.pending h.ids_nodup timer hm]
  simp only [hact]

theorem fireTimer_of_not_pending (s : Plugin) (now : Nat) (id : Nat)
    (h : ∀ t ∈ s.pending, t.id ≠ id) : fireTimer s now id = s := by
  unfold fireTimer
  have : s.pending.find? (fun t => t.id = id) = none := by
    rw [List.find?_eq_none]
    intro t ht
    simpa using h t ht
  rw [this]

/-- The messages depend on the state through its options only. -/
theorem singleUpdateOutMessage_congr (s s' : Plugin) (h : s'.options = s.options) (now : Nat)
    (ev : UpdateEvent) : singleUpdateOutMessage s' now ev = singleUpdateOutMessage s now ev := by
  simp [singleUpdateOutMessage, withRolePing, getRolePing, singleUpdateEmbed, h]

theorem multipleUpdatesOutMessage_congr (s s' : Plugin) (h : s'.options = s.options) (now : Nat)
    (evs : List UpdateEvent) :
    multipleUpdatesOutMessage s' now evs = multipleUpdatesOutMessage s now evs := by
  simp [multipleUpdatesOutMessage, withRolePing, getRolePing, multipleUpdatesEmbed, h]

theorem reminderOutMessage_congr (s s' : Plugin) (h : s'.options = s.options) (now : Nat)
    (p : String) (count : Nat) :
    reminderOutMessage s' now p count = reminderOutMessage s now p count := by
  simp [reminderOutMessage, withRolePing, getRolePing, reminderEmbed, h]

theorem unnotifiedUpdates_markNotified (s : Plugin) :
    unnotifiedUpdates (markNotified s (unnotifiedUpdates s)) = [] := by
  unfold unnotifiedUpdates markNotified
  simp only [JSMap.values_mapValues]
  rw [List.filter_eq_nil_iff]
  intro e he
  obtain ⟨e', he', rfl⟩ := List.mem_map.mp he
  by_cases hn : e'.notified = true
  · by_cases hin : e' ∈ s.updateEvents.values.filter (fun event => !event.notified)
    · simp [hin]
    · simp [hin, hn]
  · have hin : e' ∈ s.updateEvents.values.filter (fun event => !event.notified) := by
      simp [he', hn]
    simp [hin]

/-- The un-notified events are read from the store alone. -/
theorem unnotifiedUpdates_congr (s s' : Plugin) (h : s'.updateEvents = s.updateEvents) :
    unnotifiedUpdates s' = unnotifiedUpdates s := by
  simp [unnotifiedUpdates, h]

/-- A batch firing with a channel and pending events, in full: one call to the sink and every
stored event notified afterwards. -/
theorem sendBatchUpdateNotification_state (s : Plugin) (now : Nat) (ch : Channel)
    (hch : s.channel = some ch) (ev : UpdateEvent) (rest : List UpdateEvent)
    (hp : unnotifiedUpdates s = ev :: rest) :
    (sendBatchUpdateNotification s now).state.sendCalls = s.sendCalls ++
      [if rest = [] then singleUpdateOutMessage s now ev
       else multipleUpdatesOutMessage s now (ev :: rest)] ∧
    unnotifiedUpdates (sendBatchUpdateNotification s now).state = [] ∧
    (sendBatchUpdateNotification s now).state.options = s.options ∧
    (sendBatchUpdateNotification s now).state.channel = s.channel ∧
    (sendBatchUpdateNotification s now).state.pending = s.pending ∧
    (sendBatchUpdateNotification s now).state.batchTimer = s.batchTimer := by
  obtain ⟨lg, h⟩ := sendBatchUpdateNotification_of_pending s now ch hch ev rest hp
  rw [h]
  refine ⟨rfl, ?_, rfl, rfl, rfl, rfl⟩
  simp only [Completion.state]
  rw [← hp]
  exact unnotifiedUpdates_markNotified
    { s with
      sendCalls := s.sendCalls ++
        [if rest = [] then singleUpdateOutMessage s now ev
         else multipleUpdatesOutMessage s now (ev :: rest)]
      log := lg }

/-- C1: with update notifications enabled and a channel, from a well-formed state with no
un-notified event (no batch window open), after two or more update events for pairwise distinct
plugins exactly one batch timer is pending, with the batch delay, and nothing has been sent;
its firing makes exactly one call to the sink, with the multi-update message, whose per-plugin
fields are those of a permutation of the events of the sequence, so that the plugin names of the
sequence are covered each exactly once; afterwards no batch timer is pending. -/
theorem batch_window_sends_one_multi_update (s : Plugin) (ch : Channel)
    (updates : List PluginUpdate) (now : Nat)
    (hen : s.options.enableUpdateNotifications = true) (hch : s.channel = some ch)
    (hwf : WF s) (hnot : unnotifiedUpdates s = [])
    (hlen : 2 ≤ updates.length) (hnd : (updates.map PluginUpdate.pluginName).Nodup) :
    ∃ timer covered,
      pendingBatchTimers (run s (updates.map PluginUpdate.toStep)) = [timer] ∧
      (run s (updates.map PluginUpdate.toStep)).batchTimer = some timer.id ∧
      timer.delay = .number s.batchDelay ∧
      (run s (updates.map PluginUpdate.toStep)).sendCalls = s.sendCalls ∧
      covered.Perm (updates.map PluginUpdate.event) ∧
      ((pluginFields covered).map Field.name).Perm (updates.map PluginUpdate.pluginName) ∧
      (fireTimer (run s (updates.map PluginUpdate.toStep)) now timer.id).sendCalls =
        s.sendCalls ++ [multipleUpdatesOutMessage s now covered] ∧
      (multipleUpdatesOutMessage s now covered).embed.title =
        glyphUpdate ++ " Batch Plugin Updates Completed" ∧
      (multipleUpdatesOutMessage s now covered).embed.fields.take updates.length =
        pluginFields covered ∧
      pendingBatchTimers (fireTimer (run s (updates.map PluginUpdate.toStep)) now timer.id) =
        [] := by
  -- the last event arms the timer that is pending at the end
  obtain ⟨init, last, hsplit⟩ : ∃ init last, updates = init ++ [last] := by
    have hne : updates ≠ [] := by
      intro e; rw [e] at hlen; simp at hlen
    exact ⟨updates.dropLast, updates.getLast hne, (List.dropLast_append_getLast hne).symm⟩
  obtain ⟨hf1, hf2, hf3, hf4⟩ := run_updates_frame updates s
  obtain ⟨hi1, hi2, hi3, hi4⟩ := run_updates_frame init s
  have hwfi : WF (run s (init.map PluginUpdate.toStep)) := wf_run _ _ hwf
  have hwf1 : WF (run s (updates.map PluginUpdate.toStep)) := wf_run _ _ hwf
  have hrun : run s (updates.map PluginUpdate.toStep) =
      onPluginUpdated (run s (init.map PluginUpdate.toStep)) last.now last.pluginName
        last.oldVersion last.newVersion last.backupPath := by
    rw [hsplit, List.map_append, run_append]
    rfl
  have heni : (run s (init.map PluginUpdate.toStep)).options.enableUpdateNotifications = true := by
    rw [hi3]; exact hen
  obtain ⟨timer, hpb, hbt, hdelay, haction⟩ : ∃ timer : Timer,
      pendingBatchTimers (run s (updates.map PluginUpdate.toStep)) = [timer] ∧
      (run s (updates.map PluginUpdate.toStep)).batchTimer = some timer.id ∧
      timer.delay = .number s.batchDelay ∧ timer.action = .batch := by
    obtain ⟨h1, h2⟩ := pendingBatchTimers_onPluginUpdated
      (run s (init.map PluginUpdate.toStep)) last.now last.pluginName last.oldVersion
      last.newVersion last.backupPath heni hwfi
    rw [← hrun] at h1 h2
    exact ⟨_, h1, h2, by rw [hi4], rfl⟩
  -- the un-notified events at the end
  have hperm := run_updates_unnotified updates s hen hnd (by
    intro u _ e he
    have hmem : e ∈ s.updateEvents.values := (JSMap.mem_values_iff _ _).2 ⟨_, he⟩
    by_contra hn
    have hn' : e.notified = false := by simpa using hn
    have : e ∈ unnotifiedUpdates s := by
      simp [unnotifiedUpdates, hmem, hn']
    rw [hnot] at this
    cases this)
  rw [hnot, List.nil_append] at hperm
  have hlen' : (unnotifiedUpdates (run s (updates.map PluginUpdate.toStep))).length =
      updates.length := by
    rw [hperm.length_eq, List.length_map]
  -- the firing
  have htimer : timer ∈ (run s (updates.map PluginUpdate.toStep)).pending := by
    have : timer ∈ pendingBatchTimers (run s (updates.map PluginUpdate.toStep)) := by
      rw [hpb]; exact List.mem_singleton_self _
    exact (List.mem_filter.mp this).1
  have hfire := fireTimer_batch (run s (updates.map PluginUpdate.toStep)) now timer hwf1 htimer
    haction
  cases hp : unnotifiedUpdates (run s (updates.map PluginUpdate.toStep)) with
  | nil => rw [hp] at hlen'; simp at hlen'; omega
  | cons ev rest =>
    have hrest : rest ≠ [] := by
      intro e
      rw [hp, e] at hlen'
      simp at hlen'
      omega
    have hstate := sendBatchUpdateNotification_state
      { run s (updates.map PluginUpdate.toStep) with
        pending := (run s (updates.map PluginUpdate.toStep)).pending.filter
          (fun t => t.id != timer.id) }
      now ch (by rw [← hch, ← hf2]) ev rest hp
    refine ⟨timer, ev :: rest, hpb, hbt, hdelay, hf1, hp ▸ hperm, ?_, ?_, rfl, ?_, ?_⟩
    · have h1 : ((pluginFields (ev :: rest)).map Field.name) =
          (ev :: rest).map UpdateEvent.pluginName := by
        simp [pluginFields, List.map_map, Function.comp_def]
      have h2 : updates.map PluginUpdate.pluginName =
          (updates.map PluginUpdate.event).map UpdateEvent.pluginName := by
        simp [List.map_map, Function.comp_def, PluginUpdate.event, newUpdateEvent]
      rw [h1, h2]
      exact (hp ▸ hperm).map _
    · rw [hfire, hstate.1, if_neg hrest]
      simp only
      rw [hf1]
      exact congrArg (fun m => s.sendCalls ++ [m])
        (multipleUpdatesOutMessage_congr s _ hf3 now (ev :: rest))
    · have hl : (pluginFields (ev :: rest)).length = updates.length := by
        rw [← hlen', hp]; simp [pluginFields]
      simp only [multipleUpdatesOutMessage, toOutMessage, withRolePing, multipleUpdatesEmbed]
      rw [← hl, List.take_left]
    · rw [hfire]
      unfold pendingBatchTimers
      rw [hstate.2.2.2.2.1]
      simp only
      rw [List.filter_filter, List.filter_eq_nil_iff]
      intro t ht
      intro hcond
      simp only [Bool.and_eq_true, decide_eq_true_eq, bne_iff_ne, ne_eq] at hcond
      have hb := hwf1.batch_tracked t ht hcond.1
      rw [hbt] at hb
      exact hcond.2 (Option.some.inj hb).symm

theorem batch_window_sends_one_multi_update_witness :
    ∃ timer covered,
      pendingBatchTimers (run (mounted defaultOptions (some acceptingChannel))
        ([{ now := 1, pluginName := "SquadLeader", oldVersion := "v1.0.0",
            newVersion := "v1.1.0", backupPath := none },
          { now := 2, pluginName := "Seeder", oldVersion := "v2.0.0", newVersion := "v2.0.1",
            backupPath := some "/backups/seeder" }].map PluginUpdate.toStep)) = [timer] ∧
      covered.Perm
        ([{ now := 1, pluginName := "SquadLeader", oldVersion := "v1.0.0",
            newVersion := "v1.1.0", backupPath := none },
          { now := 2, pluginName := "Seeder", oldVersion := "v2.0.0", newVersion := "v2.0.1",
            backupPath := some "/backups/seeder" }].map PluginUpdate.event) ∧
      (fireTimer (run (mounted defaultOptions (some acceptingChannel))
        ([{ now := 1, pluginName := "SquadLeader", oldVersion := "v1.0.0",
            newVersion := "v1.1.0", backupPath := none },
          { now := 2, pluginName := "Seeder", oldVersion := "v2.0.0", newVersion := "v2.0.1",
            backupPath := some "/backups/seeder" }].map PluginUpdate.toStep)) 9
          timer.id).sendCalls =
        [multipleUpdatesOutMessage (mounted defaultOptions (some acceptingChannel)) 9 covered] :=
  have ⟨timer, covered, h1, _, _, _, h5, _, h7, _⟩ :=
    batch_window_sends_one_multi_update (mounted defaultOptions (some acceptingChannel))
      acceptingChannel
      [{ now := 1, pluginName := "SquadLeader", oldVersion := "v1.0.0", newVersion := "v1.1.0",
         backupPath := none },
       { now := 2, pluginName := "Seeder", oldVersion := "v2.0.0", newVersion := "v2.0.1",
         backupPath := some "/backups/seeder" }]
      9 rfl rfl (wf_mounted _ _) (by decide) (by decide) (by decide)
  ⟨timer, covered, h1, h5, h7⟩

/-! ## The reminder cycle -/

theorem currentCount_set (s : Plugin) (p : String) (c : Nat) (calls : List OutMessage)
    (lg : List (Nat × String)) :
    currentCount { s with reminderCounts := s.reminderCounts.set p c, sendCalls := calls,
                          log := lg } p = c := by
  simp [currentCount]

theorem reminderCycle_setup (s : Plugin) (p : String) (n : Nat) (ch : Channel)
    (hch : s.channel = some ch) (hwf : WF s)
    (hmax : s.options.reminderSettings.maxReminders = (n : Int)) (hn : 1 ≤ n) :
    ReminderCycle n p 0 (setupReminderSystem s p) := by
  have he := setupReminderSystem_eq s p
  refine ⟨wf_setupReminderSystem s p hwf, ⟨ch, ?_⟩, ?_, ?_, Nat.zero_le _, ?_, ?_⟩
  · rw [he]; exact hch
  · rw [he]; exact hmax
  · rw [he]; simp [currentCount]
  · intro _
    rw [he]
    exact ⟨⟨s.nextTimerId, parseReminderInterval s.options.reminderSettings.interval,
      .reminder p⟩, by simp, rfl⟩
  · intro h; omega

/-- What a reminder firing below the cap leaves behind, field by field. -/
theorem sendReminderNotification_below_facts (s : Plugin) (now : Nat) (p : String) (ch : Channel)
    (hch : s.channel = some ch)
    (hlt : (currentCount s p : Int) < s.options.reminderSettings.maxReminders) :
    (sendReminderNotification s now p).state.sendCalls =
      s.sendCalls ++ [reminderOutMessage s now p (currentCount s p + 1)] ∧
    (sendReminderNotification s now p).state.options = s.options ∧
    (sendReminderNotification s now p).state.channel = s.channel ∧
    currentCount (sendReminderNotification s now p).state p = currentCount s p + 1 ∧
    (((currentCount s p + 1 : Nat) : Int) < s.options.reminderSettings.maxReminders →
      (sendReminderNotification s now p).state.pending = s.pending ++
        [{ id := s.nextTimerId, delay := parseReminderInterval s.options.reminderSettings.interval,
           action := .reminder p }]) ∧
    (¬ ((currentCount s p + 1 : Nat) : Int) < s.options.reminderSettings.maxReminders →
      (sendReminderNotification s now p).state.pending = s.pending) := by
  obtain ⟨lg, e⟩ := sendReminderNotification_of_below s now p ch hch hlt
  rw [e]
  simp only [Completion.state]
  by_cases hc : ((currentCount s p + 1 : Nat) : Int) < s.options.reminderSettings.maxReminders
  · rw [if_pos hc]
    refine ⟨rfl, rfl, rfl, ?_, fun _ => rfl, fun h => absurd hc h⟩
    rw [scheduleNextReminder_eq]
    simp [currentCount]
  · rw [if_neg hc]
    refine ⟨rfl, rfl, rfl, ?_, fun h => absurd h hc, fun _ => rfl⟩
    simp [currentCount]

/-- A firing of the pending reminder timer below the cap: one reminder message with the next
count, and the cycle moves on by one. -/
theorem reminderCycle_fire (s : Plugin) (p : String) (n j : Nat) (now : Nat)
    (h : ReminderCycle n p j s) (hj : j < n) :
    ReminderCycle n p (j + 1) (fireReminderTimer s now p) ∧
    (fireReminderTimer s now p).sendCalls =
      s.sendCalls ++ [reminderOutMessage s now p (j + 1)] ∧
    (fireReminderTimer s now p).options = s.options := by
  obtain ⟨timer, hmem, hact⟩ := h.armed hj
  obtain ⟨ch, hch⟩ := h.channel
  have hget := h.wf.reminder_tracked timer hmem p hact
  have hwf' : WF (fireReminderTimer s now p) := by
    unfold fireReminderTimer
    rw [hget]
    exact wf_fireTimer s now timer.id h.wf
  have hnone : ∀ t ∈ s.pending.filter (fun t => t.id != timer.id), t.action ≠ .reminder p := by
    intro t ht hta
    simp only [List.mem_filter, bne_iff_ne, ne_eq] at ht
    have e1 := h.wf.reminder_tracked t ht.1 p hta
    rw [hget] at e1
    exact ht.2 (Option.some.inj e1).symm
  obtain ⟨s0, hs0, hfire⟩ : ∃ s0 : Plugin,
      s0 = { s with pending := s.pending.filter (fun t => t.id != timer.id) } ∧
      fireReminderTimer s now p = (sendReminderNotification s0 now p).state := by
    refine ⟨_, rfl, ?_⟩
    unfold fireReminderTimer
    rw [hget]
    exact fireTimer_reminder s now timer p h.wf hmem hact
  have hopt0 : s0.options = s.options := by subst hs0; rfl
  have hch0 : s0.channel = some ch := by subst hs0; exact hch
  have hcount0 : currentCount s0 p = j := by subst hs0; exact h.count
  have hcalls0 : s0.sendCalls = s.sendCalls := by subst hs0; rfl
  have hpend0 : s0.pending = s.pending.filter (fun t => t.id != timer.id) := by
    subst hs0; rfl
  have hlt : (currentCount s0 p : Int) < s0.options.reminderSettings.maxReminders := by
    rw [hcount0, hopt0, h.max]
    exact_mod_cast hj
  obtain ⟨f1, f2, f3, f4, f5, f6⟩ := sendReminderNotification_below_facts s0 now p ch hch0 hlt
  rw [← hfire] at f1 f2 f3 f4 f5 f6
  rw [hcount0] at f1 f4 f5 f6
  rw [hopt0, h.max] at f5 f6
  refine ⟨⟨hwf', ⟨ch, by rw [f3]; exact hch0⟩, by rw [f2, hopt0]; exact h.max, f4, hj, ?_, ?_⟩,
    ?_, by rw [f2]; exact hopt0⟩
  · intro hnext
    rw [f5 (by exact_mod_cast hnext)]
    exact ⟨⟨s0.nextTimerId, parseReminderInterval s.options.reminderSettings.interval,
      .reminder p⟩, by simp, rfl⟩
  · intro hle
    have hnot : ¬ ((j + 1 : Nat) : Int) < (n : Int) := by
      intro hc
      have : j + 1 < n := by exact_mod_cast hc
      omega
    rw [f6 hnot, hpend0]
    exact hnone
  · rw [f1, hcalls0]
    exact congrArg (fun m => s.sendCalls ++ [m]) (reminderOutMessage_congr s s0 hopt0 now p (j + 1))

/-- Once the cap is reached no reminder timer of `p` is pending, and a firing of the remembered
handle does nothing. -/
theorem reminderCycle_idle (s : Plugin) (p : String) (n j : Nat) (now : Nat)
    (h : ReminderCycle n p j s) (hj : n ≤ j) : fireReminderTimer s now p = s := by
  unfold fireReminderTimer
  cases hget : s.reminderTimers.get p with
  | none => rfl
  | some handle =>
    refine fireTimer_of_not_pending s now handle ?_
    intro t ht hid
    have := h.wf.reminder_owner t ht p (by rw [hget, hid])
    exact h.idle hj t ht this

theorem runReminders_cons (s : Plugin) (p : String) (now : Nat) (times : List Nat) :
    runReminders s p (now :: times) = runReminders (fireReminderTimer s now p) p times := rfl

theorem runReminders_idle (times : List Nat) (s : Plugin) (p : String) (n j : Nat)
    (h : ReminderCycle n p j s) (hj : n ≤ j) : runReminders s p times = s := by
  induction times with
  | nil => rfl
  | cons now rest ih => rw [runReminders_cons, reminderCycle_idle s p n j now h hj, ih]

/-- The messages of a cycle that stands at count `j`: firing `times.length` times sends the
reminders `j + 1`, `j + 2`, ... up to the cap `n`, and no more. -/
theorem runReminders_sendCalls (times : List Nat) (s : Plugin) (p : String) (n j : Nat)
    (h : ReminderCycle n p j s) :
    (runReminders s p times).sendCalls =
      s.sendCalls ++ List.zipWith (fun k now => reminderOutMessage s now p (j + k + 1))
        (List.range (n - j)) times ∧
    ReminderCycle n p (min n (j + times.length)) (runReminders s p times) := by
  induction times generalizing s j with
  | nil =>
    refine ⟨by simp [runReminders], ?_⟩
    have : min n (j + ([] : List Nat).length) = j := by
      simp only [List.length_nil, Nat.add_zero]
      exact Nat.min_eq_right h.le
    rw [this]
    exact h
  | cons now rest ih =>
    by_cases hj : j < n
    · obtain ⟨hc, hcalls, hopt⟩ := reminderCycle_fire s p n j now h hj
      obtain ⟨i1, i2⟩ := ih (fireReminderTimer s now p) (j + 1) hc
      rw [runReminders_cons]
      refine ⟨?_, ?_⟩
      · rw [i1, hcalls]
        obtain ⟨m, hm⟩ : ∃ m, n - j = m + 1 := ⟨n - j - 1, by omega⟩
        have hm' : n - (j + 1) = m := by omega
        rw [hm, hm', List.range_succ_eq_map, List.zipWith_cons_cons, List.zipWith_map_left,
          List.append_assoc]
        congr 1
        simp only [List.singleton_append, Nat.add_zero, List.cons.injEq, true_and]
        congr 1
        funext k t
        rw [reminderOutMessage_congr s _ hopt]
        congr 1
        simp only [Nat.succ_eq_add_one]
        omega
      · have : min n (j + (now :: rest).length) = min n (j + 1 + rest.length) := by
          simp only [List.length_cons]
          congr 1
          omega
        rw [this]
        exact i2
    · have hle : n ≤ j := Nat.le_of_not_lt hj
      rw [runReminders_idle (now :: rest) s p n j h hle]
      have h0 : n - j = 0 := by omega
      refine ⟨by rw [h0]; simp, ?_⟩
      have : min n (j + (now :: rest).length) = j := by
        have := h.le
        simp only [List.length_cons]
        omega
      rw [this]
      exact h

theorem pendingReminderTimers_of_idle (s : Plugin) (p : String)
    (h : ∀ t ∈ s.pending, t.action ≠ .reminder p) : pendingReminderTimers s p = [] := by
  unfold pendingReminderTimers
  rw [List.filter_eq_nil_iff]
  intro t ht hc
  exact h t ht (by simpa using hc)

theorem reminder_field (s : Plugin) (now : Nat) (p : String) (k n : Nat)
    (hmax : s.options.reminderSettings.maxReminders = (n : Int)) :
    (reminderOutMessage s now p k).embed.fields.get? 2 =
      some { name := "Reminder", value := .text (toString k ++ "/" ++ toString n),
             inline := true } := by
  simp only [reminderOutMessage, toOutMessage, withRolePing, reminderEmbed, hmax]
  rfl

theorem filter_eq_singleton_of_ids (l : List Timer) (hnd : (l.map Timer.id).Nodup)
    (f : Timer → Bool) (timer : Timer) (hm : timer ∈ l) (hf : f timer = true)
    (hid : ∀ t ∈ l, f t = true → t.id = timer.id) : l.filter f = [timer] := by
  induction l with
  | nil => cases hm
  | cons x rest ih =>
    have hn := List.nodup_cons.mp (by rw [List.map_cons] at hnd; exact hnd)
    rcases List.mem_cons.mp hm with e | e
    · subst e
      have hrest : rest.filter f = [] := by
        rw [List.filter_eq_nil_iff]
        intro t ht hft
        have := hid t (List.mem_cons_of_mem _ ht) hft
        exact hn.1 (this ▸ List.mem_map.mpr ⟨t, ht, rfl⟩)
      simp [List.filter_cons, hf, hrest]
    · have hx : f x = false := by
        cases hfx : f x with
        | false => rfl
        | true =>
          have := hid x (List.mem_cons_self _ _) hfx
          exact absurd (this ▸ List.mem_map.mpr ⟨timer, e, rfl⟩) hn.1
      simp only [List.filter_cons, hx, Bool.false_eq_true, if_false]
      exact ih hn.2 e (fun t ht => hid t (List.mem_cons_of_mem _ ht))

/-- In a well-formed state a pending reminder timer of `p` is the only one. -/
theorem pendingReminderTimers_of_mem (s : Plugin) (p : String) (h : WF s) (timer : Timer)
    (hm : timer ∈ s.pending) (hact : timer.action = .reminder p) :
    pendingReminderTimers s p = [timer] := by
  unfold pendingReminderTimers
  refine filter_eq_singleton_of_ids s.pending h.ids_nodup _ timer hm (by simp [hact]) ?_
  intro t ht hft
  have e1 := h.reminder_tracked t ht p (by simpa using hft)
  have e2 := h.reminder_tracked timer hm p hact
  rw [e1] at e2
  exact Option.some.inj e2

/-! ### No reminder for a plugin whose cycle is over -/

theorem isReminderFor_restart (s : Plugin) (now : Nat) (p q : String) :
    isReminderFor p (restartOutMessage s now q) = false := by
  have : (glyphWarning ++ " Restart Required" == glyphClock ++ " Restart Reminder") = false := by
    decide
  simp [isReminderFor, restartOutMessage, toOutMessage, withRolePing, restartEmbed, this]

theorem isReminderFor_single (s : Plugin) (now : Nat) (p : String) (ev : UpdateEvent) :
    isReminderFor p (singleUpdateOutMessage s now ev) = false := by
  have : (glyphUpdate ++ " Plugin Update Completed" == glyphClock ++ " Restart Reminder") =
      false := by decide
  simp [isReminderFor, singleUpdateOutMessage, toOutMessage, withRolePing, singleUpdateEmbed,
    this]

theorem isReminderFor_multiple (s : Plugin) (now : Nat) (p : String) (evs : List UpdateEvent) :
    isReminderFor p (multipleUpdatesOutMessage s now evs) = false := by
  have : (glyphUpdate ++ " Batch Plugin Updates Completed" == glyphClock ++ " Restart Reminder") =
      false := by decide
  simp [isReminderFor, multipleUpdatesOutMessage, toOutMessage, withRolePing,
    multipleUpdatesEmbed, this]

theorem isReminderFor_other (s : Plugin) (now : Nat) (p q : String) (c : Nat) (h : q ≠ p) :
    isReminderFor p (reminderOutMessage s now q c) = false := by
  simp [isReminderFor, reminderOutMessage, toOutMessage, withRolePing, reminderEmbed, h]

theorem mem_afterBatchArm_pending (s : Plugin) (now : Nat) (q old new : String)
    (backup : Option String) (t : Timer)
    (ht : t ∈ (afterBatchArm s now q old new backup).pending) :
    t ∈ s.pending ∨ t.action = .batch := by
  simp only [afterBatchArm, List.mem_append, List.mem_singleton] at ht
  rcases ht with ht | ht
  · exact Or.inl ((mem_pendingWithout _ _ _).1 ht).1
  · exact Or.inr (by rw [ht])

theorem mem_setupReminderSystem_pending (s : Plugin) (q : String) (t : Timer)
    (ht : t ∈ (setupReminderSystem s q).pending) : t ∈ s.pending ∨ t.action = .reminder q := by
  rw [setupReminderSystem_eq] at ht
  simp only [List.mem_append, List.mem_singleton] at ht
  rcases ht with ht | ht
  · exact Or.inl ((mem_pendingWithout _ _ _).1 ht).1
  · exact Or.inr (by rw [ht])

theorem mem_onPluginUpdated_pending (s : Plugin) (now : Nat) (q old new : String)
    (backup : Option String) (t : Timer)
    (ht : t ∈ (onPluginUpdated s now q old new backup).pending) :
    t ∈ s.pending ∨ t.action = .batch ∨ t.action = .reminder q := by
  cases hen : s.options.enableUpdateNotifications with
  | false =>
    rw [onPluginUpdated_disabled s now q old new backup hen] at ht
    exact Or.inl ht
  | true =>
    rw [onPluginUpdated_eq s now q old new backup hen] at ht
    split at ht
    · rcases mem_setupReminderSystem_pending _ q t ht with h | h
      · rcases mem_afterBatchArm_pending s now q old new backup t h with h' | h'
        · exact Or.inl h'
        · exact Or.inr (Or.inl h')
      · exact Or.inr (Or.inr h)
    · rcases mem_afterBatchArm_pending s now q old new backup t ht with h' | h'
      · exact Or.inl h'
      · exact Or.inr (Or.inl h')

theorem onRestartRequired_sendCalls (s : Plugin) (now : Nat) (q : String) :
    (onRestartRequired s now q).pending = s.pending ∧
    ((onRestartRequired s now q).sendCalls = s.sendCalls ∨
      (onRestartRequired s now q).sendCalls = s.sendCalls ++ [restartOutMessage s now q]) := by
  constructor
  · obtain ⟨calls, lg, e⟩ := onRestartRequired_frame s now q
    rw [e]
  · rcases Option.eq_none_or_eq_some s.channel with hch | ⟨ch, hch⟩
    · have hsend : sendRestartNotification s now q = .returned s := by
        simp [sendRestartNotification, hch]
      left
      unfold onRestartRequired
      split
      · rfl
      · split
        · split
          · rfl
          · rw [hsend]; rfl
        · rw [hsend]; rfl
    · obtain ⟨lg, hsend⟩ := sendRestartNotification_of_channel s now q ch hch
      unfold onRestartRequired
      split
      · exact Or.inl rfl
      · split
        · split
          · exact Or.inl rfl
          · right; rw [hsend]; rfl
        · right; rw [hsend]; rfl

theorem reminderCallsFor_append_of_false (s s' : Plugin) (p : String) (m : OutMessage)
    (h : s'.sendCalls = s.sendCalls ++ [m]) (hm : isReminderFor p m = false) :
    reminderCallsFor s' p = reminderCallsFor s p := by
  simp [reminderCallsFor, h, List.filter_append, hm]

theorem reminderCallsFor_of_eq (s s' : Plugin) (p : String) (h : s'.sendCalls = s.sendCalls) :
    reminderCallsFor s' p = reminderCallsFor s p := by
  simp [reminderCallsFor, h]

/-- A batch firing sends no restart reminder and arms no timer. -/
theorem sendBatchUpdateNotification_no_reminder (s : Plugin) (now : Nat) (p : String) :
    (sendBatchUpdateNotification s now).state.pending = s.pending ∧
    reminderCallsFor (sendBatchUpdateNotification s now).state p = reminderCallsFor s p := by
  rcases Option.eq_none_or_eq_some s.channel with hch | ⟨ch, hch⟩
  · have : sendBatchUpdateNotification s now = .returned s := by
      simp [sendBatchUpdateNotification, hch]
    rw [this]
    exact ⟨rfl, rfl⟩
  · cases hp : unnotifiedUpdates s with
    | nil =>
      rw [sendBatchUpdateNotification_of_none_pending s now hp]
      exact ⟨rfl, rfl⟩
    | cons ev rest =>
      obtain ⟨h1, _, _, _, h5, _⟩ := sendBatchUpdateNotification_state s now ch hch ev rest hp
      refine ⟨h5, reminderCallsFor_append_of_false s _ p _ h1 ?_⟩
      split
      · exact isReminderFor_single s now p ev
      · exact isReminderFor_multiple s now p _

/-- A reminder firing for another plugin sends no reminder for `p` and arms no timer of `p`. -/
theorem sendReminderNotification_other (s : Plugin) (now : Nat) (p q : String) (hq : q ≠ p) :
    (∀ t ∈ (sendReminderNotification s now q).state.pending,
      t ∈ s.pending ∨ t.action = .reminder q) ∧
    reminderCallsFor (sendReminderNotification s now q).state p = reminderCallsFor s p := by
  rcases Option.eq_none_or_eq_some s.channel with hch | ⟨ch, hch⟩
  · rw [sendReminderNotification_of_no_channel s now q hch]
    exact ⟨fun t ht => Or.inl ht, rfl⟩
  · by_cases hlt : (currentCount s q : Int) < s.options.reminderSettings.maxReminders
    · obtain ⟨f1, _, _, _, f5, f6⟩ := sendReminderNotification_below_facts s now q ch hch hlt
      refine ⟨?_, reminderCallsFor_append_of_false s _ p _ f1
        (isReminderFor_other s now p q _ hq)⟩
      intro t ht
      by_cases hc : ((currentCount s q + 1 : Nat) : Int) <
          s.options.reminderSettings.maxReminders
      · rw [f5 hc] at ht
        simp only [List.mem_append, List.mem_singleton] at ht
        rcases ht with ht | ht
        · exact Or.inl ht
        · exact Or.inr (by rw [ht])
      · rw [f6 hc] at ht
        exact Or.inl ht
    · rw [sendReminderNotification_of_max s now q ch hch (not_lt.mp hlt)]
      exact ⟨fun t ht => Or.inl ht, rfl⟩

/-- While no reminder timer of `p` is pending, a callback other than an update event for `p`
arms none and sends no reminder for `p`. -/
theorem step_keeps_cycle_over (s : Plugin) (p : String) (st : Step)
    (hidle : ∀ t ∈ s.pending, t.action ≠ .reminder p) (hst : st.isUpdateOf p = false) :
    (∀ t ∈ (step s st).pending, t.action ≠ .reminder p) ∧
    reminderCallsFor (step s st) p = reminderCallsFor s p := by
  cases st with
  | pluginUpdated now q old new backup =>
    have hq : q ≠ p := by simpa [Step.isUpdateOf] using hst
    refine ⟨?_, reminderCallsFor_of_eq s _ p (onPluginUpdated_sendCalls s now q old new backup)⟩
    intro t ht
    rcases mem_onPluginUpdated_pending s now q old new backup t ht with h | h | h
    · exact hidle t h
    · rw [h]; intro e; cases e
    · rw [h]; intro e; cases e; exact hq rfl
  | restartRequired now q =>
    obtain ⟨h1, h2⟩ := onRestartRequired_sendCalls s now q
    refine ⟨?_, ?_⟩
    · intro t ht
      exact hidle t (by rw [← h1]; exact ht)
    · rcases h2 with h2 | h2
      · exact reminderCallsFor_of_eq s _ p h2
      · exact reminderCallsFor_append_of_false s _ p _ h2 (isReminderFor_restart s now p q)
  | timerFired now id =>
    show (∀ t ∈ (fireTimer s now id).pending, t.action ≠ .reminder p) ∧
      reminderCallsFor (fireTimer s now id) p = reminderCallsFor s p
    unfold fireTimer
    cases hf : s.pending.find? (fun t => t.id = id) with
    | none => exact ⟨hidle, rfl⟩
    | some timer =>
      have hmem : timer ∈ s.pending := List.mem_of_find?_eq_some hf
      have hsub : ∀ t ∈ s.pending.filter (fun t => t.id != id), t.action ≠ .reminder p :=
        fun t ht => hidle t (List.mem_filter.mp ht).1
      dsimp only
      cases hact : timer.action with
      | batch =>
        obtain ⟨h1, h2⟩ := sendBatchUpdateNotification_no_reminder
          { s with pending := s.pending.filter (fun t => t.id != id) } now p
        refine ⟨?_, h2⟩
        intro t ht
        rw [h1] at ht
        exact hsub t ht
      | reminder q =>
        have hq : q ≠ p := by
          intro e
          exact hidle timer hmem (by rw [hact, e])
        obtain ⟨h1, h2⟩ := sendReminderNotification_other
          { s with pending := s.pending.filter (fun t => t.id != id) } now p q hq
        refine ⟨?_, h2⟩
        intro t ht
        rcases h1 t ht with h | h
        · exact hsub t h
        · rw [h]; intro e; cases e; exact hq rfl
  | unmount =>
    show (∀ t ∈ (unmount s).pending, t.action ≠ .reminder p) ∧
      reminderCallsFor (unmount s) p = reminderCallsFor s p
    rw [unmount_eq]
    refine ⟨?_, rfl⟩
    intro t ht
    simp only [List.mem_filter] at ht
    exact hidle t ((mem_pendingWithout _ _ _).1 ht.1).1

/-- Once no reminder timer of `p` is pending, no run without an update event for `p` sends a
reminder for `p` or arms a reminder timer of `p`. -/
theorem run_keeps_cycle_over (steps : List Step) (s : Plugin) (p : String)
    (hidle : ∀ t ∈ s.pending, t.action ≠ .reminder p)
    (hst : ∀ st ∈ steps, st.isUpdateOf p = false) :
    (∀ t ∈ (run s steps).pending, t.action ≠ .reminder p) ∧
    reminderCallsFor (run s steps) p = reminderCallsFor s p := by
  induction steps generalizing s with
  | nil => exact ⟨hidle, rfl⟩
  | cons st rest ih =>
    obtain ⟨h1, h2⟩ := step_keeps_cycle_over s p st hidle (hst st (List.mem_cons_self _ _))
    obtain ⟨i1, i2⟩ := ih (step s st) h1 (fun x hx => hst x (List.mem_cons_of_mem _ hx))
    rw [run_cons]
    exact ⟨i1, i2.trans h2⟩

/-- C5, as stated, fails: with `maxReminders = 3` but no channel (Discord not configured), a cycle
started by `setupReminderSystem` produces no reminder message at all, however often its timer
fires. -/
theorem reminder_cycle_without_channel_is_silent :
    (mounted reminderOptions none).options.reminderSettings.maxReminders = 3 ∧
    (runReminders (setupReminderSystem (mounted reminderOptions none) "SquadLeader")
      "SquadLeader" [10, 20, 30]).sendCalls = [] := by
  decide

/-- C5, amended: with a channel and `maxReminders = n >= 1`, a cycle started by
`setupReminderSystem` for `p` in a well-formed state, whose timer fires (or is tried) at the
given times with nothing in between, sends exactly the reminders `1/n`, `2/n`, ... in that order,
`n` of them at most: the calls to the sink are the reminder messages with counts `k + 1` for `k`
below both `n` and the number of firings.  Each carries the `Reminder` field `k/n`.  Before the
`n`-th firing exactly one reminder timer of `p` is pending; from the `n`-th firing on none is,
and in every continuation without an update event for `p` none is armed and no further reminder
for `p` is sent. -/
theorem reminder_cycle_sends_n_reminders (s : Plugin) (ch : Channel) (p : String) (n : Nat)
    (times : List Nat) (hch : s.channel = some ch) (hwf : WF s)
    (hmax : s.options.reminderSettings.maxReminders = (n : Int)) (hn : 1 ≤ n) :
    (runReminders (setupReminderSystem s p) p times).sendCalls =
      s.sendCalls ++
        List.zipWith (fun k now => reminderOutMessage s now p (k + 1)) (List.range n) times ∧
    (∀ now k, isReminderFor p (reminderOutMessage s now p k) = true ∧
      (reminderOutMessage s now p k).embed.fields.get? 2 =
        some { name := "Reminder", value := .text (toString k ++ "/" ++ toString n),
               inline := true }) ∧
    (times.length < n →
      ∃ timer, pendingReminderTimers (runReminders (setupReminderSystem s p) p times) p =
        [timer]) ∧
    (n ≤ times.length →
      pendingReminderTimers (runReminders (setupReminderSystem s p) p times) p = [] ∧
      ∀ steps : List Step, (∀ st ∈ steps, st.isUpdateOf p = false) →
        pendingReminderTimers (run (runReminders (setupReminderSystem s p) p times) steps) p =
          [] ∧
        reminderCallsFor (run (runReminders (setupReminderSystem s p) p times) steps) p =
          reminderCallsFor (runReminders (setupReminderSystem s p) p times) p) := by
  have hc0 := reminderCycle_setup s p n ch hch hwf hmax hn
  obtain ⟨h1, h2⟩ := runReminders_sendCalls times (setupReminderSystem s p) p n 0 hc0
  have hopt : (setupReminderSystem s p).options = s.options := by
    rw [setupReminderSystem_eq]
  have hcalls : (setupReminderSystem s p).sendCalls = s.sendCalls := by
    rw [setupReminderSystem_eq]
  refine ⟨?_, ?_, ?_, ?_⟩
  · rw [h1, hcalls]
    congr 2
    funext k now
    rw [reminderOutMessage_congr s _ hopt]
    congr 1
    omega
  · intro now k
    refine ⟨?_, reminder_field s now p k n hmax⟩
    simp [isReminderFor, reminderOutMessage, toOutMessage, withRolePing, reminderEmbed]
  · intro hlt
    have hmin : min n (0 + times.length) = times.length := by omega
    rw [hmin] at h2
    obtain ⟨timer, hm, hact⟩ := h2.armed hlt
    exact ⟨timer, pendingReminderTimers_of_mem _ p h2.wf timer hm hact⟩
  · intro hle
    have hmin : min n (0 + times.length) = n := by omega
    rw [hmin] at h2
    have hidle := h2.idle (Nat.le_refl n)
    refine ⟨pendingReminderTimers_of_idle _ p hidle, ?_⟩
    intro steps hsteps
    obtain ⟨r1, r2⟩ := run_keeps_cycle_over steps _ p hidle hsteps
    exact ⟨pendingReminderTimers_of_idle _ p r1, r2⟩

theorem reminder_cycle_sends_n_reminders_witness :
    (runReminders (setupReminderSystem (mounted reminderOptions (some acceptingChannel))
      "SquadLeader") "SquadLeader" [10, 20, 30, 40]).sendCalls =
      [reminderOutMessage (mounted reminderOptions (some acceptingChannel)) 10 "SquadLeader" 1,
       reminderOutMessage (mounted reminderOptions (some acceptingChannel)) 20 "SquadLeader" 2,
       reminderOutMessage (mounted reminderOptions (some acceptingChannel)) 30 "SquadLeader" 3] :=
  (reminder_cycle_sends_n_reminders (mounted reminderOptions (some acceptingChannel))
    acceptingChannel "SquadLeader" 3 [10, 20, 30, 40] rfl (wf_mounted _ _) rfl
    (by decide)).1

/-! ## A fresh update restarts the reminder cycle -/

theorem sendBatchUpdateNotification_options (s : Plugin) (now : Nat) :
    (sendBatchUpdateNotification s now).state.options = s.options := by
  obtain ⟨calls, lg, evs, e | e⟩ := sendBatchUpdateNotification_frame s now
  · rw [e]; rfl
  · rw [e]; rfl

theorem sendReminderNotification_options (s : Plugin) (now : Nat) (q : String) :
    (sendReminderNotification s now q).state.options = s.options := by
  rcases Option.eq_none_or_eq_some s.channel with hch | ⟨ch, hch⟩
  · rw [sendReminderNotification_of_no_channel s now q hch]; rfl
  · by_cases hlt : (currentCount s q : Int) < s.options.reminderSettings.maxReminders
    · exact (sendReminderNotification_below_facts s now q ch hch hlt).2.1
    · rw [sendReminderNotification_of_max s now q ch hch (not_lt.mp hlt)]; rfl

theorem fireTimer_options (s : Plugin) (now : Nat) (id : Nat) :
    (fireTimer s now id).options = s.options := by
  unfold fireTimer
  cases s.pending.find? (fun t => t.id = id) with
  | none => rfl
  | some timer =>
    dsimp only
    cases timer.action with
    | batch => exact sendBatchUpdateNotification_options _ now
    | reminder q => exact sendReminderNotification_options _ now q

theorem step_options (s : Plugin) (st : Step) : (step s st).options = s.options := by
  cases st with
  | pluginUpdated now q old new backup => exact onPluginUpdated_options s now q old new backup
  | restartRequired now q =>
    obtain ⟨calls, lg, e⟩ := onRestartRequired_frame s now q
    show (onRestartRequired s now q).options = s.options
    rw [e]
  | timerFired now id => exact fireTimer_options s now id
  | unmount =>
    show (unmount s).options = s.options
    rw [unmount_eq]

theorem run_options (steps : List Step) (s : Plugin) : (run s steps).options = s.options := by
  induction steps generalizing s with
  | nil => rfl
  | cons st rest ih => rw [run_cons, ih, step_options]

/-- Reminder timers are armed by update events only: a state with a pending reminder timer that
was reached from a state without any has both the notifications and the reminders enabled. -/
theorem step_reminders_enabled (s : Plugin) (st : Step)
    (h : (s.options.enableUpdateNotifications = true ∧
        s.options.reminderSettings.enabled = true) ∨
      ∀ t ∈ s.pending, ∀ q, t.action ≠ .reminder q) :
    ((step s st).options.enableUpdateNotifications = true ∧
        (step s st).options.reminderSettings.enabled = true) ∨
      ∀ t ∈ (step s st).pending, ∀ q, t.action ≠ .reminder q := by
  rcases h with h | h
  · left; rw [step_options]; exact h
  · by_cases hen : s.options.enableUpdateNotifications = true ∧
        s.options.reminderSettings.enabled = true
    · left; rw [step_options]; exact hen
    · right
      cases st with
      | pluginUpdated now p old new backup =>
        show ∀ t ∈ (onPluginUpdated s now p old new backup).pending, ∀ q, t.action ≠ .reminder q
        cases hn : s.options.enableUpdateNotifications with
        | false => rw [onPluginUpdated_disabled s now p old new backup hn]; exact h
        | true =>
          have hr : s.options.reminderSettings.enabled = false := by
            cases hr : s.options.reminderSettings.enabled with
            | false => rfl
            | true => exact absurd ⟨hn, hr⟩ hen
          rw [onPluginUpdated_eq s now p old new backup hn, hr]
          intro t ht q
          rcases mem_afterBatchArm_pending s now p old new backup t ht with h' | h'
          · exact h t h' q
          · rw [h']; intro e; cases e
      | restartRequired now p =>
        show ∀ t ∈ (onRestartRequired s now p).pending, ∀ q, t.action ≠ .reminder q
        rw [(onRestartRequired_sendCalls s now p).1]
        exact h
      | timerFired now id =>
        show ∀ t ∈ (fireTimer s now id).pending, ∀ q, t.action ≠ .reminder q
        unfold fireTimer
        cases hf : s.pending.find? (fun t => t.id = id) with
        | none => exact h
        | some timer =>
          have hmem : timer ∈ s.pending := List.mem_of_find?_eq_some hf
          dsimp only
          cases hact : timer.action with
          | batch =>
            rw [(sendBatchUpdateNotification_no_reminder _ now "").1]
            intro t ht q
            exact h t (List.mem_filter.mp ht).1 q
          | reminder p => exact absurd hact (h timer hmem p)
      | unmount =>
        show ∀ t ∈ (unmount s).pending, ∀ q, t.action ≠ .reminder q
        rw [unmount_eq]
        intro t ht q
        simp only [List.mem_filter] at ht
        exact h t ((mem_pendingWithout _ _ _).1 ht.1).1 q

theorem run_reminders_enabled (steps : List Step) (s : Plugin)
    (h : (s.options.enableUpdateNotifications = true ∧
        s.options.reminderSettings.enabled = true) ∨
      ∀ t ∈ s.pending, ∀ q, t.action ≠ .reminder q) :
    ((run s steps).options.enableUpdateNotifications = true ∧
        (run s steps).options.reminderSettings.enabled = true) ∨
      ∀ t ∈ (run s steps).pending, ∀ q, t.action ≠ .reminder q := by
  induction steps generalizing s with
  | nil => exact h
  | cons st rest ih => exact ih (step s st) (step_reminders_enabled s st h)

/-- In a run of the mounted plugin, a pending reminder timer shows that notifications and
reminders are both enabled. -/
theorem enabled_of_active_cycle (options : Options) (channel : Option Channel)
    (steps : List Step) (p : String)
    (hactive : ∃ timer ∈ (run (mounted options channel) steps).pending,
      timer.action = .reminder p) :
    (run (mounted options channel) steps).options.enableUpdateNotifications = true ∧
    (run (mounted options channel) steps).options.reminderSettings.enabled = true := by
  rcases run_reminders_enabled steps (mounted options channel)
    (Or.inr (by intro t ht; cases ht)) with h | h
  · exact h
  · obtain ⟨timer, hm, hact⟩ := hactive
    exact absurd hact (h timer hm p)

theorem onPluginUpdated_enabled_eq (s : Plugin) (now : Nat) (p old new : String)
    (backup : Option String) (hen : s.options.enableUpdateNotifications = true)
    (hrem : s.options.reminderSettings.enabled = true) :
    onPluginUpdated s now p old new backup =
      setupReminderSystem (afterBatchArm s now p old new backup) p := by
  rw [onPluginUpdated_eq s now p old new backup hen, if_pos hrem]

/-- The effect of an update event for `p` on the reminder bookkeeping, with notifications and
reminders enabled, in a well-formed state. -/
theorem onPluginUpdated_restarts_cycle (s : Plugin) (now : Nat) (p old new : String)
    (backup : Option String) (hwf : WF s) (hen : s.options.enableUpdateNotifications = true)
    (hrem : s.options.reminderSettings.enabled = true) :
    (∀ timer ∈ s.pending, timer.action = .reminder p →
      timer ∉ (onPluginUpdated s now p old new backup).pending) ∧
    (onPluginUpdated s now p old new backup).reminderCounts.get p = some 0 ∧
    (∃ timer, pendingReminderTimers (onPluginUpdated s now p old new backup) p = [timer] ∧
      timer.delay = parseReminderInterval s.options.reminderSettings.interval ∧
      timer ∉ s.pending ∧
      (onPluginUpdated s now p old new backup).reminderTimers.get p = some timer.id) ∧
    (∀ q, q ≠ p →
      (onPluginUpdated s now p old new backup).reminderTimers.get q = s.reminderTimers.get q ∧
      (onPluginUpdated s now p old new backup).reminderCounts.get q = s.reminderCounts.get q ∧
      pendingReminderTimers (onPluginUpdated s now p old new backup) q =
        pendingReminderTimers s q) := by
  have hwf' : WF (onPluginUpdated s now p old new backup) :=
    wf_onPluginUpdated s now p old new backup hwf
  have he : onPluginUpdated s now p old new backup =
      { afterBatchArm s now p old new backup with
        reminderCounts := s.reminderCounts.set p 0
        reminderTimers := s.reminderTimers.set p (s.nextTimerId + 1)
        nextTimerId := s.nextTimerId + 1 + 1
        pending := pendingWithout
            (pendingWithout s.pending s.batchTimer ++
              [{ id := s.nextTimerId, delay := .number s.batchDelay, action := .batch }])
            (s.reminderTimers.get p) ++
          [{ id := s.nextTimerId + 1
             delay := parseReminderInterval s.options.reminderSettings.interval
             action := .reminder p }] } := by
    rw [onPluginUpdated_enabled_eq s now p old new backup hen hrem, setupReminderSystem_eq]
    rfl
  have hpend : ∀ t, t ∈ (onPluginUpdated s now p old new backup).pending ↔
      (t ∈ pendingWithout
          (pendingWithout s.pending s.batchTimer ++
            [{ id := s.nextTimerId, delay := .number s.batchDelay, action := .batch }])
          (s.reminderTimers.get p) ∨
        t = { id := s.nextTimerId + 1
              delay := parseReminderInterval s.options.reminderSettings.interval
              action := .reminder p }) := by
    intro t
    rw [he]
    simp
  have hnew : ({ id := s.nextTimerId + 1
                 delay := parseReminderInterval s.options.reminderSettings.interval
                 action := .reminder p } : Timer) ∈
      (onPluginUpdated s now p old new backup).pending := (hpend _).2 (Or.inr rfl)
  refine ⟨?_, ?_, ?_, ?_⟩
  · intro timer hm hact hin
    have hget := hwf.reminder_tracked timer hm p hact
    rcases (hpend timer).1 hin with h | h
    · exact ((mem_pendingWithout _ _ _).1 h).2 hget
    · have := hwf.fresh timer hm
      rw [h] at this
      simp at this
  · rw [he]; simp
  · refine ⟨_, pendingReminderTimers_of_mem _ p hwf' _ hnew rfl, rfl, ?_, ?_⟩
    · intro hin
      have := hwf.fresh _ hin
      simp at this
    · rw [he]; simp
  · intro q hq
    refine ⟨?_, ?_, ?_⟩
    · rw [he]; exact JSMap.get_set_of_ne _ _ _ _ hq
    · rw [he]; exact JSMap.get_set_of_ne _ _ _ _ hq
    · unfold pendingReminderTimers
      rw [he]
      simp only [List.filter_append]
      rw [filter_pendingWithout_of_ne, List.filter_append, filter_pendingWithout_of_ne]
      · have hq' : ¬ p = q := fun e => hq e.symm
        simp [hq']
      · intro t ht hact hb
        have := hwf.batch_owner t ht hb
        rw [this] at hact
        simp at hact
      · intro t ht hact hg
        simp only [List.mem_append, List.mem_singleton] at ht
        rcases ht with ht | ht
        · have := hwf.reminder_owner t ((mem_pendingWithout _ _ _).1 ht).1 p hg
          rw [this] at hact
          have hq' : ¬ p = q := fun e => hq e.symm
          simp [hq'] at hact
        · rw [ht] at hact
          simp at hact

/-- The first firing after an update event for `p`, with a channel and a positive cap: the
reminder with count 1. -/
theorem first_reminder_after_update (s : Plugin) (now : Nat) (p old new : String)
    (backup : Option String) (hwf : WF s) (hen : s.options.enableUpdateNotifications = true)
    (hrem : s.options.reminderSettings.enabled = true) (ch : Channel)
    (hch : s.channel = some ch) (hpos : 0 < s.options.reminderSettings.maxReminders)
    (fireNow : Nat) :
    (fireReminderTimer (onPluginUpdated s now p old new backup) fireNow p).sendCalls =
      s.sendCalls ++ [reminderOutMessage s fireNow p 1] := by
  obtain ⟨_, hcount, ⟨timer, hpt, _, _, _⟩, _⟩ :=
    onPluginUpdated_restarts_cycle s now p old new backup hwf hen hrem
  have hopt : (onPluginUpdated s now p old new backup).options = s.options :=
    onPluginUpdated_options s now p old new backup
  have hcyc : ReminderCycle s.options.reminderSettings.maxReminders.toNat p 0
      (onPluginUpdated s now p old new backup) := by
    refine ⟨wf_onPluginUpdated s now p old new backup hwf, ⟨ch, ?_⟩, ?_, ?_, Nat.zero_le _, ?_, ?_⟩
    · rw [onPluginUpdated_channel]; exact hch
    · rw [hopt]; exact (Int.toNat_of_nonneg (le_of_lt hpos)).symm
    · simp [currentCount, hcount]
    · intro _
      have : timer ∈ pendingReminderTimers (onPluginUpdated s now p old new backup) p := by
        rw [hpt]; exact List.mem_singleton_self _
      obtain ⟨hm, ha⟩ := List.mem_filter.mp this
      exact ⟨timer, hm, by simpa using ha⟩
    · intro hle
      have : 0 < s.options.reminderSettings.maxReminders.toNat := by omega
      omega
  have hlt : 0 < s.options.reminderSettings.maxReminders.toNat := by omega
  obtain ⟨_, h2, _⟩ := reminderCycle_fire _ p _ 0 fireNow hcyc hlt
  rw [h2, onPluginUpdated_sendCalls]
  exact congrArg (fun m => s.sendCalls ++ [m]) (reminderOutMessage_congr s _ hopt fireNow p 1)

/-- When every send settles before the next callback runs (the states of `run`): in every such
state of the mounted plugin in which a reminder timer of `p` is pending (an active cycle,
whatever its count), an update event for `p` removes that timer from
the pending timeouts, sets the reminder count of `p` to 0 and leaves exactly one reminder timer
of `p` pending, a new one, armed with `parseReminderInterval` of the configured interval and
remembered in `reminderTimers`; the handles, counts and pending reminder timers of every other
plugin are unchanged; and with a channel and a positive cap the next firing for `p` sends the
reminder whose `Reminder` field is `1/maxReminders`. -/
theorem update_restarts_reminder_cycle (options : Options) (channel : Option Channel)
    (steps : List Step) (p : String) (now : Nat) (old new : String) (backup : Option String)
    (hactive : ∃ timer ∈ (run (mounted options channel) steps).pending,
      timer.action = .reminder p) :
    (∀ timer ∈ (run (mounted options channel) steps).pending, timer.action = .reminder p →
      timer ∉ (onPluginUpdated (run (mounted options channel) steps) now p old new
        backup).pending) ∧
    (onPluginUpdated (run (mounted options channel) steps) now p old new
      backup).reminderCounts.get p = some 0 ∧
    (∃ timer,
      pendingReminderTimers
        (onPluginUpdated (run (mounted options channel) steps) now p old new backup) p =
          [timer] ∧
      timer.delay = parseReminderInterval options.reminderSettings.interval ∧
      timer ∉ (run (mounted options channel) steps).pending ∧
      (onPluginUpdated (run (mounted options channel) steps) now p old new
        backup).reminderTimers.get p = some timer.id) ∧
    (∀ q, q ≠ p →
      (onPluginUpdated (run (mounted options channel) steps) now p old new
          backup).reminderTimers.get q =
        (run (mounted options channel) steps).reminderTimers.get q ∧
      (onPluginUpdated (run (mounted options channel) steps) now p old new
          backup).reminderCounts.get q =
        (run (mounted options channel) steps).reminderCounts.get q ∧
      pendingReminderTimers
          (onPluginUpdated (run (mounted options channel) steps) now p old new backup) q =
        pendingReminderTimers (run (mounted options channel) steps) q) ∧
    (∀ ch fireNow, (run (mounted options channel) steps).channel = some ch →
      0 < options.reminderSettings.maxReminders →
      (fireReminderTimer
          (onPluginUpdated (run (mounted options channel) steps) now p old new backup)
          fireNow p).sendCalls =
        (run (mounted options channel) steps).sendCalls ++
          [reminderOutMessage (run (mounted options channel) steps) fireNow p 1] ∧
      (reminderOutMessage (run (mounted options channel) steps) fireNow p 1).embed.fields.get? 2 =
        some { name := "Reminder",
               value := .text (toString 1 ++ "/" ++ toString options.reminderSettings.maxReminders),
               inline := true }) := by
  have hwf : WF (run (mounted options channel) steps) := wf_run _ _ (wf_mounted _ _)
  obtain ⟨hen, hrem⟩ := enabled_of_active_cycle options channel steps p hactive
  have hopt : (run (mounted options channel) steps).options = options := run_options steps _
  obtain ⟨h1, h2, h3, h4⟩ := onPluginUpdated_restarts_cycle
    (run (mounted options channel) steps) now p old new backup hwf hen hrem
  rw [hopt] at h3
  refine ⟨h1, h2, h3, h4, ?_⟩
  intro ch fireNow hch hpos
  refine ⟨first_reminder_after_update _ now p old new backup hwf hen hrem ch hch
    (by rw [hopt]; exact hpos) fireNow, ?_⟩
  simp only [reminderOutMessage, toOutMessage, withRolePing, reminderEmbed, hopt]
  rfl

theorem update_restarts_reminder_cycle_witness :
    (onPluginUpdated
      (run (mounted reminderOptions (some acceptingChannel))
        [.pluginUpdated 1 "SquadLeader" "v1.0.0" "v1.1.0" none, .timerFired 21600001 1])
      21700000 "SquadLeader" "v1.1.0" "v1.2.0" none).reminderCounts.get "SquadLeader" =
      some 0 :=
  (update_restarts_reminder_cycle reminderOptions (some acceptingChannel)
    [.pluginUpdated 1 "SquadLeader" "v1.0.0" "v1.1.0" none, .timerFired 21600001 1]
    "SquadLeader" 21700000 "v1.1.0" "v1.2.0" none (by decide)).2.1

/-! ## The end of a reminder cycle -/

/-- C11, as stated, fails: with `maxReminders = 3`, after the third firing has raised the count
to 3 the plugin still has its entry in `reminderTimers` (the handle that just fired) and in
`reminderCounts` (the count 3); only no timer is pending. -/
theorem reminder_entries_kept_at_cap :
    (runReminders (setupReminderSystem (mounted reminderOptions (some acceptingChannel))
      "SquadLeader") "SquadLeader" [10, 20, 30]).reminderCounts.get "SquadLeader" = some 3 ∧
    (runReminders (setupReminderSystem (mounted reminderOptions (some acceptingChannel))
      "SquadLeader") "SquadLeader" [10, 20, 30]).reminderTimers.get "SquadLeader" = some 2 ∧
    (runReminders (setupReminderSystem (mounted reminderOptions (some acceptingChannel))
      "SquadLeader") "SquadLeader" [10, 20, 30]).pending = [] := by
  decide

/-- A reminder firing that raises the count to the cap, field by field: the message is sent, the
count is stored, no timer is armed and `reminderTimers` is not touched. -/
theorem sendReminderNotification_at_cap (s : Plugin) (now : Nat) (p : String) (ch : Channel)
    (hch : s.channel = some ch)
    (hcap : ((currentCount s p + 1 : Nat) : Int) = s.options.reminderSettings.maxReminders) :
    (sendReminderNotification s now p).state.sendCalls =
      s.sendCalls ++ [reminderOutMessage s now p (currentCount s p + 1)] ∧
    (sendReminderNotification s now p).state.pending = s.pending ∧
    (sendReminderNotification s now p).state.reminderTimers = s.reminderTimers ∧
    (sendReminderNotification s now p).state.reminderCounts =
      s.reminderCounts.set p (currentCount s p + 1) := by
  have hlt : (currentCount s p : Int) < s.options.reminderSettings.maxReminders := by
    rw [← hcap]; push_cast; omega
  have hnot : ¬ ((currentCount s p + 1 : Nat) : Int) < s.options.reminderSettings.maxReminders := by
    rw [hcap]; exact lt_irrefl _
  obtain ⟨lg, e⟩ := sendReminderNotification_of_below s now p ch hch hlt
  rw [e, if_neg hnot]
  exact ⟨rfl, rfl, rfl, rfl⟩

/-! ## Reminders do not look at the event store -/

theorem sendDiscordMessage_with_events (s : Plugin) (events : JSMap UpdateEvent)
    (message : Message) :
    (sendDiscordMessage { s with updateEvents := events } message).isReturned =
      (sendDiscordMessage s message).isReturned ∧
    (sendDiscordMessage { s with updateEvents := events } message).state =
      { (sendDiscordMessage s message).state with updateEvents := events } := by
  obtain ⟨options, stored, batchTimer, batchDelay, timers, counts, channel, pending, nextId,
    calls, lg⟩ := s
  unfold sendDiscordMessage channelSend
  cases channel with
  | none => exact ⟨rfl, rfl⟩
  | some ch =>
    dsimp only
    cases ch.send calls (toOutMessage message) with
    | none => exact ⟨rfl, rfl⟩
    | some error => exact ⟨rfl, rfl⟩

theorem sendReminderNotification_with_events (s : Plugin) (events : JSMap UpdateEvent)
    (now : Nat) (p : String) :
    (sendReminderNotification { s with updateEvents := events } now p).isReturned =
      (sendReminderNotification s now p).isReturned ∧
    (sendReminderNotification { s with updateEvents := events } now p).state =
      { (sendReminderNotification s now p).state with updateEvents := events } := by
  obtain ⟨options, stored, batchTimer, batchDelay, timers, counts, channel, pending, nextId,
    calls, lg⟩ := s
  unfold sendReminderNotification
  cases channel with
  | none => exact ⟨rfl, rfl⟩
  | some ch =>
    dsimp only [Option.isNone]
    simp only [Bool.false_eq_true, if_false]
    split
    · exact ⟨rfl, rfl⟩
    · unfold sendDiscordMessage channelSend
      dsimp only [withRolePing, getRolePing, reminderEmbed]
      cases ch.send calls _ with
      | none =>
        dsimp only [Completion.andThen]
        split <;> exact ⟨rfl, rfl⟩
      | some error =>
        dsimp only [Completion.andThen]
        split <;> exact ⟨rfl, rfl⟩

/-- The outcome of a reminder firing, case by case. -/
theorem reminderOutcome_eq (s : Plugin) (now : Nat) (p : String) :
    reminderOutcome s now p =
      if s.channel.isNone then ([], currentCount s p, [])
      else if s.options.reminderSettings.maxReminders ≤ (currentCount s p : Int) then
        ([], currentCount s p, [])
      else
        ([reminderOutMessage s now p (currentCount s p + 1)], currentCount s p + 1,
          if ((currentCount s p + 1 : Nat) : Int) < s.options.reminderSettings.maxReminders then
            [{ id := s.nextTimerId
               delay := parseReminderInterval s.options.reminderSettings.interval
               action := .reminder p }]
          else []) := by
  rcases Option.eq_none_or_eq_some s.channel with hch | ⟨ch, hch⟩
  · have : s.channel.isNone = true := by simp [hch]
    rw [if_pos this]
    unfold reminderOutcome
    rw [sendReminderNotification_of_no_channel s now p hch]
    simp [Completion.state]
  · have hne : ¬ s.channel.isNone = true := by simp [hch]
    rw [if_neg hne]
    by_cases hlt : (currentCount s p : Int) < s.options.reminderSettings.maxReminders
    · rw [if_neg (not_le.mpr hlt)]
      obtain ⟨f1, _, _, f4, f5, f6⟩ := sendReminderNotification_below_facts s now p ch hch hlt
      unfold reminderOutcome
      rw [f1, f4]
      by_cases hc : ((currentCount s p + 1 : Nat) : Int) <
          s.options.reminderSettings.maxReminders
      · rw [f5 hc, if_pos hc]
        simp
      · rw [f6 hc, if_neg hc]
        simp
    · rw [if_pos (not_lt.mp hlt)]
      unfold reminderOutcome
      rw [sendReminderNotification_of_max s now p ch hch (not_lt.mp hlt)]
      simp [Completion.state, Plugin.verbose, currentCount]

/-- C12: a reminder firing never reads the event store.  Run on a state whose `updateEvents` is
replaced by any other store (so with the event of `p` notified or not), it completes the same
way and reaches the same state up to that store; hence the messages it sends, the reminder count
it leaves and the timers it arms are the same, in particular for the same state with the `notified`
flag of an event of `p` set and cleared, and after a batch firing as before it; and the firing
itself leaves the store as it was. -/
theorem reminder_firing_ignores_update_events (s : Plugin) (events : JSMap UpdateEvent)
    (now : Nat) (p : String) :
    (sendReminderNotification { s with updateEvents := events } now p).isReturned =
      (sendReminderNotification s now p).isReturned ∧
    (sendReminderNotification { s with updateEvents := events } now p).state =
      { (sendReminderNotification s now p).state with updateEvents := events } ∧
    reminderOutcome { s with updateEvents := events } now p = reminderOutcome s now p ∧
    (∀ ev : UpdateEvent,
      reminderOutcome
          { s with updateEvents := s.updateEvents.set p { ev with notified := true } } now p =
        reminderOutcome
          { s with updateEvents := s.updateEvents.set p { ev with notified := false } } now p) ∧
    (∀ batchNow,
      reminderOutcome (sendBatchUpdateNotification s batchNow).state now p =
        reminderOutcome s now p) ∧
    (sendReminderNotification s now p).state.updateEvents = s.updateEvents := by
  have h := sendReminderNotification_with_events s events now p
  refine ⟨h.1, h.2, ?_, ?_, ?_, ?_⟩
  · rw [reminderOutcome_eq, reminderOutcome_eq]
    rfl
  · intro ev
    rw [reminderOutcome_eq, reminderOutcome_eq]
    rfl
  · intro batchNow
    obtain ⟨calls, lg, evs, e | e⟩ := sendBatchUpdateNotification_frame s batchNow
    · rw [e, reminderOutcome_eq, reminderOutcome_eq]
      rfl
    · rw [e]
      rfl
  · have h' := (sendReminderNotification_with_events s s.updateEvents now p).2
    have e : (sendReminderNotification s now p).state.updateEvents = s.updateEvents := by
      have := congrArg Plugin.updateEvents h'
      exact this
    exact e

/-! ## The reminder counts stay within the cap -/

theorem countsBounded_congr {s s' : Plugin} (h : CountsBounded s)
    (hc : s'.reminderCounts = s.reminderCounts) (ho : s'.options = s.options) :
    CountsBounded s' := by
  intro p c hget
  rw [hc] at hget
  rw [ho]
  exact h p c hget

theorem countsBounded_set {s s' : Plugin} (h : CountsBounded s) (p : String) (c : Nat)
    (hc : s'.reminderCounts = s.reminderCounts.set p c) (ho : s'.options = s.options)
    (hle : (c : Int) ≤ s.options.reminderSettings.maxReminders) : CountsBounded s' := by
  intro q d hget
  rw [hc] at hget
  rw [ho]
  by_cases hq : q = p
  · subst hq
    rw [JSMap.get_set_self] at hget
    cases hget
    exact hle
  · rw [JSMap.get_set_of_ne _ _ _ _ hq] at hget
    exact h q d hget

theorem countsBounded_setupReminderSystem (s : Plugin) (p : String) (h : CountsBounded s)
    (hmax : 0 ≤ s.options.reminderSettings.maxReminders) :
    CountsBounded (setupReminderSystem s p) := by
  refine countsBounded_set h p 0 ?_ ?_ (by exact_mod_cast hmax)
  · rw [setupReminderSystem_eq]
  · rw [setupReminderSystem_eq]

theorem countsBounded_onPluginUpdated (s : Plugin) (now : Nat) (p old new : String)
    (backup : Option String) (h : CountsBounded s)
    (hmax : 0 ≤ s.options.reminderSettings.maxReminders) :
    CountsBounded (onPluginUpdated s now p old new backup) := by
  cases hen : s.options.enableUpdateNotifications with
  | false => rw [onPluginUpdated_disabled s now p old new backup hen]; exact h
  | true =>
    rw [onPluginUpdated_eq s now p old new backup hen]
    have ha : CountsBounded (afterBatchArm s now p old new backup) :=
      countsBounded_congr h rfl rfl
    split
    · exact countsBounded_setupReminderSystem _ p ha hmax
    · exact ha

theorem countsBounded_sendReminderNotification (s : Plugin) (now : Nat) (p : String)
    (h : CountsBounded s) : CountsBounded (sendReminderNotification s now p).state := by
  rcases Option.eq_none_or_eq_some s.channel with hch | ⟨ch, hch⟩
  · rw [sendReminderNotification_of_no_channel s now p hch]; exact h
  · by_cases hlt : (currentCount s p : Int) < s.options.reminderSettings.maxReminders
    · obtain ⟨lg, e⟩ := sendReminderNotification_of_below s now p ch hch hlt
      have hle : ((currentCount s p + 1 : Nat) : Int) ≤
          s.options.reminderSettings.maxReminders := by
        push_cast; omega
      rw [e]
      simp only [Completion.state]
      split
      · rw [scheduleNextReminder_eq]
        exact countsBounded_set h p _ rfl rfl hle
      · exact countsBounded_set h p _ rfl rfl hle
    · rw [sendReminderNotification_of_max s now p ch hch (not_lt.mp hlt)]
      exact countsBounded_congr h rfl rfl

theorem countsBounded_sendBatchUpdateNotification (s : Plugin) (now : Nat)
    (h : CountsBounded s) : CountsBounded (sendBatchUpdateNotification s now).state := by
  obtain ⟨calls, lg, evs, e | e⟩ := sendBatchUpdateNotification_frame s now
  · rw [e]; exact countsBounded_congr h rfl rfl
  · rw [e]; exact h

theorem countsBounded_onRestartRequired (s : Plugin) (now : Nat) (p : String)
    (h : CountsBounded s) : CountsBounded (onRestartRequired s now p) := by
  obtain ⟨calls, lg, e⟩ := onRestartRequired_frame s now p
  rw [e]
  exact countsBounded_congr h rfl rfl

theorem countsBounded_unmount (s : Plugin) : CountsBounded (unmount s) := by
  rw [unmount_eq]
  intro p c hget
  cases hget

/-- A reminder firing with the count at (or above) the cap: no call to the sink, and counts,
handles and pending timers untouched. -/
theorem sendReminderNotification_at_max_silent (s : Plugin) (now : Nat) (p : String)
    (hmax : s.options.reminderSettings.maxReminders ≤ (currentCount s p : Int)) :
    (sendReminderNotification s now p).state.sendCalls = s.sendCalls ∧
    (sendReminderNotification s now p).state.reminderCounts = s.reminderCounts ∧
    (sendReminderNotification s now p).state.reminderTimers = s.reminderTimers ∧
    (sendReminderNotification s now p).state.pending = s.pending := by
  rcases Option.eq_none_or_eq_some s.channel with hch | ⟨ch, hch⟩
  · rw [sendReminderNotification_of_no_channel s now p hch]
    exact ⟨rfl, rfl, rfl, rfl⟩
  · rw [sendReminderNotification_of_max s now p ch hch hmax]
    exact ⟨rfl, rfl, rfl, rfl⟩

/-- C13: for `maxReminders >= 0`, "every value stored in `reminderCounts` lies in
`0..maxReminders`" holds in the initial state (after the constructor and after `mount`) and is
kept by `onPluginUpdated`, `setupReminderSystem`, `sendReminderNotification`,
`sendBatchUpdateNotification`, `onRestartRequired` and `unmount`, hence by every run; and a
reminder firing with the count already at `maxReminders` or above makes no call to the sink and
leaves the counts unchanged. -/
theorem reminder_counts_bounded (s : Plugin) (now : Nat) (p old new : String)
    (backup : Option String) (hmax : 0 ≤ s.options.reminderSettings.maxReminders)
    (h : CountsBounded s) :
    CountsBounded (construct s.options) ∧
    (∀ channel, CountsBounded (mounted s.options channel)) ∧
    CountsBounded (onPluginUpdated s now p old new backup) ∧
    CountsBounded (setupReminderSystem s p) ∧
    CountsBounded (sendReminderNotification s now p).state ∧
    CountsBounded (sendBatchUpdateNotification s now).state ∧
    CountsBounded (onRestartRequired s now p) ∧
    CountsBounded (unmount s) ∧
    (∀ steps, CountsBounded (run s steps)) ∧
    (s.options.reminderSettings.maxReminders ≤ (currentCount s p : Int) →
      (sendReminderNotification s now p).state.sendCalls = s.sendCalls ∧
      (sendReminderNotification s now p).state.reminderCounts = s.reminderCounts) := by
  refine ⟨?_, ?_, countsBounded_onPluginUpdated s now p old new backup h hmax,
    countsBounded_setupReminderSystem s p h hmax,
    countsBounded_sendReminderNotification s now p h,
    countsBounded_sendBatchUpdateNotification s now h,
    countsBounded_onRestartRequired s now p h, countsBounded_unmount s, ?_, ?_⟩
  · intro q c hget; cases hget
  · intro channel q c hget; cases hget
  · intro steps
    induction steps generalizing s with
    | nil => exact h
    | cons st rest ih =>
      rw [run_cons]
      refine ih (step s st) (by rw [step_options]; exact hmax) ?_
      cases st with
      | pluginUpdated t q o n b => exact countsBounded_onPluginUpdated s t q o n b h hmax
      | restartRequired t q => exact countsBounded_onRestartRequired s t q h
      | timerFired t id =>
        show CountsBounded (fireTimer s t id)
        unfold fireTimer
        cases s.pending.find? (fun x => x.id = id) with
        | none => exact h
        | some timer =>
          have h1 : CountsBounded { s with pending := s.pending.filter (fun x => x.id != id) } :=
            countsBounded_congr h rfl rfl
          dsimp only
          cases timer.action with
          | batch => exact countsBounded_sendBatchUpdateNotification _ t h1
          | reminder q => exact countsBounded_sendReminderNotification _ t q h1
      | unmount => exact countsBounded_unmount s
  · intro hle
    obtain ⟨h1, h2, _, _⟩ := sendReminderNotification_at_max_silent s now p hle
    exact ⟨h1, h2⟩

theorem reminder_counts_bounded_witness :
    CountsBounded (sendReminderNotification
      (setupReminderSystem (mounted reminderOptions (some acceptingChannel)) "SquadLeader") 10
      "SquadLeader").state ∧
    (runReminders (setupReminderSystem (mounted reminderOptions (some acceptingChannel))
      "SquadLeader") "SquadLeader" [10]).reminderCounts.get "SquadLeader" = some 1 :=
  ⟨(reminder_counts_bounded
      (setupReminderSystem (mounted reminderOptions (some acceptingChannel)) "SquadLeader") 10
      "SquadLeader" "v1.0.0" "v1.1.0" none (by decide)
      (countsBounded_setupReminderSystem _ "SquadLeader"
        (by intro q c hget; cases hget) (by decide))).2.2.2.2.1,
   by decide⟩

/-! ## Split warnings stay within the limit -/

theorem jsTrim_length_le (s : JSString) : (jsTrim s).length ≤ s.length := by
  unfold jsTrim
  exact le_trans (List.dropWhile_suffix _).length_le (List.rdropWhile_prefix _ _).length_le

theorem jsTrim_length_of_fits (maxLength : Nat) (text : JSString)
    (h : FitsTrimmed maxLength text) : (jsTrim text).length ≤ maxLength := by
  rcases h with h | ⟨hlen, init, c, he, hc⟩
  · rw [h]; exact Nat.zero_le _
  · subst he
    unfold jsTrim
    rw [List.rdropWhile_concat_pos _ _ _ hc]
    refine le_trans (List.dropWhile_suffix _).length_le ?_
    refine le_trans (List.rdropWhile_prefix _ _).length_le ?_
    simp only [List.length_append, List.length_singleton] at hlen
    omega

theorem fitsTrimmed_concat (maxLength : Nat) (x : JSString) (c : Nat)
    (hx : x.length ≤ maxLength) (hc : isTrimmed c = true) : FitsTrimmed maxLength (x ++ [c]) := by
  right
  refine ⟨?_, x, c, rfl, hc⟩
  simp only [List.length_append, List.length_singleton]
  omega

theorem isTrimmed_space : isTrimmed space = true := by decide

theorem isTrimmed_lineFeed : isTrimmed lineFeed = true := by decide

theorem wordStep_fits (maxLength : Nat) (st : List JSString × JSString) (word : JSString)
    (hsent : ∀ text ∈ st.1, text.length ≤ maxLength) (hcur : FitsTrimmed maxLength st.2)
    (hword : word.length ≤ maxLength) :
    (∀ text ∈ (wordStep maxLength st word).1, text.length ≤ maxLength) ∧
    FitsTrimmed maxLength (wordStep maxLength st word).2 := by
  unfold wordStep
  split
  · refine ⟨?_, fitsTrimmed_concat maxLength word space hword isTrimmed_space⟩
    dsimp only
    split
    · intro text ht
      rcases List.mem_append.mp ht with h | h
      · exact hsent text h
      · rw [List.mem_singleton.mp h]
        exact jsTrim_length_of_fits maxLength st.2 hcur
    · exact hsent
  · next hle =>
    refine ⟨hsent, ?_⟩
    dsimp only
    rw [← List.append_assoc]
    exact fitsTrimmed_concat maxLength _ space (Nat.le_of_not_lt hle) isTrimmed_space

theorem foldl_wordStep_fits (maxLength : Nat) (words : List JSString)
    (st : List JSString × JSString)
    (hsent : ∀ text ∈ st.1, text.length ≤ maxLength) (hcur : FitsTrimmed maxLength st.2)
    (hwords : ∀ word ∈ words, word.length ≤ maxLength) :
    (∀ text ∈ (words.foldl (wordStep maxLength) st).1, text.length ≤ maxLength) ∧
    FitsTrimmed maxLength (words.foldl (wordStep maxLength) st).2 := by
  induction words generalizing st with
  | nil => exact ⟨hsent, hcur⟩
  | cons word rest ih =>
    obtain ⟨h1, h2⟩ := wordStep_fits maxLength st word hsent hcur
      (hwords word (List.mem_cons_self _ _))
    exact ih (wordStep maxLength st word) h1 h2
      (fun w hw => hwords w (List.mem_cons_of_mem _ hw))

theorem lineStep_fits (maxLength : Nat) (st : List JSString × JSString) (line : JSString)
    (hsent : ∀ text ∈ st.1, text.length ≤ maxLength) (hcur : FitsTrimmed maxLength st.2)
    (hwords : ∀ word ∈ jsSplit space line, word.length ≤ maxLength) :
    (∀ text ∈ (lineStep maxLength st line).1, text.length ≤ maxLength) ∧
    FitsTrimmed maxLength (lineStep maxLength st line).2 := by
  have hflush : (∀ text ∈ (if st.2 ≠ [] then (st.1 ++ [jsTrim st.2], []) else st :
        List JSString × JSString).1, text.length ≤ maxLength) ∧
      (if st.2 ≠ [] then (st.1 ++ [jsTrim st.2], []) else st : List JSString × JSString).2 =
        [] := by
    split
    · refine ⟨?_, rfl⟩
      intro text ht
      rcases List.mem_append.mp ht with h | h
      · exact hsent text h
      · rw [List.mem_singleton.mp h]
        exact jsTrim_length_of_fits maxLength st.2 hcur
    · next hne => exact ⟨hsent, by simpa using hne⟩
  unfold lineStep
  split
  · dsimp only
    generalize (if st.2 ≠ [] then (st.1 ++ [jsTrim st.2], []) else st :
      List JSString × JSString) = flushed at hflush ⊢
    by_cases hlong : line.length > maxLength
    · rw [if_pos hlong]
      obtain ⟨h1, h2⟩ := foldl_wordStep_fits maxLength (jsSplit space line) (flushed.1, [])
        hflush.1 (Or.inl rfl) hwords
      split
      · exact ⟨h1, h2⟩
      · exact ⟨h1, Or.inl hflush.2⟩
    · rw [if_neg hlong]
      exact ⟨hflush.1,
        fitsTrimmed_concat maxLength line lineFeed (Nat.le_of_not_lt hlong) isTrimmed_lineFeed⟩
  · next hle =>
    refine ⟨hsent, ?_⟩
    dsimp only
    rw [← List.append_assoc]
    exact fitsTrimmed_concat maxLength _ lineFeed (Nat.le_of_not_lt hle) isTrimmed_lineFeed

theorem foldl_lineStep_fits (maxLength : Nat) (lines : List JSString)
    (st : List JSString × JSString)
    (hsent : ∀ text ∈ st.1, text.length ≤ maxLength) (hcur : FitsTrimmed maxLength st.2)
    (hwords : ∀ line ∈ lines, ∀ word ∈ jsSplit space line, word.length ≤ maxLength) :
    (∀ text ∈ (lines.foldl (lineStep maxLength) st).1, text.length ≤ maxLength) ∧
    FitsTrimmed maxLength (lines.foldl (lineStep maxLength) st).2 := by
  induction lines generalizing st with
  | nil => exact ⟨hsent, hcur⟩
  | cons line rest ih =>
    obtain ⟨h1, h2⟩ := lineStep_fits maxLength st line hsent hcur
      (hwords line (List.mem_cons_self _ _))
    exact ih (lineStep maxLength st line) h1 h2
      (fun l hl => hwords l (List.mem_cons_of_mem _ hl))

theorem splitWarningTexts_fits (message : JSString) (maxLength : Nat)
    (hwords : ∀ line ∈ jsSplit lineFeed message, ∀ word ∈ jsSplit space line,
      word.length ≤ maxLength) :
    ∀ text ∈ splitWarningTexts message maxLength, text.length ≤ maxLength := by
  unfold splitWarningTexts
  split
  · next hle =>
    intro text ht
    rw [List.mem_singleton.mp ht]
    exact hle
  · obtain ⟨h1, h2⟩ := foldl_lineStep_fits maxLength (jsSplit lineFeed message) ([], [])
      (by intro text ht; cases ht) (Or.inl rfl) hwords
    dsimp only
    split
    · intro text ht
      rcases List.mem_append.mp ht with h | h
      · exact h1 text h
      · rw [List.mem_singleton.mp h]
        exact jsTrim_length_of_fits maxLength _ h2
    · exact h1

theorem mem_warnAll (rcon : Rcon) (texts made : List JSString) (text : JSString)
    (h : text ∈ warnAll rcon made texts) : text ∈ made ∨ text ∈ texts := by
  induction texts generalizing made with
  | nil => exact Or.inl h
  | cons x rest ih =>
    unfold warnAll at h
    split at h
    · rcases ih _ h with h' | h'
      · rcases List.mem_append.mp h' with h'' | h''
        · exact Or.inl h''
        · exact Or.inr (by rw [List.mem_singleton.mp h'']; exact List.mem_cons_self _ _)
      · exact Or.inr (List.mem_cons_of_mem _ h')
    · rcases List.mem_append.mp h with h'' | h''
      · exact Or.inl h''
      · exact Or.inr (by rw [List.mem_singleton.mp h'']; exact List.mem_cons_self _ _)

/-- When every call resolves, all the texts are warned, in order. -/
theorem warnAll_of_resolving (rcon : Rcon) (hok : ∀ made text, rcon.warn made text = none)
    (texts made : List JSString) : warnAll rcon made texts = made ++ texts := by
  induction texts generalizing made with
  | nil => simp [warnAll]
  | cons x rest ih =>
    unfold warnAll
    rw [hok made x]
    dsimp only
    rw [ih, List.append_assoc]
    rfl

/-- C14: for every message and every `maxLength` (so for every `maxLength >= 1`), when no
space-separated word of any line of the message is longer than `maxLength`, every text
`sendSplitWarning` passes to `rcon.warn` has at most `maxLength` code units, whether the calls
resolve or one of them throws; and when the whole message has at most `maxLength` code units,
exactly one warning is sent, the message itself. -/
theorem sendSplitWarning_within_limit (rcon : Rcon) (message : JSString) (maxLength : Nat)
    (hwords : ∀ line ∈ jsSplit lineFeed message, ∀ word ∈ jsSplit space line,
      word.length ≤ maxLength) :
    (∀ text ∈ sendSplitWarning rcon message maxLength, text.length ≤ maxLength) ∧
    (message.length ≤ maxLength → sendSplitWarning rcon message maxLength = [message]) := by
  constructor
  · intro text ht
    rcases mem_warnAll rcon _ [] text ht with h | h
    · cases h
    · exact splitWarningTexts_fits message maxLength hwords text h
  · intro hle
    unfold sendSplitWarning splitWarningTexts
    rw [if_pos hle]
    unfold warnAll
    cases rcon.warn [] message <;> rfl

theorem sendSplitWarning_within_limit_witness :
    (∀ text ∈ sendSplitWarning resolvingRcon
        [97, 98, 32, 99, 100, 32, 101, 10, 102, 103, 10, 104] 5,
      text.length ≤ 5) ∧
    sendSplitWarning resolvingRcon [97, 98, 32, 99, 100, 32, 101, 10, 102, 103, 10, 104] 5 =
      [[97, 98, 32, 99, 100], [101, 32, 102, 103], [104]] :=
  ⟨(sendSplitWarning_within_limit resolvingRcon
      [97, 98, 32, 99, 100, 32, 101, 10, 102, 103, 10, 104] 5 (by decide)).1,
   by decide⟩

/-! ## Awaited sends -/

theorem JSMap.eq_of_entries {α : Type} {m m' : JSMap α} (h : m.entries = m'.entries) :
    m = m' := by
  cases m; cases m'
  simp only at h
  subst h
  rfl

theorem JSMap.get_mapWithKey {α : Type} (m : JSMap α) (f : String → α → α) (k : String) :
    (m.mapWithKey f).get k = (m.get k).map (f k) := by
  simp only [JSMap.get, JSMap.mapWithKey]
  induction m.entries with
  | nil => simp
  | cons x rest ih =>
    obtain ⟨k', v'⟩ := x
    by_cases hk : k' = k
    · subst hk
      simp [List.find?_cons]
    · simpa [List.find?_cons, hk] using ih

theorem JSMap.keys_mapWithKey {α : Type} (m : JSMap α) (f : String → α → α) :
    (m.mapWithKey f).keys = m.keys := by
  simp [JSMap.keys, JSMap.mapWithKey, List.map_map, Function.comp_def]

theorem mem_unnotifiedKeys (s : Plugin) (k : String) :
    k ∈ unnotifiedKeys s ↔ ∃ e, s.updateEvents.get k = some e ∧ e.notified = false := by
  simp only [unnotifiedKeys, List.mem_map, List.mem_filter, Prod.exists]
  constructor
  · rintro ⟨k', e, ⟨hm, hn⟩, rfl⟩
    exact ⟨e, (JSMap.mem_entries_iff _ _ _).1 hm, by simpa using hn⟩
  · rintro ⟨e, hget, hn⟩
    exact ⟨k, e, ⟨(JSMap.mem_entries_iff _ _ _).2 hget, by simpa using hn⟩, rfl⟩

/-- Setting the flag on the stored objects of the array `pendingUpdates` is setting it on the
events stored under the keys of these objects. -/
theorem markNotified_eq_markStored (s s1 : Plugin) (h : s1.updateEvents = s.updateEvents) :
    markNotified s1 (unnotifiedUpdates s) = markStored s1 (unnotifiedKeys s) := by
  unfold markNotified markStored
  congr 1
  apply JSMap.eq_of_entries
  simp only [JSMap.mapValues, JSMap.mapWithKey, h]
  apply List.map_congr_left
  intro x hx
  obtain ⟨k, e⟩ := x
  have hget := (JSMap.mem_entries_iff _ _ _).1 hx
  have h1 : e ∈ unnotifiedUpdates s ↔ e.notified = false := by
    rw [mem_unnotifiedUpdates]
    exact ⟨fun h => h.2, fun h => ⟨⟨k, hget⟩, h⟩⟩
  have h2 : k ∈ unnotifiedKeys s ↔ e.notified = false := by
    rw [mem_unnotifiedKeys]
    constructor
    · rintro ⟨e', he', hn⟩
      rw [hget] at he'
      cases he'
      exact hn
    · intro hn
      exact ⟨e, hget, hn⟩
  by_cases hn : e.notified = false
  · simp [h1.2 hn, h2.2 hn]
  · have a1 : e ∉ unnotifiedUpdates s := fun h => hn (h1.1 h)
    have a2 : k ∉ unnotifiedKeys s := fun h => hn (h2.1 h)
    simp [a1, a2]

/-- A send that settles at once, with no other send in flight. -/
theorem settleSend_issueSend (s : Plugin) (ch : Channel) (m : OutMessage) (k : Continuation) :
    settleSend (issueSend ⟨s, []⟩ ch m k) s.sendCalls.length =
      ⟨runContinuation
        (match ch.send s.sendCalls m with
         | none => { s with sendCalls := s.sendCalls ++ [m] }
         | some error =>
           ({ s with sendCalls := s.sendCalls ++ [m] } : Plugin).verbose 1
             ("Failed to send Discord message: " ++ error)) k, []⟩ := by
  simp [settleSend, issueSend]

/-- Method `sendDiscordMessage` with a channel, start to end: the call, and the log line of the
`catch` block when the call is rejected. -/
theorem sendDiscordMessage_eq_of_channel (s : Plugin) (message : Message) (ch : Channel)
    (hch : s.channel = some ch) :
    sendDiscordMessage s message =
      .returned
        (match ch.send s.sendCalls (toOutMessage message) with
         | none => { s with sendCalls := s.sendCalls ++ [toOutMessage message] }
         | some error =>
           ({ s with sendCalls := s.sendCalls ++ [toOutMessage message] } : Plugin).verbose 1
             ("Failed to send Discord message: " ++ error)) := by
  unfold sendDiscordMessage
  split
  · next h => rw [hch] at h; cases h
  · next ch' h =>
    rw [hch] at h
    cases h
    unfold channelSend
    cases ch.send s.sendCalls (toOutMessage message) with
    | none => rfl
    | some error => rfl

/-- The state in which `sendDiscordMessage` returns after the call of `m` has settled. -/
theorem sendSingleUpdateNotification_eq (s : Plugin) (now : Nat) (ev : UpdateEvent)
    (ch : Channel) (hch : s.channel = some ch) :
    sendSingleUpdateNotification s now ev =
      .returned
        (match ch.send s.sendCalls (singleUpdateOutMessage s now ev) with
         | none => { s with sendCalls := s.sendCalls ++ [singleUpdateOutMessage s now ev] }
         | some error =>
           ({ s with sendCalls := s.sendCalls ++ [singleUpdateOutMessage s now ev] } :
             Plugin).verbose 1 ("Failed to send Discord message: " ++ error)) := by
  have hne : ¬ s.channel.isNone = true := by simp [hch]
  unfold sendSingleUpdateNotification
  rw [if_neg hne, sendDiscordMessage_eq_of_channel s _ ch hch]
  rfl

theorem sendMultipleUpdatesNotification_eq (s : Plugin) (now : Nat) (evs : List UpdateEvent)
    (ch : Channel) (hch : s.channel = some ch) :
    sendMultipleUpdatesNotification s now evs =
      .returned
        (match ch.send s.sendCalls (multipleUpdatesOutMessage s now evs) with
         | none => { s with sendCalls := s.sendCalls ++ [multipleUpdatesOutMessage s now evs] }
         | some error =>
           ({ s with sendCalls := s.sendCalls ++ [multipleUpdatesOutMessage s now evs] } :
             Plugin).verbose 1 ("Failed to send Discord message: " ++ error)) := by
  have hne : ¬ s.channel.isNone = true := by simp [hch]
  unfold sendMultipleUpdatesNotification
  rw [if_neg hne, sendDiscordMessage_eq_of_channel s _ ch hch]
  rfl

/-- The batch notification, start to end, is its start followed at once by the settling of its
send. -/
theorem sendBatchUpdateNotification_eq_settle (s : Plugin) (now : Nat) :
    (sendBatchUpdateNotification s now).state =
      (settleSend (startBatchNotification ⟨s, []⟩ now) s.sendCalls.length).plugin := by
  rcases Option.eq_none_or_eq_some s.channel with hch | ⟨ch, hch⟩
  · simp [sendBatchUpdateNotification, startBatchNotification, hch, settleSend, Completion.state]
  · cases hp : unnotifiedUpdates s with
    | nil =>
      rw [sendBatchUpdateNotification_of_none_pending s now hp]
      unfold unnotifiedUpdates at hp
      simp [startBatchNotification, hch, hp, settleSend, Completion.state]
    | cons ev rest =>
      have hstart : startBatchNotification ⟨s, []⟩ now =
          issueSend ⟨s, []⟩ ch
            (if (ev :: rest).length = 1 then singleUpdateOutMessage s now ev
             else multipleUpdatesOutMessage s now (ev :: rest))
            (.markNotified (unnotifiedKeys s)) := by
        unfold unnotifiedUpdates at hp
        simp only [startBatchNotification, hch, hp]
      rw [hstart, settleSend_issueSend]
      have hne : ¬ s.channel.isNone = true := by simp [hch]
      unfold sendBatchUpdateNotification
      rw [if_neg hne]
      have hp' := hp
      unfold unnotifiedUpdates at hp'
      simp only [hp']
      by_cases hlen : (ev :: rest).length = 1
      · rw [if_pos hlen, if_pos hlen, sendSingleUpdateNotification_eq s now ev ch hch]
        simp only [Completion.andThen, Completion.state, runContinuation]
        rw [← hp]
        exact markNotified_eq_markStored s _ (by
          cases ch.send s.sendCalls _ <;> rfl)
      · rw [if_neg hlen, if_neg hlen, sendMultipleUpdatesNotification_eq s now _ ch hch]
        simp only [Completion.andThen, Completion.state, runContinuation]
        rw [← hp]
        exact markNotified_eq_markStored s _ (by
          cases ch.send s.sendCalls _ <;> rfl)

/-- The reminder notification, start to end, is its start followed at once by the settling of
its send. -/
theorem sendReminderNotification_eq_settle (s : Plugin) (now : Nat) (p : String) :
    (sendReminderNotification s now p).state =
      (settleSend (startReminderNotification ⟨s, []⟩ now p) s.sendCalls.length).plugin := by
  rcases Option.eq_none_or_eq_some s.channel with hch | ⟨ch, hch⟩
  · simp [sendReminderNotification, startReminderNotification, hch, settleSend, Completion.state]
  · have hne : ¬ s.channel.isNone = true := by simp [hch]
    unfold sendReminderNotification
    rw [if_neg hne]
    by_cases hmax : (currentCount s p : Int) ≥ s.options.reminderSettings.maxReminders
    · have hmax' := hmax
      unfold currentCount at hmax'
      simp only [hmax', if_true]
      simp [startReminderNotification, hch, hmax, settleSend, Completion.state]
    · have hmax' := hmax
      unfold currentCount at hmax'
      simp only [hmax', if_false]
      have hstart : startReminderNotification ⟨s, []⟩ now p =
          issueSend
            ⟨{ s with reminderCounts := s.reminderCounts.set p (currentCount s p + 1) }, []⟩
            ch (reminderOutMessage s now p (currentCount s p + 1))
            (.scheduleNext p (currentCount s p + 1) s.options.reminderSettings.maxReminders) := by
        simp only [startReminderNotification, hch, hmax, if_false]
      rw [hstart]
      have hs := settleSend_issueSend
        { s with reminderCounts := s.reminderCounts.set p (currentCount s p + 1) } ch
        (reminderOutMessage s now p (currentCount s p + 1))
        (.scheduleNext p (currentCount s p + 1) s.options.reminderSettings.maxReminders)
      rw [hs]
      clear hs hstart
      rw [sendDiscordMessage_eq_of_channel
        { s with reminderCounts := s.reminderCounts.set p ((s.reminderCounts.get p).getD 0 + 1) }
        _ ch hch]
      simp only [Completion.andThen, runContinuation, reminderOutMessage, currentCount]
      dsimp only [withRolePing, getRolePing, reminderEmbed]
      by_cases hlt : (((s.reminderCounts.get p).getD 0 + 1 : Nat) : Int) <
          s.options.reminderSettings.maxReminders
      · rw [if_pos hlt, if_pos hlt]
        cases ch.send s.sendCalls _ <;> rfl
      · rw [if_neg hlt, if_neg hlt]
        cases ch.send s.sendCalls _ <;> rfl

/-! ## Delivery failure -/

theorem startBatchNotification_of_pending (a : Session) (now : Nat) (ch : Channel)
    (hch : a.plugin.channel = some ch) (ev : UpdateEvent) (rest : List UpdateEvent)
    (hp : unnotifiedUpdates a.plugin = ev :: rest) :
    startBatchNotification a now =
      issueSend a ch
        (if rest = [] then singleUpdateOutMessage a.plugin now ev
         else multipleUpdatesOutMessage a.plugin now (ev :: rest))
        (.markNotified (unnotifiedKeys a.plugin)) := by
  unfold unnotifiedUpdates at hp
  simp only [startBatchNotification, hch, hp]
  cases rest with
  | nil => simp
  | cons e2 r2 => simp

/-- The settling of a send awaited by a batch firing: no further call to the sink, and the flag
is set on the events stored under the captured names, whether the promise was resolved or
rejected; nothing else of the store changes. -/
theorem settleSend_markNotified (b : Session) (call : Nat) (outcome : Option String)
    (captured : List String)
    (hfind : b.inFlight.find? (fun x => x.call = call) =
      some ⟨call, outcome, .markNotified captured⟩) :
    (settleSend b call).plugin.sendCalls = b.plugin.sendCalls ∧
    (settleSend b call).plugin.pending = b.plugin.pending ∧
    (∀ k, (settleSend b call).plugin.updateEvents.get k =
      (b.plugin.updateEvents.get k).map (fun e =>
        if k ∈ captured then { e with notified := true } else e)) ∧
    (settleSend b call).inFlight = b.inFlight.filter (fun x => x.call != call) := by
  unfold settleSend
  rw [hfind]
  cases outcome with
  | none => exact ⟨rfl, rfl, fun k => JSMap.get_mapWithKey _ _ k, rfl⟩
  | some error => exact ⟨rfl, rfl, fun k => JSMap.get_mapWithKey _ _ k, rfl⟩

/-- C9, as stated, fails: without a delivery channel (the default) a firing of
`sendBatchUpdateNotification` with an un-notified event returns at its first line; it makes no
call and the event stays un-notified. -/
theorem batch_firing_without_channel_marks_nothing :
    (sendBatchUpdateNotification
      (onPluginUpdated (mounted defaultOptions none) 1 "SquadLeader" "v1.0.0" "v1.1.0" none)
      5001).state.updateEvents.values.map UpdateEvent.notified = [false] ∧
    (sendBatchUpdateNotification
      (onPluginUpdated (mounted defaultOptions none) 1 "SquadLeader" "v1.0.0" "v1.1.0" none)
      5001).state.sendCalls = [] ∧
    (runAsync (mountedSession defaultOptions none)
      [.pluginUpdated 1 "SquadLeader" "v1.0.0" "v1.1.0" none,
       .timerFired 5001 0]).plugin.updateEvents.values.map UpdateEvent.notified = [false] ∧
    (runAsync (mountedSession defaultOptions none)
      [.pluginUpdated 1 "SquadLeader" "v1.0.0" "v1.1.0" none,
       .timerFired 5001 0]).inFlight = [] := by
  decide

/-- C9, amended: in a firing of `sendBatchUpdateNotification` with a channel and at least one
un-notified event, whatever the sink does with the call (`ch.send` is arbitrary: it may accept or
throw), `sendDiscordMessage` always returns normally, the sink is called exactly once (no retry),
the firing returns normally, and afterwards every event that was un-notified is stored with
`notified = true` and no stored event is un-notified.  Split at the `await`: the firing makes its
one call and awaits it with the names of all un-notified events captured, and whenever the call
settles, resolved or rejected, no further call is made and the flag is set on every event stored
under a captured name. -/
theorem batch_delivery_failure_recovered (s : Plugin) (now : Nat) (ch : Channel)
    (hch : s.channel = some ch)
    (hpending : ∃ e ∈ s.updateEvents.values, e.notified = false) :
    (∀ s' message, (sendDiscordMessage s' message).isReturned = true ∧
      (sendDiscordMessage s' message).state.sendCalls.length ≤ s'.sendCalls.length + 1) ∧
    (sendBatchUpdateNotification s now).isReturned = true ∧
    (sendBatchUpdateNotification s now).state.sendCalls.length = s.sendCalls.length + 1 ∧
    (∀ k e, s.updateEvents.get k = some e → e.notified = false →
      (sendBatchUpdateNotification s now).state.updateEvents.get k =
        some { e with notified := true }) ∧
    (∀ e ∈ (sendBatchUpdateNotification s now).state.updateEvents.values, e.notified = true) ∧
    (∀ inFlight, ∃ m,
      startBatchNotification ⟨s, inFlight⟩ now =
        ⟨{ s with sendCalls := s.sendCalls ++ [m] },
         inFlight ++ [⟨s.sendCalls.length, ch.send s.sendCalls m,
           .markNotified (unnotifiedKeys s)⟩]⟩) ∧
    (∀ k e, s.updateEvents.get k = some e → e.notified = false → k ∈ unnotifiedKeys s) ∧
    (∀ (b : Session) (call : Nat) (outcome : Option String) (captured : List String),
      b.inFlight.find? (fun x => x.call = call) =
        some ⟨call, outcome, .markNotified captured⟩ →
      (settleSend b call).plugin.sendCalls = b.plugin.sendCalls ∧
      (∀ k ∈ captured, ∀ e, b.plugin.updateEvents.get k = some e →
        (settleSend b call).plugin.updateEvents.get k = some { e with notified := true }) ∧
      (settleSend b call).inFlight = b.inFlight.filter (fun x => x.call != call)) := by
  refine ⟨fun s' message =>
    ⟨sendDiscordMessage_isReturned s' message, sendDiscordMessage_calls_le s' message⟩, ?_⟩
  obtain ⟨e0, he0, hn0⟩ := hpending
  have hmem : e0 ∈ unnotifiedUpdates s := by
    simp [unnotifiedUpdates, he0, hn0]
  cases hp : unnotifiedUpdates s with
  | nil => rw [hp] at hmem; cases hmem
  | cons ev rest =>
    obtain ⟨lg, h⟩ := sendBatchUpdateNotification_of_pending s now ch hch ev rest hp
    rw [h]
    refine ⟨rfl, by simp [Completion.state, markNotified], ?_, ?_, ?_, ?_, ?_⟩
    · intro k e hget hn
      have : e ∈ ev :: rest := by
        rw [← hp]; exact (mem_unnotifiedUpdates s e).2 ⟨⟨k, hget⟩, hn⟩
      simp only [Completion.state, markNotified, JSMap.get_mapValues, hget, Option.map_some',
        if_pos this]
    · intro e he
      simp only [Completion.state, markNotified, JSMap.values_mapValues, List.mem_map] at he
      obtain ⟨e', he', rfl⟩ := he
      by_cases hin : e' ∈ ev :: rest
      · simp [hin]
      · simp only [hin, if_false]
        by_contra hne
        apply hin
        rw [← hp]
        simp [unnotifiedUpdates, he']
        simpa using hne
    · intro inFlight
      exact ⟨_, startBatchNotification_of_pending ⟨s, inFlight⟩ now ch hch ev rest hp⟩
    · intro k e hget hn
      exact (mem_unnotifiedKeys s k).2 ⟨e, hget, hn⟩
    · intro b call outcome captured hfind
      obtain ⟨h1, _, h3, h4⟩ := settleSend_markNotified b call outcome captured hfind
      refine ⟨h1, ?_, h4⟩
      intro k hk e hget
      rw [h3 k, hget]
      simp [hk]

theorem batch_delivery_failure_recovered_witness :
    (sendBatchUpdateNotification
      (onPluginUpdated (mounted defaultOptions (some failingChannel)) 1 "SquadLeader" "v1.0.0"
        "v1.1.0" none) 5001).isReturned = true ∧
    (sendBatchUpdateNotification
      (onPluginUpdated (mounted defaultOptions (some failingChannel)) 1 "SquadLeader" "v1.0.0"
        "v1.1.0" none) 5001).state.sendCalls.length = 1 ∧
    (sendBatchUpdateNotification
      (onPluginUpdated (mounted defaultOptions (some failingChannel)) 1 "SquadLeader" "v1.0.0"
        "v1.1.0" none) 5001).state.updateEvents.get "SquadLeader" =
      some { newUpdateEvent 1 "SquadLeader" "v1.0.0" "v1.1.0" none with notified := true } ∧
    (settleSend
      (runAsync (mountedSession defaultOptions (some failingChannel))
        [.pluginUpdated 1 "SquadLeader" "v1.0.0" "v1.1.0" none, .timerFired 5001 0,
         .pluginUpdated 5002 "Seeder" "v2.0.0" "v2.0.1" none]) 0).plugin.updateEvents.get
        "SquadLeader" =
      some { newUpdateEvent 1 "SquadLeader" "v1.0.0" "v1.1.0" none with notified := true } :=
  have h := batch_delivery_failure_recovered
    (onPluginUpdated (mounted defaultOptions (some failingChannel)) 1 "SquadLeader" "v1.0.0"
      "v1.1.0" none) 5001 failingChannel rfl (by decide)
  ⟨h.2.1, h.2.2.1, h.2.2.2.1 "SquadLeader" _ (by decide) rfl,
   (h.2.2.2.2.2.2.2
      (runAsync (mountedSession defaultOptions (some failingChannel))
        [.pluginUpdated 1 "SquadLeader" "v1.0.0" "v1.1.0" none, .timerFired 5001 0,
         .pluginUpdated 5002 "Seeder" "v2.0.0" "v2.0.1" none])
      0 (some "Missing Access") ["SquadLeader"] (by decide)).2.1 "SquadLeader"
      (List.mem_singleton_self _) _ (by decide)⟩

/-! ## The end of a reminder cycle, with the send awaited -/

theorem startReminderNotification_of_below (a : Session) (now : Nat) (p : String)
    (ch : Channel) (hch : a.plugin.channel = some ch)
    (hlt : (currentCount a.plugin p : Int) < a.plugin.options.reminderSettings.maxReminders) :
    startReminderNotification a now p =
      ⟨{ a.plugin with
          reminderCounts := a.plugin.reminderCounts.set p (currentCount a.plugin p + 1)
          sendCalls := a.plugin.sendCalls ++
            [reminderOutMessage a.plugin now p (currentCount a.plugin p + 1)] },
       a.inFlight ++
        [⟨a.plugin.sendCalls.length,
          ch.send a.plugin.sendCalls
            (reminderOutMessage a.plugin now p (currentCount a.plugin p + 1)),
          .scheduleNext p (currentCount a.plugin p + 1)
            a.plugin.options.reminderSettings.maxReminders⟩]⟩ := by
  have hge : ¬ (currentCount a.plugin p : Int) ≥
      a.plugin.options.reminderSettings.maxReminders := not_le.mpr hlt
  simp only [startReminderNotification, hch, hge, if_false]
  rfl

/-- The settling of a send awaited by a reminder firing whose count had reached the cap: nothing
but the log line of a rejected promise. -/
theorem settleSend_scheduleNext_at_cap (b : Session) (call : Nat) (outcome : Option String)
    (p : String) (count : Nat) (maxReminders : Int) (hcap : (count : Int) = maxReminders)
    (hfind : b.inFlight.find? (fun x => x.call = call) =
      some ⟨call, outcome, .scheduleNext p count maxReminders⟩) :
    (settleSend b call).plugin.sendCalls = b.plugin.sendCalls ∧
    (settleSend b call).plugin.pending = b.plugin.pending ∧
    (settleSend b call).plugin.nextTimerId = b.plugin.nextTimerId ∧
    (settleSend b call).plugin.reminderTimers = b.plugin.reminderTimers ∧
    (settleSend b call).plugin.reminderCounts = b.plugin.reminderCounts ∧
    (settleSend b call).plugin.updateEvents = b.plugin.updateEvents ∧
    (settleSend b call).plugin.batchTimer = b.plugin.batchTimer := by
  have hnot : ¬ (count : Int) < maxReminders := by rw [hcap]; exact lt_irrefl _
  unfold settleSend
  rw [hfind]
  simp only [runContinuation, if_neg hnot]
  cases outcome with
  | none => exact ⟨rfl, rfl, rfl, rfl, rfl, rfl, rfl⟩
  | some error => exact ⟨rfl, rfl, rfl, rfl, rfl, rfl, rfl⟩

/-- C11, amended: in every state with a channel, a firing of `sendReminderNotification` that
raises the count of `p` to `maxReminders` sends the last reminder and arms no timer, neither
before its send settles nor when it settles, whatever has run in between; it removes nothing:
`reminderTimers` is left as it was and `reminderCounts` holds `maxReminders` for `p`. -/
theorem reminder_cycle_ends_at_cap (s : Plugin) (now : Nat) (p : String) (ch : Channel)
    (hch : s.channel = some ch)
    (hcap : ((currentCount s p + 1 : Nat) : Int) = s.options.reminderSettings.maxReminders) :
    (sendReminderNotification s now p).state.sendCalls =
      s.sendCalls ++ [reminderOutMessage s now p (currentCount s p + 1)] ∧
    (sendReminderNotification s now p).state.pending = s.pending ∧
    (sendReminderNotification s now p).state.reminderTimers = s.reminderTimers ∧
    (sendReminderNotification s now p).state.reminderCounts.get p =
      some (currentCount s p + 1) ∧
    (∀ inFlight,
      (startReminderNotification ⟨s, inFlight⟩ now p).plugin =
        { s with
          reminderCounts := s.reminderCounts.set p (currentCount s p + 1)
          sendCalls := s.sendCalls ++ [reminderOutMessage s now p (currentCount s p + 1)] } ∧
      (startReminderNotification ⟨s, inFlight⟩ now p).inFlight =
        inFlight ++
          [⟨s.sendCalls.length,
            ch.send s.sendCalls (reminderOutMessage s now p (currentCount s p + 1)),
            .scheduleNext p (currentCount s p + 1) s.options.reminderSettings.maxReminders⟩]) ∧
    (∀ (b : Session) (call : Nat) (outcome : Option String),
      b.inFlight.find? (fun x => x.call = call) =
        some ⟨call, outcome,
          .scheduleNext p (currentCount s p + 1) s.options.reminderSettings.maxReminders⟩ →
      (settleSend b call).plugin.sendCalls = b.plugin.sendCalls ∧
      (settleSend b call).plugin.pending = b.plugin.pending ∧
      (settleSend b call).plugin.reminderTimers = b.plugin.reminderTimers ∧
      (settleSend b call).plugin.reminderCounts = b.plugin.reminderCounts) := by
  obtain ⟨h1, h2, h3, h4⟩ := sendReminderNotification_at_cap s now p ch hch hcap
  have hlt : (currentCount s p : Int) < s.options.reminderSettings.maxReminders := by
    rw [← hcap]; push_cast; omega
  refine ⟨h1, h2, h3, by rw [h4]; exact JSMap.get_set_self _ _ _, ?_, ?_⟩
  · intro inFlight
    rw [startReminderNotification_of_below ⟨s, inFlight⟩ now p ch hch hlt]
    exact ⟨rfl, rfl⟩
  · intro b call outcome hfind
    obtain ⟨g1, g2, _, g4, g5, _, _⟩ :=
      settleSend_scheduleNext_at_cap b call outcome p _ _ hcap hfind
    exact ⟨g1, g2, g4, g5⟩

theorem reminder_cycle_ends_at_cap_witness :
    (sendReminderNotification
      (runReminders (setupReminderSystem (mounted reminderOptions (some acceptingChannel))
        "SquadLeader") "SquadLeader" [10, 20]) 30 "SquadLeader").state.reminderTimers =
      (runReminders (setupReminderSystem (mounted reminderOptions (some acceptingChannel))
        "SquadLeader") "SquadLeader" [10, 20]).reminderTimers ∧
    (sendReminderNotification
      (runReminders (setupReminderSystem (mounted reminderOptions (some acceptingChannel))
        "SquadLeader") "SquadLeader" [10, 20]) 30 "SquadLeader").state.reminderCounts.get
        "SquadLeader" = some 3 ∧
    (settleSend
      (startReminderNotification
        ⟨runReminders (setupReminderSystem (mounted reminderOptions (some acceptingChannel))
          "SquadLeader") "SquadLeader" [10, 20], []⟩ 30 "SquadLeader") 2).plugin.pending =
      (startReminderNotification
        ⟨runReminders (setupReminderSystem (mounted reminderOptions (some acceptingChannel))
          "SquadLeader") "SquadLeader" [10, 20], []⟩ 30 "SquadLeader").plugin.pending :=
  have h := reminder_cycle_ends_at_cap
    (runReminders (setupReminderSystem (mounted reminderOptions (some acceptingChannel))
      "SquadLeader") "SquadLeader" [10, 20]) 30 "SquadLeader" acceptingChannel rfl (by decide)
  ⟨h.2.2.1, h.2.2.2.1,
   (h.2.2.2.2.2
      (startReminderNotification
        ⟨runReminders (setupReminderSystem (mounted reminderOptions (some acceptingChannel))
          "SquadLeader") "SquadLeader" [10, 20], []⟩ 30 "SquadLeader")
      2 none (by decide)).2.1⟩

/-! ## Handles stay fresh -/

theorem freshHandles_congr (s s' : Plugin) (hp : s'.pending = s.pending)
    (hn : s'.nextTimerId = s.nextTimerId) (hr : s'.reminderTimers = s.reminderTimers)
    (h : FreshHandles s) : FreshHandles s' := by
  unfold FreshHandles
  rw [hp, hn, hr]
  exact h

theorem freshHandles_of_subset (s s' : Plugin) (hp : ∀ t ∈ s'.pending, t ∈ s.pending)
    (hn : s'.nextTimerId = s.nextTimerId) (hr : s'.reminderTimers = s.reminderTimers)
    (h : FreshHandles s) : FreshHandles s' := by
  unfold FreshHandles
  rw [hn, hr]
  exact ⟨fun t ht => h.1 t (hp t ht), h.2⟩

theorem freshHandles_mounted (options : Options) (channel : Option Channel) :
    FreshHandles (mounted options channel) := by
  refine ⟨?_, ?_⟩
  · intro t ht
    cases ht
  · intro p h hget
    cases hget

theorem freshHandles_scheduleNextReminder (s : Plugin) (p : String) (delay : JSValue)
    (h : FreshHandles s) : FreshHandles (scheduleNextReminder s p delay) := by
  unfold scheduleNextReminder setTimeout
  refine ⟨?_, ?_⟩
  · intro t ht
    simp only [List.mem_append, List.mem_singleton] at ht
    rcases ht with ht | ht
    · exact Nat.lt_succ_of_lt (h.1 t ht)
    · subst ht
      exact Nat.lt_succ_self _
  · intro q hq hget
    by_cases hqp : q = p
    · subst hqp
      simp only [JSMap.get_set_self, Option.some.injEq] at hget
      subst hget
      exact Nat.lt_succ_self _
    · simp only [JSMap.get_set_of_ne _ _ _ _ hqp] at hget
      exact Nat.lt_succ_of_lt (h.2 q hq hget)

/-- What `onPluginUpdated` leaves of the batch timer, with notifications enabled: the handle just
allocated is remembered in `batchTimer`, its timeout is pending, no other pending timeout has
that handle, and handles stay fresh. -/
theorem onPluginUpdated_arms_batch (s : Plugin) (now : Nat) (p old new : String)
    (backup : Option String) (hen : s.options.enableUpdateNotifications = true)
    (hf : FreshHandles s) :
    (onPluginUpdated s now p old new backup).batchTimer = some s.nextTimerId ∧
    (⟨s.nextTimerId, .number s.batchDelay, .batch⟩ : Timer) ∈
      (onPluginUpdated s now p old new backup).pending ∧
    (∀ t ∈ (onPluginUpdated s now p old new backup).pending,
      t.id = s.nextTimerId → t.action = .batch) ∧
    FreshHandles (onPluginUpdated s now p old new backup) := by
  have hA : ∀ t ∈ (afterBatchArm s now p old new backup).pending,
      t ∈ s.pending ∨ t = ⟨s.nextTimerId, .number s.batchDelay, .batch⟩ := by
    intro t ht
    simp only [afterBatchArm, List.mem_append, List.mem_singleton] at ht
    rcases ht with ht | ht
    · exact Or.inl ((mem_pendingWithout _ _ _).1 ht).1
    · exact Or.inr ht
  have hfA : FreshHandles (afterBatchArm s now p old new backup) := by
    refine ⟨?_, ?_⟩
    · intro t ht
      rcases hA t ht with h | h
      · exact Nat.lt_succ_of_lt (hf.1 t h)
      · subst h
        exact Nat.lt_succ_self _
    · intro q h hget
      exact Nat.lt_succ_of_lt (hf.2 q h hget)
  have hmemA : (⟨s.nextTimerId, .number s.batchDelay, .batch⟩ : Timer) ∈
      (afterBatchArm s now p old new backup).pending := by
    simp [afterBatchArm]
  have hownA : ∀ t ∈ (afterBatchArm s now p old new backup).pending,
      t.id = s.nextTimerId → t.action = .batch := by
    intro t ht hid
    rcases hA t ht with h | h
    · have := hf.1 t h
      omega
    · subst h
      rfl
  rw [onPluginUpdated_eq s now p old new backup hen]
  by_cases hrem : s.options.reminderSettings.enabled = true
  · rw [if_pos hrem, setupReminderSystem_eq]
    refine ⟨rfl, ?_, ?_, ?_⟩
    · simp only [List.mem_append, List.mem_singleton]
      left
      refine (mem_pendingWithout _ _ _).2 ⟨hmemA, ?_⟩
      intro hget
      have hget' : s.reminderTimers.get p = some s.nextTimerId := hget
      have := hf.2 p s.nextTimerId hget'
      omega
    · intro t ht hid
      simp only [List.mem_append, List.mem_singleton] at ht
      rcases ht with ht | ht
      · exact hownA t ((mem_pendingWithout _ _ _).1 ht).1 hid
      · subst ht
        simp only [afterBatchArm] at hid
        omega
    · refine ⟨?_, ?_⟩
      · intro t ht
        simp only [List.mem_append, List.mem_singleton] at ht
        rcases ht with ht | ht
        · exact Nat.lt_succ_of_lt (hfA.1 t ((mem_pendingWithout _ _ _).1 ht).1)
        · subst ht
          exact Nat.lt_succ_self _
      · intro q h hget
        by_cases hqp : q = p
        · subst hqp
          simp only [JSMap.get_set_self, Option.some.injEq] at hget
          subst hget
          exact Nat.lt_succ_self _
        · simp only [JSMap.get_set_of_ne _ _ _ _ hqp] at hget
          exact Nat.lt_succ_of_lt (hfA.2 q h hget)
  · rw [if_neg hrem]
    exact ⟨rfl, hmemA, hownA, hfA⟩

theorem freshHandles_onPluginUpdated (s : Plugin) (now : Nat) (p old new : String)
    (backup : Option String) (hf : FreshHandles s) :
    FreshHandles (onPluginUpdated s now p old new backup) := by
  cases hen : s.options.enableUpdateNotifications with
  | false => rw [onPluginUpdated_disabled s now p old new backup hen]; exact hf
  | true => exact (onPluginUpdated_arms_batch s now p old new backup hen hf).2.2.2

theorem freshHandles_unmount (s : Plugin) (hf : FreshHandles s) : FreshHandles (unmount s) := by
  rw [unmount_eq]
  refine ⟨?_, ?_⟩
  · intro t ht
    simp only [List.mem_filter] at ht
    exact hf.1 t ((mem_pendingWithout _ _ _).1 ht.1).1
  · intro p h hget
    cases hget

theorem issueSend_plugin_frame (a : Session) (ch : Channel) (m : OutMessage)
    (k : Continuation) :
    (issueSend a ch m k).plugin.pending = a.plugin.pending ∧
    (issueSend a ch m k).plugin.nextTimerId = a.plugin.nextTimerId ∧
    (issueSend a ch m k).plugin.reminderTimers = a.plugin.reminderTimers :=
  ⟨rfl, rfl, rfl⟩

theorem startBatchNotification_frame (a : Session) (now : Nat) :
    (startBatchNotification a now).plugin.pending = a.plugin.pending ∧
    (startBatchNotification a now).plugin.nextTimerId = a.plugin.nextTimerId ∧
    (startBatchNotification a now).plugin.reminderTimers = a.plugin.reminderTimers := by
  unfold startBatchNotification
  split
  · exact ⟨rfl, rfl, rfl⟩
  · dsimp only
    split
    · exact ⟨rfl, rfl, rfl⟩
    · exact ⟨rfl, rfl, rfl⟩

theorem startReminderNotification_frame (a : Session) (now : Nat) (p : String) :
    (startReminderNotification a now p).plugin.pending = a.plugin.pending ∧
    (startReminderNotification a now p).plugin.nextTimerId = a.plugin.nextTimerId ∧
    (startReminderNotification a now p).plugin.reminderTimers = a.plugin.reminderTimers := by
  unfold startReminderNotification
  split
  · exact ⟨rfl, rfl, rfl⟩
  · split
    · exact ⟨rfl, rfl, rfl⟩
    · exact ⟨rfl, rfl, rfl⟩

theorem startRestartNotification_frame (a : Session) (now : Nat) (p : String) :
    (startRestartNotification a now p).plugin.pending = a.plugin.pending ∧
    (startRestartNotification a now p).plugin.nextTimerId = a.plugin.nextTimerId ∧
    (startRestartNotification a now p).plugin.reminderTimers = a.plugin.reminderTimers := by
  unfold startRestartNotification
  split
  · exact ⟨rfl, rfl, rfl⟩
  · exact ⟨rfl, rfl, rfl⟩

theorem freshHandles_runContinuation (s : Plugin) (k : Continuation) (hf : FreshHandles s) :
    FreshHandles (runContinuation s k) := by
  cases k with
  | markNotified captured => exact hf
  | scheduleNext p count maxReminders =>
    simp only [runContinuation]
    split
    · exact freshHandles_scheduleNextReminder s p _ hf
    · exact hf
  | nothing => exact hf

theorem freshHandles_settleSend (a : Session) (call : Nat) (hf : FreshHandles a.plugin) :
    FreshHandles (settleSend a call).plugin := by
  unfold settleSend
  split
  · exact hf
  · next send _ =>
    apply freshHandles_runContinuation
    cases send.outcome with
    | none => exact hf
    | some error => exact hf

/-- Handles are fresh after every callback, whatever is in flight. -/
theorem freshHandles_asyncStep (a : Session) (st : AsyncStep) (hf : FreshHandles a.plugin) :
    FreshHandles (asyncStep a st).plugin := by
  cases st with
  | pluginUpdated now p old new backup =>
    exact freshHandles_onPluginUpdated a.plugin now p old new backup hf
  | restartRequired now p =>
    have key : FreshHandles (startRestartNotification a now p).plugin := by
      obtain ⟨h1, h2, h3⟩ := startRestartNotification_frame a now p
      exact freshHandles_congr a.plugin _ h1 h2 h3 hf
    show FreshHandles
      (if !a.plugin.options.enableRestartReminders then a
       else
        match a.plugin.updateEvents.get p with
        | some updateEvent =>
          if updateEvent.notified then a else startRestartNotification a now p
        | none => startRestartNotification a now p).plugin
    split
    · exact hf
    · split
      · split
        · exact hf
        · exact key
      · exact key
  | timerFired now id =>
    show FreshHandles
      (match a.plugin.pending.find? (fun t : Timer => t.id = id) with
       | none => a
       | some timer =>
         match timer.action with
         | .batch =>
           startBatchNotification
             { a with plugin := { a.plugin with
                 pending := a.plugin.pending.filter (fun t : Timer => t.id != id) } } now
         | .reminder pluginName =>
           startReminderNotification
             { a with plugin := { a.plugin with
                 pending := a.plugin.pending.filter (fun t : Timer => t.id != id) } } now
             pluginName).plugin
    split
    · exact hf
    · next timer _ =>
      have hsub : FreshHandles
          { a.plugin with pending := a.plugin.pending.filter (fun t => t.id != id) } :=
        freshHandles_of_subset a.plugin _
          (fun t ht => (List.mem_filter.mp ht).1) rfl rfl hf
      split
      · obtain ⟨h1, h2, h3⟩ := startBatchNotification_frame
          { a with plugin := { a.plugin with
              pending := a.plugin.pending.filter (fun t => t.id != id) } } now
        exact freshHandles_congr _ _ h1 h2 h3 hsub
      · next p _ =>
        obtain ⟨h1, h2, h3⟩ := startReminderNotification_frame
          { a with plugin := { a.plugin with
              pending := a.plugin.pending.filter (fun t => t.id != id) } } now p
        exact freshHandles_congr _ _ h1 h2 h3 hsub
  | sendSettled call => exact freshHandles_settleSend a call hf
  | unmount => exact freshHandles_unmount a.plugin hf

/-- Handles are fresh in every state the mounted plugin reaches. -/
theorem freshHandles_runAsync (a : Session) (steps : List AsyncStep)
    (hf : FreshHandles a.plugin) : FreshHandles (runAsync a steps).plugin := by
  induction steps generalizing a with
  | nil => exact hf
  | cons st rest ih => exact ih (asyncStep a st) (freshHandles_asyncStep a st hf)

/-! ## Events spaced more than the batch delay apart -/

/-- A store whose only un-notified event is the one under `p`. -/
theorem unnotified_entries_singleton (m : JSMap UpdateEvent) (p : String) (ev : UpdateEvent)
    (hget : m.get p = some ev) (hev : ev.notified = false)
    (honly : ∀ k e, m.get k = some e → e.notified = false → k = p) :
    m.entries.filter (fun x => !x.2.notified) = [(p, ev)] := by
  have h : m.entries.filter (fun x => !x.2.notified) =
      m.entries.filter (fun x => x.1 = p) := by
    apply List.filter_congr
    intro x hx
    obtain ⟨k, e⟩ := x
    have hk := (JSMap.mem_entries_iff m k e).1 hx
    by_cases hkp : k = p
    · subst hkp
      rw [hget] at hk
      cases hk
      simp [hev]
    · have hn : e.notified = true := by
        by_contra hne
        exact hkp (honly k e hk (by simpa using hne))
      simp [hn, hkp]
  rw [h]
  exact JSMap.filter_entries_key m.entries m.nodup p ev ((JSMap.mem_entries_iff m p ev).2 hget)

theorem unnotifiedUpdates_singleton (s : Plugin) (p : String) (ev : UpdateEvent)
    (hget : s.updateEvents.get p = some ev) (hev : ev.notified = false)
    (honly : ∀ k e, s.updateEvents.get k = some e → e.notified = false → k = p) :
    unnotifiedUpdates s = [ev] ∧ unnotifiedKeys s = [p] := by
  have h := unnotified_entries_singleton s.updateEvents p ev hget hev honly
  refine ⟨?_, ?_⟩
  · unfold unnotifiedUpdates JSMap.values
    rw [List.filter_map]
    have : (List.filter ((fun event : UpdateEvent => !event.notified) ∘ Prod.snd)
        s.updateEvents.entries) = [(p, ev)] := h
    rw [this]
    rfl
  · unfold unnotifiedKeys
    rw [h]
    rfl

theorem settleSend_markNotified_eq (b : Session) (call : Nat) (outcome : Option String)
    (captured : List String)
    (hfind : b.inFlight.find? (fun x => x.call = call) =
      some ⟨call, outcome, .markNotified captured⟩) :
    ∃ lg, settleSend b call =
      ⟨markStored { b.plugin with log := lg } captured,
       b.inFlight.filter (fun x => x.call != call)⟩ := by
  unfold settleSend
  rw [hfind]
  cases outcome with
  | none => exact ⟨b.plugin.log, rfl⟩
  | some error => exact ⟨_, rfl⟩

theorem settleLatest_of_idle (a : Session) (h : a.inFlight = []) : settleLatest a = a := by
  unfold settleLatest settleSend
  rw [h]
  rfl

theorem settleLatest_of_awaited (a : Session) (outcome : Option String)
    (captured : List String)
    (h : a.inFlight = [⟨a.plugin.sendCalls.length - 1, outcome, .markNotified captured⟩]) :
    ∃ lg, settleLatest a = ⟨markStored { a.plugin with log := lg } captured, []⟩ := by
  have hfind : a.inFlight.find? (fun x => x.call = a.plugin.sendCalls.length - 1) =
      some ⟨a.plugin.sendCalls.length - 1, outcome, .markNotified captured⟩ := by
    rw [h]
    simp
  obtain ⟨lg, e⟩ := settleSend_markNotified_eq a _ outcome captured hfind
  refine ⟨lg, ?_⟩
  unfold settleLatest
  rw [e, h]
  simp

/-- The firing of the batch timer in a state with nothing in flight whose only un-notified event
is `ev`, stored under `p`: the single-update message of `ev` is handed to the sink and awaited
with `p` captured. -/
theorem fireBatchTimer_single (c : Session) (now : Nat) (ch : Channel) (p : String)
    (ev : UpdateEvent) (n : Nat) (hidle : c.inFlight = [])
    (hch : c.plugin.channel = some ch)
    (hget : c.plugin.updateEvents.get p = some ev) (hev : ev.notified = false)
    (honly : ∀ k e, c.plugin.updateEvents.get k = some e → e.notified = false → k = p)
    (hbt : c.plugin.batchTimer = some n)
    (hmem : ∃ delay, (⟨n, delay, .batch⟩ : Timer) ∈ c.plugin.pending)
    (hown : ∀ t ∈ c.plugin.pending, t.id = n → t.action = .batch) :
    fireBatchTimer c now =
      ⟨{ c.plugin with
          pending := c.plugin.pending.filter (fun t => t.id != n)
          sendCalls := c.plugin.sendCalls ++ [singleUpdateOutMessage c.plugin now ev] },
       [⟨c.plugin.sendCalls.length,
         ch.send c.plugin.sendCalls (singleUpdateOutMessage c.plugin now ev),
         .markNotified [p]⟩]⟩ := by
  obtain ⟨hU, hK⟩ := unnotifiedUpdates_singleton c.plugin p ev hget hev honly
  obtain ⟨delay, hmem⟩ := hmem
  unfold fireBatchTimer
  rw [hbt]
  cases hf : c.plugin.pending.find? (fun t => t.id = n) with
  | none =>
    have := List.find?_eq_none.mp hf _ hmem
    simp at this
  | some timer =>
    have htm := List.mem_of_find?_eq_some hf
    have hid : timer.id = n := by simpa using List.find?_some hf
    have hact := hown timer htm hid
    simp only [asyncStep, hf, hact]
    refine (startBatchNotification_of_pending
      ⟨{ c.plugin with pending := c.plugin.pending.filter (fun t => t.id != n) }, c.inFlight⟩
      now ch hch ev [] hU).trans ?_
    have hK' : unnotifiedKeys
        { c.plugin with pending := c.plugin.pending.filter (fun t => t.id != n) } = [p] := hK
    simp only [if_true, issueSend, hidle, List.nil_append, hK']
    rfl

theorem get_markStored (s : Plugin) (captured : List String) (k : String) :
    (markStored s captured).updateEvents.get k =
      (s.updateEvents.get k).map (fun e =>
        if k ∈ captured then { e with notified := true } else e) :=
  JSMap.get_mapWithKey _ _ k

/-- Once the latest send has settled, nothing is in flight and no stored event is un-notified. -/
theorem settleLatest_spec (a : Session) (hinv : SpacedInv a) :
    (settleLatest a).inFlight = [] ∧
    (∀ k e, (settleLatest a).plugin.updateEvents.get k = some e → e.notified = true) ∧
    (settleLatest a).plugin.sendCalls = a.plugin.sendCalls ∧
    (settleLatest a).plugin.options = a.plugin.options ∧
    (settleLatest a).plugin.channel = a.plugin.channel ∧
    FreshHandles (settleLatest a).plugin := by
  obtain ⟨hfresh, hstate | ⟨outcome, captured, hfl, hcap⟩⟩ := hinv
  · obtain ⟨hidle, hnot⟩ := hstate
    rw [settleLatest_of_idle a hidle]
    refine ⟨hidle, ?_, rfl, rfl, rfl, hfresh⟩
    intro k e hget
    by_contra hn
    have : e ∈ unnotifiedUpdates a.plugin :=
      (mem_unnotifiedUpdates a.plugin e).2 ⟨⟨k, hget⟩, by simpa using hn⟩
    rw [hnot] at this
    cases this
  · obtain ⟨lg, e⟩ := settleLatest_of_awaited a outcome captured hfl
    rw [e]
    refine ⟨rfl, ?_, rfl, rfl, rfl, ?_⟩
    · intro k ev hget
      rw [get_markStored] at hget
      simp only [Option.map_eq_some'] at hget
      obtain ⟨e0, he0, rfl⟩ := hget
      by_cases hk : k ∈ captured
      · simp [hk]
      · simp only [hk, if_false]
        by_contra hn
        exact hk (hcap k e0 he0 (by simpa using hn))
    · exact freshHandles_congr a.plugin _ rfl rfl rfl hfresh

/-- One round of a spaced sequence: whether the send of the firing before settles before the
event or after it, the firing of the batch timer hands the single-update message of the event
to the sink. -/
theorem spacedRound_spec (a : Session) (x : SpacedUpdate) (ch : Channel)
    (hen : a.plugin.options.enableUpdateNotifications = true)
    (hch : a.plugin.channel = some ch) (hinv : SpacedInv a) :
    (spacedRound a x).plugin.sendCalls =
      a.plugin.sendCalls ++ [singleUpdateOutMessage a.plugin x.fireNow x.update.event] ∧
    (spacedRound a x).inFlight =
      [⟨a.plugin.sendCalls.length,
        ch.send a.plugin.sendCalls (singleUpdateOutMessage a.plugin x.fireNow x.update.event),
        .markNotified [x.update.pluginName]⟩] ∧
    SpacedInv (spacedRound a x) ∧
    (spacedRound a x).plugin.options = a.plugin.options ∧
    (spacedRound a x).plugin.channel = a.plugin.channel := by
  obtain ⟨hfresh, hstate⟩ := hinv
  -- the state in which the batch timer fires
  have hready : ∃ c : Session,
      spacedRound a x = fireBatchTimer c x.fireNow ∧
      c.inFlight = [] ∧
      c.plugin.sendCalls = a.plugin.sendCalls ∧
      c.plugin.options = a.plugin.options ∧
      c.plugin.channel = a.plugin.channel ∧
      c.plugin.updateEvents.get x.update.pluginName = some x.update.event ∧
      (∀ k e, c.plugin.updateEvents.get k = some e → e.notified = false →
        k = x.update.pluginName) ∧
      (∃ n, c.plugin.batchTimer = some n ∧
        (∃ delay, (⟨n, delay, .batch⟩ : Timer) ∈ c.plugin.pending) ∧
        (∀ t ∈ c.plugin.pending, t.id = n → t.action = .batch)) ∧
      FreshHandles c.plugin := by
    have hstep : ∀ b : Session, asyncStep b x.update.toAsyncStep =
        ⟨onPluginUpdated b.plugin x.update.now x.update.pluginName x.update.oldVersion
          x.update.newVersion x.update.backupPath,
         if b.plugin.options.enableUpdateNotifications then
           b.inFlight.map (fun y =>
             { y with continuation := y.continuation.forget x.update.pluginName })
         else b.inFlight⟩ := fun _ => rfl
    cases hlate : x.settledLate with
    | false =>
      obtain ⟨b1, b2, b3, b4, b5, b6⟩ := settleLatest_spec a ⟨hfresh, hstate⟩
      have henb : (settleLatest a).plugin.options.enableUpdateNotifications = true := by
        rw [b4]; exact hen
      obtain ⟨g1, g2, g3, g4⟩ := onPluginUpdated_arms_batch (settleLatest a).plugin
        x.update.now x.update.pluginName x.update.oldVersion x.update.newVersion
        x.update.backupPath henb b6
      have hstore := onPluginUpdated_updateEvents (settleLatest a).plugin
        x.update.now x.update.pluginName x.update.oldVersion x.update.newVersion
        x.update.backupPath henb
      refine ⟨asyncStep (settleLatest a) x.update.toAsyncStep, ?_, ?_, ?_, ?_, ?_, ?_, ?_,
        ?_, ?_⟩
      · unfold spacedRound
        rw [hlate]
        rfl
      · rw [hstep, b1]
        simp
      · rw [hstep]
        simp only [onPluginUpdated_sendCalls]
        exact b3
      · rw [hstep]
        simp only [onPluginUpdated_options]
        exact b4
      · rw [hstep]
        simp only [onPluginUpdated_channel]
        exact b5
      · rw [hstep]
        simp only [hstore]
        exact JSMap.get_set_self _ _ _
      · intro k e hget hn
        rw [hstep] at hget
        simp only [hstore] at hget
        by_contra hk
        rw [JSMap.get_set_of_ne _ _ _ _ hk] at hget
        rw [b2 k e hget] at hn
        cases hn
      · exact ⟨_, g1, ⟨_, g2⟩, g3⟩
      · exact g4
    | true =>
      obtain ⟨g1, g2, g3, g4⟩ := onPluginUpdated_arms_batch a.plugin
        x.update.now x.update.pluginName x.update.oldVersion x.update.newVersion
        x.update.backupPath hen hfresh
      have hstore := onPluginUpdated_updateEvents a.plugin
        x.update.now x.update.pluginName x.update.oldVersion x.update.newVersion
        x.update.backupPath hen
      have hround : spacedRound a x =
          fireBatchTimer (settleLatest (asyncStep a x.update.toAsyncStep)) x.fireNow := by
        unfold spacedRound
        rw [hlate]
        rfl
      rcases hstate with ⟨hidle, hnot⟩ | ⟨outcome, captured, hfl, hcap⟩
      · have hc0 : (asyncStep a x.update.toAsyncStep).inFlight = [] := by
          rw [hstep, hidle]
          simp
        rw [settleLatest_of_idle _ hc0] at hround
        refine ⟨asyncStep a x.update.toAsyncStep, hround, hc0, ?_, ?_, ?_, ?_, ?_,
          ?_, ?_⟩
        · rw [hstep]
          simp only [onPluginUpdated_sendCalls]
        · rw [hstep]
          simp only [onPluginUpdated_options]
        · rw [hstep]
          simp only [onPluginUpdated_channel]
        · rw [hstep]
          simp only [hstore]
          exact JSMap.get_set_self _ _ _
        · intro k e hget hn
          rw [hstep] at hget
          simp only [hstore] at hget
          by_contra hk
          rw [JSMap.get_set_of_ne _ _ _ _ hk] at hget
          have : e ∈ unnotifiedUpdates a.plugin :=
            (mem_unnotifiedUpdates a.plugin e).2 ⟨⟨k, hget⟩, hn⟩
          rw [hnot] at this
          cases this
        · exact ⟨_, g1, ⟨_, g2⟩, g3⟩
        · exact g4
      · have hc0 : (asyncStep a x.update.toAsyncStep).inFlight =
            [⟨(asyncStep a x.update.toAsyncStep).plugin.sendCalls.length - 1, outcome,
              .markNotified (captured.filter (fun name => name ≠ x.update.pluginName))⟩] := by
          rw [hstep]
          simp only [hen, if_true, hfl, List.map_cons, List.map_nil, Continuation.forget,
            onPluginUpdated_sendCalls]
        obtain ⟨lg, e⟩ := settleLatest_of_awaited _ outcome _ hc0
        rw [e] at hround
        refine ⟨_, hround, rfl, ?_, ?_, ?_, ?_, ?_, ?_, ?_⟩
        · show (asyncStep a x.update.toAsyncStep).plugin.sendCalls = a.plugin.sendCalls
          rw [hstep]
          simp only [onPluginUpdated_sendCalls]
        · show (asyncStep a x.update.toAsyncStep).plugin.options = a.plugin.options
          rw [hstep]
          simp only [onPluginUpdated_options]
        · show (asyncStep a x.update.toAsyncStep).plugin.channel = a.plugin.channel
          rw [hstep]
          simp only [onPluginUpdated_channel]
        · simp only [get_markStored]
          show Option.map _ ((asyncStep a x.update.toAsyncStep).plugin.updateEvents.get
            x.update.pluginName) = _
          rw [hstep]
          simp only [hstore, JSMap.get_set_self, Option.map_some']
          simp
          rfl
        · intro k ev hget hn
          simp only [get_markStored] at hget
          have hget' : Option.map
              (fun e : UpdateEvent =>
                if k ∈ captured.filter (fun name => name ≠ x.update.pluginName) then
                  { e with notified := true } else e)
              ((onPluginUpdated a.plugin x.update.now x.update.pluginName x.update.oldVersion
                x.update.newVersion x.update.backupPath).updateEvents.get k) = some ev := hget
          rw [hstore] at hget'
          by_contra hk
          rw [JSMap.get_set_of_ne _ _ _ _ hk] at hget'
          simp only [Option.map_eq_some'] at hget'
          obtain ⟨e0, he0, rfl⟩ := hget'
          by_cases hin : k ∈ captured.filter (fun name => name ≠ x.update.pluginName)
          · rw [if_pos hin] at hn
            cases hn
          · simp only [hin, if_false] at hn
            apply hin
            simp only [List.mem_filter, decide_eq_true_eq]
            exact ⟨hcap k e0 he0 hn, hk⟩
        · exact ⟨_, g1, ⟨_, g2⟩, g3⟩
        · exact freshHandles_congr _ _ rfl rfl rfl g4
  obtain ⟨c, hround, hidle, hcalls, hopt, hchan, hget, honly, ⟨n, hbt, hmem, hown⟩, hfc⟩ :=
    hready
  have hfire := fireBatchTimer_single c x.fireNow ch x.update.pluginName x.update.event n hidle
    (by rw [hchan]; exact hch) hget rfl honly hbt hmem hown
  have hmsg : singleUpdateOutMessage c.plugin x.fireNow x.update.event =
      singleUpdateOutMessage a.plugin x.fireNow x.update.event :=
    singleUpdateOutMessage_congr a.plugin c.plugin hopt _ _
  rw [hround, hfire, hmsg, hcalls]
  refine ⟨rfl, rfl, ⟨?_, ?_⟩, hopt, hchan⟩
  · exact freshHandles_of_subset c.plugin _ (fun t ht => (List.mem_filter.mp ht).1) rfl rfl hfc
  · right
    refine ⟨ch.send a.plugin.sendCalls
      (singleUpdateOutMessage a.plugin x.fireNow x.update.event), [x.update.pluginName], ?_, ?_⟩
    · simp
    · intro k e hk hn
      exact List.mem_singleton.mpr (honly k e hk hn)

theorem runSpaced_append (a : Session) (done rest : List SpacedUpdate) :
    runSpaced a (done ++ rest) = runSpaced (runSpaced a done) rest := by
  unfold runSpaced
  rw [List.foldl_append]

/-- A spaced sequence, round by round. -/
theorem runSpaced_spec (updates : List SpacedUpdate) (a : Session) (ch : Channel)
    (hen : a.plugin.options.enableUpdateNotifications = true)
    (hch : a.plugin.channel = some ch) (hinv : SpacedInv a) :
    (runSpaced a updates).plugin.sendCalls =
      a.plugin.sendCalls ++
        updates.map (fun x => singleUpdateOutMessage a.plugin x.fireNow x.update.event) ∧
    SpacedInv (runSpaced a updates) ∧
    (runSpaced a updates).plugin.options = a.plugin.options ∧
    (runSpaced a updates).plugin.channel = a.plugin.channel := by
  induction updates generalizing a with
  | nil => exact ⟨by simp [runSpaced], hinv, rfl, rfl⟩
  | cons x rest ih =>
    obtain ⟨h1, _, h3, h4, h5⟩ := spacedRound_spec a x ch hen hch hinv
    have hrun : runSpaced a (x :: rest) = runSpaced (spacedRound a x) rest := rfl
    obtain ⟨i1, i2, i3, i4⟩ := ih (spacedRound a x) (by rw [h4]; exact hen)
      (by rw [h5]; exact hch) h3
    rw [hrun]
    refine ⟨?_, i2, i3.trans h4, i4.trans h5⟩
    rw [i1, h1]
    have hc : ∀ y : SpacedUpdate,
        singleUpdateOutMessage (spacedRound a x).plugin y.fireNow y.update.event =
          singleUpdateOutMessage a.plugin y.fireNow y.update.event :=
      fun y => singleUpdateOutMessage_congr a.plugin _ h4 y.fireNow y.update.event
    simp [hc]

/-- C2, as stated, fails: two updates for distinct plugins more than the batch delay apart, the
batch timer firing after each, with the send of the first firing not yet settled when the second
batch timer fires.  The first event is still un-notified then, so the second firing hands the
sink the multi-update message covering both events. -/
theorem unsettled_send_makes_batch_message :
    (runAsync (mountedSession defaultOptions (some acceptingChannel))
      slowSendTrace).plugin.sendCalls =
      [singleUpdateOutMessage (mounted defaultOptions (some acceptingChannel)) 5001
         (newUpdateEvent 1 "SquadLeader" "v1.0.0" "v1.1.0" none),
       multipleUpdatesOutMessage (mounted defaultOptions (some acceptingChannel)) 11000
         [newUpdateEvent 1 "SquadLeader" "v1.0.0" "v1.1.0" none,
          newUpdateEvent 6000 "Seeder" "v2.0.0" "v2.0.1" none]] := by
  decide

/-- C2, amended: with update notifications enabled and a channel, in every state the mounted
plugin has reached with no send in flight and no un-notified event, for every sequence of update
events in which the batch timer fires between each event and the next and the send of each
firing has settled (resolved or rejected, before or after the next event) by the time the next
batch timer fires, every firing makes exactly one call to the sink, with the single-update
message of the event that armed it, and awaits it with that event alone captured: the messages
sent are the single-update messages of the events, one per event and in their order, none of
them a multi-update message. -/
theorem settled_spaced_updates_send_single_messages (updates : List SpacedUpdate)
    (a : Session) (ch : Channel) (options : Options) (channel : Option Channel)
    (steps : List AsyncStep) (hreached : a = runAsync (mountedSession options channel) steps)
    (hen : a.plugin.options.enableUpdateNotifications = true)
    (hch : a.plugin.channel = some ch)
    (hidle : a.inFlight = []) (hnot : unnotifiedUpdates a.plugin = []) :
    (runSpaced a updates).plugin.sendCalls =
      a.plugin.sendCalls ++
        updates.map (fun x => singleUpdateOutMessage a.plugin x.fireNow x.update.event) ∧
    (∀ x ∈ updates,
      (singleUpdateOutMessage a.plugin x.fireNow x.update.event).embed.title =
        glyphUpdate ++ " Plugin Update Completed" ∧
      (singleUpdateOutMessage a.plugin x.fireNow x.update.event).embed.fields.take 2 =
        [{ name := "Plugin", value := .text x.update.pluginName, inline := true },
         { name := "Version",
           value := .text
             (x.update.oldVersion ++ " " ++ glyphArrow ++ " " ++ x.update.newVersion),
           inline := true }]) ∧
    (∀ (done rest : List SpacedUpdate) (x : SpacedUpdate), updates = done ++ x :: rest →
      (spacedRound (runSpaced a done) x).plugin.sendCalls =
        (runSpaced a done).plugin.sendCalls ++
          [singleUpdateOutMessage a.plugin x.fireNow x.update.event] ∧
      (spacedRound (runSpaced a done) x).inFlight =
        [⟨(runSpaced a done).plugin.sendCalls.length,
          ch.send (runSpaced a done).plugin.sendCalls
            (singleUpdateOutMessage a.plugin x.fireNow x.update.event),
          .markNotified [x.update.pluginName]⟩]) := by
  have hfresh : FreshHandles a.plugin := by
    rw [hreached]
    exact freshHandles_runAsync _ steps (freshHandles_mounted options channel)
  have hinv : SpacedInv a := ⟨hfresh, Or.inl ⟨hidle, hnot⟩⟩
  refine ⟨(runSpaced_spec updates a ch hen hch hinv).1, fun x _ => ⟨rfl, rfl⟩, ?_⟩
  intro done rest x _
  obtain ⟨_, d2, d3, d4⟩ := runSpaced_spec done a ch hen hch hinv
  obtain ⟨r1, r2, _⟩ := spacedRound_spec (runSpaced a done) x ch (by rw [d3]; exact hen)
    (by rw [d4]; exact hch) d2
  have hm : singleUpdateOutMessage (runSpaced a done).plugin x.fireNow x.update.event =
      singleUpdateOutMessage a.plugin x.fireNow x.update.event :=
    singleUpdateOutMessage_congr a.plugin _ d3 _ _
  rw [hm] at r1 r2
  exact ⟨r1, r2⟩

theorem settled_spaced_updates_send_single_messages_witness :
    (runSpaced
      (runAsync (mountedSession defaultOptions (some acceptingChannel))
        [.pluginUpdated 1 "Seeder" "v2.0.0" "v2.0.1" none, .timerFired 5001 0, .sendSettled 0])
      [{ update := { now := 100000, pluginName := "SquadLeader", oldVersion := "v1.0.0",
                     newVersion := "v1.1.0", backupPath := none },
         fireNow := 105001, settledLate := false },
       { update := { now := 106000, pluginName := "Seeder", oldVersion := "v2.0.1",
                     newVersion := "v2.0.2", backupPath := some "/backups/seeder" },
         fireNow := 111000, settledLate := true }]).plugin.sendCalls =
      (runAsync (mountedSession defaultOptions (some acceptingChannel))
        [.pluginUpdated 1 "Seeder" "v2.0.0" "v2.0.1" none, .timerFired 5001 0,
         .sendSettled 0]).plugin.sendCalls ++
      [singleUpdateOutMessage (mounted defaultOptions (some acceptingChannel)) 105001
         (newUpdateEvent 100000 "SquadLeader" "v1.0.0" "v1.1.0" none),
       singleUpdateOutMessage (mounted defaultOptions (some acceptingChannel)) 111000
         (newUpdateEvent 106000 "Seeder" "v2.0.1" "v2.0.2" (some "/backups/seeder"))] :=
  (settled_spaced_updates_send_single_messages
    [{ update := { now := 100000, pluginName := "SquadLeader", oldVersion := "v1.0.0",
                   newVersion := "v1.1.0", backupPath := none },
       fireNow := 105001, settledLate := false },
     { update := { now := 106000, pluginName := "Seeder", oldVersion := "v2.0.1",
                   newVersion := "v2.0.2", backupPath := some "/backups/seeder" },
       fireNow := 111000, settledLate := true }]
    (runAsync (mountedSession defaultOptions (some acceptingChannel))
      [.pluginUpdated 1 "Seeder" "v2.0.0" "v2.0.1" none, .timerFired 5001 0, .sendSettled 0])
    acceptingChannel defaultOptions (some acceptingChannel)
    [.pluginUpdated 1 "Seeder" "v2.0.0" "v2.0.1" none, .timerFired 5001 0, .sendSettled 0]
    rfl (by decide) rfl (by decide) (by decide)).1

/-! ## An update during an awaited reminder send -/

/-- C6 fails in the code: after `reminderRace` (an update event for the plugin arrived while the
send of its reminder firing was awaited, and the firing re-armed when the send resolved) two
reminder timers of the plugin are pending, #3 armed by the update event and #4 armed by the
resumed firing, and `reminderTimers` remembers only #4.  The next update event for the plugin
clears #4 alone: the old timer #3 stays pending beside the new timer #6, so the plugin has two
reminder timers and the old cycle goes on. -/
theorem update_leaves_old_reminder_timer :
    (pendingReminderTimers
      (runAsync (mountedSession reminderOptions (some acceptingChannel)) reminderRace).plugin
      "SquadLeader").map Timer.id = [3, 4] ∧
    (runAsync (mountedSession reminderOptions (some acceptingChannel))
      reminderRace).plugin.reminderTimers.get "SquadLeader" = some 4 ∧
    (runAsync (mountedSession reminderOptions (some acceptingChannel))
      reminderRace).inFlight = [] ∧
    (pendingReminderTimers
      (asyncStep (runAsync (mountedSession reminderOptions (some acceptingChannel)) reminderRace)
        (.pluginUpdated 21600100 "SquadLeader" "v1.2.0" "v1.3.0" none)).plugin
      "SquadLeader").map Timer.id = [3, 6] ∧
    (asyncStep (runAsync (mountedSession reminderOptions (some acceptingChannel)) reminderRace)
      (.pluginUpdated 21600100 "SquadLeader" "v1.2.0" "v1.3.0" none)).plugin.reminderTimers.get
      "SquadLeader" = some 6 := by
  decide

/-- In the state `reminderRace` reaches, `unmount` clears the reminder timer remembered in
`reminderTimers` and leaves the other reminder timer of the plugin pending: the loop under the
comment 'Clear all reminder timers' sees only the remembered handles. -/
theorem unmount_leaves_unremembered_timer :
    (unmount (runAsync (mountedSession reminderOptions (some acceptingChannel))
      reminderRace).plugin).pending =
      [⟨3, parseReminderInterval "6h", .reminder "SquadLeader"⟩] ∧
    (unmount (runAsync (mountedSession reminderOptions (some acceptingChannel))
      reminderRace).plugin).batchTimer = none ∧
    (unmount (runAsync (mountedSession reminderOptions (some acceptingChannel))
      reminderRace).plugin).reminderTimers.entries = [] := by
  decide

/-- With the send of each reminder firing settled before the next callback, the two timers the
race left behind both keep firing: after the second update the plugin gets the reminder `1/3`
from timer #3 and the reminder `2/3` from timer #4 one after the other, and both re-arm. -/
theorem raced_cycles_both_fire :
    ((runAsync (mountedSession reminderOptions (some acceptingChannel))
      (reminderRace ++
        [.timerFired 21605003 2, .sendSettled 2, .timerFired 43200002 3, .sendSettled 3,
         .timerFired 43200003 4, .sendSettled 4])).plugin.sendCalls.drop 3).map
      (fun m => m.embed.fields.get? 2) =
      [some { name := "Reminder", value := .text "1/3", inline := true },
       some { name := "Reminder", value := .text "2/3", inline := true }] ∧
    (pendingReminderTimers
      (runAsync (mountedSession reminderOptions (some acceptingChannel))
        (reminderRace ++
          [.timerFired 21605003 2, .sendSettled 2, .timerFired 43200002 3, .sendSettled 3,
           .timerFired 43200003 4, .sendSettled 4])).plugin "SquadLeader").map Timer.id =
      [5, 6] := by
  decide

end UpdateManagerPlugin
